import Mathlib

/-!
# Jobify portal: job and application records with their route handlers

A shallow embedding of `backend/models/{User,Job,Application}.js` and of the
handlers in `backend/routes/{jobs,applications}.js`.

* ObjectIds are natural numbers; two ids are equal exactly when their
  `toString()` values are, which is how the handlers compare them.
* The database is a record of three collections (lists of documents) and a
  source of fresh ObjectIds.  Every handler is a function from the database,
  the clock reading and the request to a response and the next database.
* A `try { ... } catch` around a handler turns every thrown error into the
  500 response; writes made before the throw stay.
* The two `GET /:id` handlers take the route parameter as it arrives
  (`IdParam`), since the routers also hand them paths such as `/stats`; a
  parameter that does not cast to an ObjectId makes `findById` throw.  The
  other handlers are stated for ids that cast.
* JavaScript numbers are integers here: the handlers move counters by one,
  and a request body is taken to carry integers.  The integers agree with
  the doubles of the code on safe integers (magnitude below 2^53,
  `IsSafeInteger`); numbers beyond are rounded by the code and not here.
* Document fields that no handler reads or writes by name (skills, benefits,
  tags, currency, period, deadline, feedback, salaryOffered, startDate, the
  remaining profile fields) are left out of the records.
* A router is the list of its routes in registration order, with first-match
  dispatch.
* What other requests write between two `await`s of a handler is modelled by
  a second database handed to the handler (`applyForJobInterleaved`).
* The pattern language of `$regex` is covered on a fragment (`Regex`,
  `compile`); `bcrypt` is a parameter of the user hook.
-/

namespace Jobify

/-! ## Strings as the validators see them -/

/-- Characters matched by the JavaScript regular expression class `\s`. -/
def isJsSpace (c : Char) : Bool :=
  let n := c.toNat
  n == 0x09 || n == 0x0A || n == 0x0B || n == 0x0C || n == 0x0D || n == 0x20 ||
  n == 0xA0 || n == 0x1680 || (0x2000 ≤ n && n ≤ 0x200A) ||
  n == 0x2028 || n == 0x2029 || n == 0x202F || n == 0x205F || n == 0x3000 || n == 0xFEFF

/-- The `.trim()` sanitizer of a validation chain: strip `\s` at both ends. -/
def jsTrim (s : String) : String :=
  String.mk ((s.data.dropWhile isJsSpace).reverse.dropWhile isJsSpace).reverse

/-- JavaScript `str.length`: the number of UTF-16 code units. -/
def utf16Length (s : String) : Nat :=
  (s.data.map (fun c => if 0x10000 ≤ c.toNat then 2 else 1)).sum

/-- The length `isLength` of a validation chain measures (validator.js 13.9
and later): `str.length` minus the number of variation selectors U+FE0F and
U+FE0E in the string minus the number of surrogate pairs. -/
def isLengthValue (s : String) : Nat :=
  let presentationSequences :=
    (s.data.filter (fun c => c.toNat == 0xFE0F || c.toNat == 0xFE0E)).length
  let surrogatePairs := (s.data.filter (fun c => decide (0x10000 ≤ c.toNat))).length
  utf16Length s - presentationSequences - surrogatePairs

/-- JavaScript truthiness of a string. -/
def truthyStr (s : String) : Bool := s != ""

/-- JavaScript truthiness of a possibly undefined string. -/
def truthy : Option String → Bool
  | none => false
  | some s => truthyStr s

/-! ## Data model -/

/-- Field `role` of `userSchema`. -/
inductive Role where
  | jobseeker | employer | admin
deriving DecidableEq, Repr

/-- Field `status` of `jobSchema`. -/
inductive JobStatus where
  | active | paused | closed
deriving DecidableEq, Repr

/-- Field `category` of `jobSchema`. -/
inductive Category where
  | internship | fullTime | partTime | contract | freelance
deriving DecidableEq, Repr

/-- Field `experience` of `jobSchema`. -/
inductive Experience where
  | entry | mid | senior | executive
deriving DecidableEq, Repr

/-- Field `status` of `applicationSchema`. -/
inductive AppStatus where
  | applied | underReview | shortlisted | interview | accepted | rejected
deriving DecidableEq, Repr

/-- Field `interviewType` of `applicationSchema`. -/
inductive InterviewType where
  | phone | video | inPerson | technical
deriving DecidableEq, Repr

/-- Sub-document `profile` of `userSchema` (the fields the routes touch). -/
structure Profile where
  resume : Option String
  company : Option String
  website : Option String
deriving DecidableEq, Repr

/-- A document of the `User` model. -/
structure User where
  id : Nat
  name : String
  email : String
  password : String
  role : Role
  profile : Profile
deriving DecidableEq, Repr

/-- A document of the `Job` model. -/
structure Job where
  id : Nat
  title : String
  company : String
  description : String
  requirements : String
  location : String
  category : Category
  salaryMin : Option Int
  salaryMax : Option Int
  experience : Experience
  postedBy : Nat
  status : JobStatus
  remote : Bool
  applicationCount : Int
  views : Int
  featured : Bool
  createdAt : Nat
  updatedAt : Nat
deriving DecidableEq, Repr

/-- A document of the `Application` model. -/
structure Application where
  id : Nat
  userId : Nat
  jobId : Nat
  resume : String
  coverLetter : Option String
  status : AppStatus
  appliedDate : Nat
  notes : Option String
  interviewDate : Option Nat
  interviewLocation : Option String
  interviewType : InterviewType
  createdAt : Nat
  updatedAt : Nat
deriving DecidableEq, Repr

/-- The three collections and the next fresh ObjectId. -/
structure Db where
  users : List User
  jobs : List Job
  applications : List Application
  nextId : Nat
deriving DecidableEq, Repr

/-- The response envelope `res.status(code).json(...)`. -/
structure Response (α : Type) where
  status : Nat
  success : Bool
  message : Option String
  data : Option α
deriving DecidableEq, Repr

/-- A route parameter such as `:id` as `findById` receives it: text that
casts to an ObjectId, or text that does not (`stats`, `my-jobs`), for which
the query throws a `CastError`. -/
inductive IdParam where
  | objectId (id : Nat)
  | malformed (text : String)
deriving DecidableEq, Repr

/-- Replace the first element satisfying `p` by its image under `f`:
what a single-document update does to a collection. -/
def updateFirst {α : Type} (p : α → Bool) (f : α → α) : List α → List α
  | [] => []
  | x :: xs => if p x then f x :: xs else x :: updateFirst p f xs

/-! ## Model operations (Mongoose calls made by the handlers) -/

/-- Query `Job.findById(id)`. -/
def Job.findById (db : Db) (id : Nat) : Option Job :=
  db.jobs.find? (fun j => j.id == id)

/-- Query `User.findById(id)`, used by `populate`. -/
def User.findById (db : Db) (id : Nat) : Option User :=
  db.users.find? (fun u => u.id == id)

/-- Query `Application.findById(id)`. -/
def Application.findById (db : Db) (id : Nat) : Option Application :=
  db.applications.find? (fun a => a.id == id)

/-- Query `Application.findOne({ userId, jobId })`. -/
def Application.findOne (db : Db) (userId jobId : Nat) : Option Application :=
  db.applications.find? (fun a => a.userId == userId && a.jobId == jobId)

/-- Update `Job.findByIdAndUpdate(id, { $inc: { applicationCount: d } })`;
the `timestamps` option also refreshes `updatedAt`. -/
def Job.incApplicationCount (db : Db) (now : Nat) (id : Nat) (d : Int) : Db :=
  let bump : Job → Job := fun j =>
    { j with applicationCount := j.applicationCount + d, updatedAt := now }
  { db with jobs := updateFirst (fun j => j.id == id) bump db.jobs }

/-- Schema validation run by `save()` on a new application: `resume` is
required (an empty string does not count) and `coverLetter` has
`maxlength` 1000, measured with `String.prototype.length`. -/
def Application.validate (resume : String) (coverLetter : String) : Bool :=
  truthyStr resume && decide (utf16Length coverLetter ≤ 1000)

/-- Hook `applicationSchema.pre('save')`: a new document bumps the counter of
its job. -/
def Application.preSave (db : Db) (now : Nat) (isNew : Bool) (jobId : Nat) : Db :=
  if isNew then Job.incApplicationCount db now jobId 1 else db

/-- Hook `applicationSchema.pre('remove')`: runs when `remove()` is called on
an application document. -/
def Application.preRemove (db : Db) (now : Nat) (jobId : Nat) : Db :=
  Job.incApplicationCount db now jobId (-1)

/-- Call `Application.create({ userId, jobId, resume, coverLetter })`: build the
document with a fresh id and the schema defaults, validate, run the
pre-save hook, then insert under the unique index on `(userId, jobId)`.
`none` stands for a thrown error; the database returned is the one the
throw leaves behind. -/
def Application.create (db : Db) (now : Nat) (userId jobId : Nat) (resume : String)
    (coverLetter : String) : Option Application × Db :=
  let doc : Application :=
    { id := db.nextId, userId := userId, jobId := jobId, resume := resume,
      coverLetter := some coverLetter, status := AppStatus.applied, appliedDate := now,
      notes := none, interviewDate := none, interviewLocation := none,
      interviewType := InterviewType.inPerson, createdAt := now, updatedAt := now }
  let db0 : Db := { db with nextId := db.nextId + 1 }
  if !Application.validate resume coverLetter then (none, db0) else
  let db1 := Application.preSave db0 now true jobId
  if db1.applications.any (fun a => a.userId == userId && a.jobId == jobId) then (none, db1) else
  (some doc, { db1 with applications := db1.applications ++ [doc] })

/-- Call `Application.findByIdAndDelete(id)`: removes one document; it is a
query, so only `findOneAndDelete` hooks would run and the schema has none. -/
def Application.findByIdAndDelete (db : Db) (id : Nat) : Db :=
  { db with applications := db.applications.eraseP (fun a => a.id == id) }

/-- Call `Application.deleteMany({ jobId })`. -/
def Application.deleteMany (db : Db) (jobId : Nat) : Db :=
  { db with applications := db.applications.filter (fun a => !(a.jobId == jobId)) }

/-- Call `Job.findByIdAndDelete(id)`. -/
def Job.findByIdAndDelete (db : Db) (id : Nat) : Db :=
  { db with jobs := db.jobs.eraseP (fun j => j.id == id) }

/-! ## Middleware -/

/-- Modelled from the spec: `middleware/auth.js` is not among the sources.
`protect` resolves the request to the caller's user document (`req.user`,
a parameter of every handler below) and `authorize(...roles)` lets the
request through exactly when the caller's role is one of `roles`; a caller
with another role is answered 403 ("valid identity, insufficient rights"). -/
def authorize (roles : List Role) (caller : User) : Bool :=
  roles.contains caller.role

/-- Modelled from the spec: the 403 answer of `authorize` (its message text
is not in the sources). -/
def roleForbidden {α : Type} : Response α :=
  { status := 403, success := false, message := none, data := none }

/-- The 400 answer every handler gives when `validationResult(req)` is not
empty. -/
def validationFailed {α : Type} : Response α :=
  { status := 400, success := false, message := some "Validation failed", data := none }

/-- The 500 answer of every `catch` block. -/
def serverError {α : Type} : Response α :=
  { status := 500, success := false, message := some "Server error", data := none }

/-- A failure answer `res.status(code).json({ success: false, message })`. -/
def failure {α : Type} (code : Nat) (msg : String) : Response α :=
  { status := code, success := false, message := some msg, data := none }

/-! ## Populated views -/

/-- What `populate('userId', 'name email profile')` puts in place of the id. -/
structure UserRef where
  id : Nat
  name : String
  email : String
  profile : Profile
deriving DecidableEq, Repr

/-- What `populate('jobId', ...)` puts in place of the id; a field that was
not selected is `none`. -/
structure JobRef where
  id : Nat
  title : Option String
  company : Option String
  location : Option String
  postedBy : Option Nat
deriving DecidableEq, Repr

/-- An application with its two references populated; a reference that
resolves to no document is `none` (JavaScript `null`). -/
structure PopulatedApplication where
  doc : Application
  userId : Option UserRef
  jobId : Option JobRef
deriving DecidableEq, Repr

/-- Populate `userId` with `name email profile`. -/
def populateUser (db : Db) (userId : Nat) : Option UserRef :=
  (User.findById db userId).map
    (fun u => { id := u.id, name := u.name, email := u.email, profile := u.profile })

/-- Populate `jobId` with `title company location`, and with `postedBy`
when `withOwner` is set. -/
def populateJob (db : Db) (jobId : Nat) (withOwner : Bool) : Option JobRef :=
  (Job.findById db jobId).map
    (fun j => { id := j.id, title := some j.title, company := some j.company,
                location := some j.location,
                postedBy := if withOwner then some j.postedBy else none })

/-- Populate `jobId` with `postedBy` only. -/
def populateJobOwner (db : Db) (jobId : Nat) : Option JobRef :=
  (Job.findById db jobId).map
    (fun j => { id := j.id, title := none, company := none, location := none,
                postedBy := some j.postedBy })

/-- An application populated with `userId` and `jobId` (`title company
location`, plus `postedBy` when `withOwner`). -/
def populateApplication (db : Db) (withOwner : Bool) (a : Application) : PopulatedApplication :=
  { doc := a, userId := populateUser db a.userId, jobId := populateJob db a.jobId withOwner }

/-! ## `routes/applications.js` -/

/-- Route `POST /api/applications` (apply for a job). -/
def applyForJob (db : Db) (now : Nat) (caller : User) (jobId : Nat)
    (coverLetter : Option String) : Response PopulatedApplication × Db :=
  if !authorize [Role.jobseeker] caller then (roleForbidden, db) else
  -- body('coverLetter').optional().trim().isLength(max 1000)
  let coverLetter := coverLetter.map jsTrim
  let valid := match coverLetter with
    | none => true
    | some s => decide (isLengthValue s ≤ 1000)
  if !valid then (validationFailed, db) else
  match Job.findById db jobId with
  | none => (failure 404 "Job not found", db)
  | some job =>
    if job.status ≠ JobStatus.active then
      (failure 400 "This job is no longer accepting applications", db)
    else
      match Application.findOne db caller.id jobId with
      | some _ => (failure 400 "You have already applied for this job", db)
      | none =>
        match caller.profile.resume with
        | none => (failure 400 "Please upload your resume before applying for jobs", db)
        | some resume =>
          if !truthyStr resume then
            (failure 400 "Please upload your resume before applying for jobs", db)
          else
            let text := match coverLetter with
              | none => ""
              | some s => if truthyStr s then s else ""
            match Application.create db now caller.id jobId resume text with
            | (none, db1) => (serverError, db1)
            | (some application, db1) =>
              ({ status := 201, success := true,
                 message := some "Application submitted successfully",
                 data := (Application.findById db1 application.id).map
                           (populateApplication db1 false) }, db1)

/-- Route `GET /api/applications/:id`.  `Application.findById` throws on a
parameter that does not cast to an ObjectId, and the `catch` block answers
500. -/
def getApplication (db : Db) (caller : User) : IdParam → Response PopulatedApplication
  | IdParam.malformed _ => serverError
  | IdParam.objectId id =>
    match Application.findById db id with
    | none => failure 404 "Application not found"
    | some a =>
      let application := populateApplication db true a
      match application.userId with
      | none => serverError
      | some u =>
        let isJobSeeker := caller.id == u.id
        match application.jobId with
        | none => serverError
        | some j =>
          match j.postedBy with
          | none => serverError
          | some owner =>
            let isEmployer := caller.id == owner
            let isAdmin := caller.role == Role.admin
            if !isJobSeeker && !isEmployer && !isAdmin then
              failure 403 "Not authorized to view this application"
            else
              { status := 200, success := true, message := none, data := some application }

/-- Route `DELETE /api/applications/:id`. -/
def deleteApplication (db : Db) (caller : User) (id : Nat) : Response Unit × Db :=
  match Application.findById db id with
  | none => (failure 404 "Application not found", db)
  | some application =>
    let isJobSeeker := caller.id == application.userId
    let isAdmin := caller.role == Role.admin
    if !isJobSeeker && !isAdmin then
      (failure 403 "Not authorized to delete this application", db)
    else
      ({ status := 200, success := true,
         message := some "Application deleted successfully", data := none },
       Application.findByIdAndDelete db id)

/-- The values `body('status').isIn([...])` accepts, as stored. -/
def AppStatus.ofString? : String → Option AppStatus
  | "applied" => some AppStatus.applied
  | "under-review" => some AppStatus.underReview
  | "shortlisted" => some AppStatus.shortlisted
  | "interview" => some AppStatus.interview
  | "accepted" => some AppStatus.accepted
  | "rejected" => some AppStatus.rejected
  | _ => none

/-- The values the `interviewType` enum of the schema accepts. -/
def InterviewType.ofString? : String → Option InterviewType
  | "phone" => some InterviewType.phone
  | "video" => some InterviewType.video
  | "in-person" => some InterviewType.inPerson
  | "technical" => some InterviewType.technical
  | _ => none

/-- Body of `PUT /api/applications/:id/status`; an absent key is `none`.  An
interview date is a time stamp, and 0 stands for any falsy value sent in its
place. -/
structure StatusBody where
  status : Option String
  notes : Option String
  interviewDate : Option Nat
  interviewLocation : Option String
  interviewType : Option String
deriving DecidableEq, Repr

/-- Call `Application.findByIdAndUpdate(id, updateData, { new, runValidators })`
with the `updateData` the handler builds.  Keys whose value is `undefined`
are dropped from the update, `interviewLocation` passes through the schema's
`trim` setter, and the update validators check `notes` (`maxlength` 500 in
code units) and `interviewType` (enum).  `none` stands for a thrown
validation error, which writes nothing. -/
def Application.findByIdAndUpdate (db : Db) (now : Nat) (id : Nat) (status : AppStatus)
    (notes : Option String) (interviewDate : Option Nat) (interviewLocation : Option String)
    (interviewType : Option String) : Option Db :=
  let notesOk := match notes with
    | none => true
    | some n => decide (utf16Length n ≤ 500)
  let typeOk := match interviewType with
    | none => true
    | some t => (InterviewType.ofString? t).isSome
  if !(notesOk && typeOk) then none else
  let upd : Application → Application := fun a =>
    { a with
      status := status
      notes := match notes with
        | none => a.notes
        | some n => some n
      interviewDate := match interviewDate with
        | none => a.interviewDate
        | some d => some d
      interviewLocation := match interviewLocation with
        | none => a.interviewLocation
        | some l => some (jsTrim l)
      interviewType := match interviewType.bind InterviewType.ofString? with
        | none => a.interviewType
        | some t => t
      updatedAt := now }
  some { db with applications := updateFirst (fun a => a.id == id) upd db.applications }

/-- Route `PUT /api/applications/:id/status`. -/
def updateApplicationStatus (db : Db) (now : Nat) (caller : User) (id : Nat)
    (body : StatusBody) : Response PopulatedApplication × Db :=
  if !authorize [Role.employer, Role.admin] caller then (roleForbidden, db) else
  -- body('status').isIn([...]); body('notes').optional().trim().isLength(max 500)
  let notes := body.notes.map jsTrim
  let notesValid := match notes with
    | none => true
    | some n => decide (isLengthValue n ≤ 500)
  match body.status.bind AppStatus.ofString? with
  | none => (validationFailed, db)
  | some status =>
    if !notesValid then (validationFailed, db) else
    match Application.findById db id with
    | none => (failure 404 "Application not found", db)
    | some a =>
      match populateJobOwner db a.jobId with
      | none => (serverError, db)
      | some j =>
        match j.postedBy with
        | none => (serverError, db)
        | some owner =>
          if owner ≠ caller.id && caller.role ≠ Role.admin then
            (failure 403 "Not authorized to update this application", db)
          else
            -- if (interviewDate) ..., if (interviewLocation) ..., if (interviewType) ...
            let interviewDate := body.interviewDate.filter (fun d => d != 0)
            let interviewLocation := body.interviewLocation.filter truthyStr
            let interviewType := body.interviewType.filter truthyStr
            match Application.findByIdAndUpdate db now id status notes interviewDate
                    interviewLocation interviewType with
            | none => (serverError, db)
            | some db1 =>
              ({ status := 200, success := true,
                 message := some "Application status updated successfully",
                 data := (Application.findById db1 id).map (populateApplication db1 false) },
               db1)

/-! ## `routes/jobs.js` -/

/-- The values of the `category` enum. -/
def Category.ofString? : String → Option Category
  | "internship" => some Category.internship
  | "full-time" => some Category.fullTime
  | "part-time" => some Category.partTime
  | "contract" => some Category.contract
  | "freelance" => some Category.freelance
  | _ => none

/-- The values of the `experience` enum. -/
def Experience.ofString? : String → Option Experience
  | "entry" => some Experience.entry
  | "mid" => some Experience.mid
  | "senior" => some Experience.senior
  | "executive" => some Experience.executive
  | _ => none

/-- The values of the job `status` enum. -/
def JobStatus.ofString? : String → Option JobStatus
  | "active" => some JobStatus.active
  | "paused" => some JobStatus.paused
  | "closed" => some JobStatus.closed
  | _ => none

/-- Request body of the job routes (`req.body`), restricted to the schema
paths of `Job` kept in this development; an absent key is `none`. -/
structure JobBody where
  title : Option String
  company : Option String
  description : Option String
  requirements : Option String
  location : Option String
  category : Option String
  salaryMin : Option Int
  salaryMax : Option Int
  experience : Option String
  postedBy : Option Nat
  status : Option String
  remote : Option Bool
  applicationCount : Option Int
  views : Option Int
  featured : Option Bool
deriving DecidableEq, Repr

/-- What `populate('postedBy', 'name email profile.company profile.website')`
puts in place of the owner id (`website` only where it is selected). -/
structure OwnerRef where
  id : Nat
  name : String
  email : String
  company : Option String
  website : Option String
deriving DecidableEq, Repr

/-- A job with `postedBy` populated. -/
structure PopulatedJob where
  doc : Job
  postedBy : Option OwnerRef
deriving DecidableEq, Repr

/-- The payload of `GET /api/jobs/:id`. -/
structure JobDetail where
  job : PopulatedJob
  hasApplied : Bool
  applicationStatus : Option AppStatus
deriving DecidableEq, Repr

/-- Populate `postedBy` of a job. -/
def populateOwner (db : Db) (withWebsite : Bool) (j : Job) : PopulatedJob :=
  { doc := j
    postedBy := (User.findById db j.postedBy).map (fun u =>
      { id := u.id, name := u.name, email := u.email, company := u.profile.company,
        website := if withWebsite then u.profile.website else none }) }

/-- A validation-chain check `isLength(min, max)` on a trimmed value. -/
def lengthBetween (lo hi : Nat) (s : String) : Bool :=
  decide (lo ≤ isLengthValue s) && decide (isLengthValue s ≤ hi)

/-- Schema validators of `Job` on the paths a write sets: `required` and
`maxlength` (in code units) on the text paths, `min: 0` on the salary
bounds, and the three enums. -/
def Job.validateBody (b : JobBody) : Bool :=
  let text (v : Option String) (max : Option Nat) : Bool :=
    match v with
    | none => true
    | some s => truthyStr s && (match max with
        | none => true
        | some m => decide (utf16Length s ≤ m))
  let nonneg (v : Option Int) : Bool :=
    match v with
    | none => true
    | some n => decide (0 ≤ n)
  text b.title (some 100) && text b.company (some 100) && text b.description (some 2000) &&
  text b.requirements (some 1000) && text b.location none &&
  (match b.category with
    | none => true
    | some c => (Category.ofString? c).isSome) &&
  (match b.experience with
    | none => true
    | some e => (Experience.ofString? e).isSome) &&
  (match b.status with
    | none => true
    | some t => (JobStatus.ofString? t).isSome) &&
  nonneg b.salaryMin && nonneg b.salaryMax

/-- The schema setters (`trim: true` on `title`, `company`, `location`). -/
def Job.applySetters (b : JobBody) : JobBody :=
  { b with title := b.title.map jsTrim, company := b.company.map jsTrim,
           location := b.location.map jsTrim }

/-- Overwrite the paths of a job that the body sets. -/
def Job.assign (j : Job) (b : JobBody) : Job :=
  { j with
    title := b.title.getD j.title
    company := b.company.getD j.company
    description := b.description.getD j.description
    requirements := b.requirements.getD j.requirements
    location := b.location.getD j.location
    category := (b.category.bind Category.ofString?).getD j.category
    salaryMin := match b.salaryMin with
      | none => j.salaryMin
      | some n => some n
    salaryMax := match b.salaryMax with
      | none => j.salaryMax
      | some n => some n
    experience := (b.experience.bind Experience.ofString?).getD j.experience
    postedBy := b.postedBy.getD j.postedBy
    status := (b.status.bind JobStatus.ofString?).getD j.status
    remote := b.remote.getD j.remote
    applicationCount := b.applicationCount.getD j.applicationCount
    views := b.views.getD j.views
    featured := b.featured.getD j.featured }

/-- Call `Job.create(jobData)`: schema defaults, then the given paths, then
validation and insert with a fresh id.  `none` stands for a thrown
validation error. -/
def Job.create (db : Db) (now : Nat) (b : JobBody) : Option Job × Db :=
  let b := Job.applySetters b
  let db0 : Db := { db with nextId := db.nextId + 1 }
  match b.title, b.company, b.description, b.requirements, b.location,
        b.category.bind Category.ofString?, b.experience.bind Experience.ofString?,
        b.postedBy with
  | some title, some company, some description, some requirements, some location,
    some category, some experience, some postedBy =>
    if !Job.validateBody b then (none, db0) else
    let defaults : Job :=
      { id := db.nextId, title := title, company := company, description := description,
        requirements := requirements, location := location, category := category,
        salaryMin := none, salaryMax := none, experience := experience,
        postedBy := postedBy, status := JobStatus.active, remote := false,
        applicationCount := 0, views := 0, featured := false,
        createdAt := now, updatedAt := now }
    let doc := Job.assign defaults b
    (some doc, { db0 with jobs := db0.jobs ++ [doc] })
  | _, _, _, _, _, _, _, _ => (none, db0)

/-- Call `Job.findByIdAndUpdate(id, req.body, { new, runValidators })`.
`none` stands for a thrown validation error, which writes nothing. -/
def Job.findByIdAndUpdate (db : Db) (now : Nat) (id : Nat) (b : JobBody) : Option Db :=
  let b := Job.applySetters b
  if !Job.validateBody b then none else
  some { db with jobs := updateFirst (fun j => j.id == id)
                   (fun j => { Job.assign j b with updatedAt := now }) db.jobs }

/-- Route `GET /api/jobs/:id`; `caller` is `req.user` of `optionalAuth`.
`Job.findById` throws on a parameter that does not cast to an ObjectId, and
the `catch` block answers 500. -/
def getJob (db : Db) (now : Nat) (caller : Option User) :
    IdParam → Response JobDetail × Db
  | IdParam.malformed _ => (serverError, db)
  | IdParam.objectId id =>
    match Job.findById db id with
    | none => (failure 404 "Job not found", db)
    | some job =>
      -- job.views += 1; await job.save()
      let job1 : Job := { job with views := job.views + 1, updatedAt := now }
      let db1 : Db :=
        { db with jobs := updateFirst (fun j => j.id == id) (fun _ => job1) db.jobs }
      let application := caller.bind (fun u => Application.findOne db1 u.id id)
      ({ status := 200, success := true, message := none,
         data := some { job := populateOwner db true job1,
                        hasApplied := application.isSome,
                        applicationStatus := application.map (fun a => a.status) } }, db1)

/-- Route `POST /api/jobs`. -/
def createJob (db : Db) (now : Nat) (caller : User) (body : JobBody) :
    Response PopulatedJob × Db :=
  if !authorize [Role.employer, Role.admin] caller then (roleForbidden, db) else
  -- the validation chains trim title, company, description, requirements, location
  let body : JobBody :=
    { body with title := body.title.map jsTrim, company := body.company.map jsTrim,
                description := body.description.map jsTrim,
                requirements := body.requirements.map jsTrim,
                location := body.location.map jsTrim }
  let valid :=
    (body.title.map (lengthBetween 5 100)).getD false &&
    (body.company.map (lengthBetween 2 100)).getD false &&
    (body.description.map (lengthBetween 50 2000)).getD false &&
    (body.requirements.map (lengthBetween 20 1000)).getD false &&
    (body.location.map truthyStr).getD false &&
    (body.category.bind Category.ofString?).isSome &&
    (body.experience.bind Experience.ofString?).isSome
  if !valid then (validationFailed, db) else
  -- jobData = (...req.body, postedBy: req.user.id)
  match Job.create db now { body with postedBy := some caller.id } with
  | (none, db1) => (serverError, db1)
  | (some job, db1) =>
    ({ status := 201, success := true, message := some "Job posted successfully",
       data := (Job.findById db1 job.id).map (populateOwner db1 false) }, db1)

/-- Route `PUT /api/jobs/:id`. -/
def updateJob (db : Db) (now : Nat) (caller : User) (id : Nat) (body : JobBody) :
    Response PopulatedJob × Db :=
  if !authorize [Role.employer, Role.admin] caller then (roleForbidden, db) else
  -- body('title').optional().trim().isLength(5, 100), same for description (50, 2000)
  let body : JobBody :=
    { body with title := body.title.map jsTrim, description := body.description.map jsTrim }
  let valid :=
    (body.title.map (lengthBetween 5 100)).getD true &&
    (body.description.map (lengthBetween 50 2000)).getD true
  if !valid then (validationFailed, db) else
  match Job.findById db id with
  | none => (failure 404 "Job not found", db)
  | some job =>
    if job.postedBy ≠ caller.id && caller.role ≠ Role.admin then
      (failure 403 "Not authorized to update this job", db)
    else
      match Job.findByIdAndUpdate db now id body with
      | none => (serverError, db)
      | some db1 =>
        ({ status := 200, success := true, message := some "Job updated successfully",
           data := (Job.findById db1 id).map (populateOwner db1 false) }, db1)

/-- Route `DELETE /api/jobs/:id`. -/
def deleteJob (db : Db) (caller : User) (id : Nat) : Response Unit × Db :=
  if !authorize [Role.employer, Role.admin] caller then (roleForbidden, db) else
  match Job.findById db id with
  | none => (failure 404 "Job not found", db)
  | some job =>
    if job.postedBy ≠ caller.id && caller.role ≠ Role.admin then
      (failure 403 "Not authorized to delete this job", db)
    else
      -- await Application.deleteMany(jobId); await Job.findByIdAndDelete(id)
      let db1 := Application.deleteMany db id
      let db2 := Job.findByIdAndDelete db1 id
      ({ status := 200, success := true, message := some "Job deleted successfully",
         data := none }, db2)

/-! ## Query strings and pagination -/

/-- The value of a character as a digit in the given radix, if it is one. -/
def digitValue (radix : Nat) (c : Char) : Option Nat :=
  let n := c.toNat
  let v : Option Nat :=
    if 48 ≤ n && n ≤ 57 then some (n - 48)
    else if 97 ≤ n && n ≤ 122 then some (n - 87)
    else if 65 ≤ n && n ≤ 90 then some (n - 55)
    else none
  v.filter (fun d => decide (d < radix))

/-- The values of the longest run of radix digits at the start of the input. -/
def takeDigits (radix : Nat) : List Char → List Nat
  | [] => []
  | c :: cs =>
    match digitValue radix c with
    | none => []
    | some d => d :: takeDigits radix cs

/-- JavaScript `parseInt(s)` without a radix: skip leading white space, read
a sign, read `0x` or `0X` as the mark of radix 16, then the longest run of
digits; `none` stands for `NaN`.  The value is the integer the digits
denote.  JavaScript returns that integer as a double: the same number when
it is a safe integer (`IsSafeInteger`); beyond, a rounded one (which one is
left to the implementation past 20 digits) or an infinity, which this
function does not follow. -/
def parseInt (s : String) : Option Int :=
  let cs := s.data.dropWhile isJsSpace
  let negative := match cs with
    | '-' :: _ => true
    | _ => false
  let cs := match cs with
    | '-' :: r => r
    | '+' :: r => r
    | _ => cs
  let radix : Nat := match cs with
    | '0' :: 'x' :: _ => 16
    | '0' :: 'X' :: _ => 16
    | _ => 10
  let cs := match cs with
    | '0' :: 'x' :: r => r
    | '0' :: 'X' :: r => r
    | _ => cs
  let ds := takeDigits radix cs
  if ds.isEmpty then none
  else
    let n : Int := ((ds.foldl (fun acc d => acc * radix + d) 0 : Nat) : Int)
    some (if negative then -n else n)

/-- The idiom `parseInt(req.query.x) || d`: an absent parameter, `NaN` and 0
all give the default. -/
def parseIntOr (q : Option String) (d : Int) : Int :=
  match q.bind parseInt with
  | none => d
  | some n => if n = 0 then d else n

/-- A query parameter as an `if (req.query.x)` test sees it: present and not
the empty string. -/
def present (q : Option String) : Option String := q.filter truthyStr

/-- The cursor calls `.skip(skip).limit(limit)`.  The store refuses a
negative `skip` (`none`, a thrown error); a negative `limit` is read as its
absolute value; `limit` is never 0 here. -/
def skipLimit {α : Type} (xs : List α) (skip limit : Int) : Option (List α) :=
  if skip < 0 then none else some ((xs.drop skip.toNat).take limit.natAbs)

/-- The value `Math.ceil(total / limit)` for a non-zero `limit`. -/
def ceilDiv (total : Nat) (limit : Int) : Int :=
  -(Int.fdiv (-(total : Int)) limit)

/-- The payload of a list response: `count`, `total`, `page`, `pages`,
`data`. -/
structure Page (α : Type) where
  count : Nat
  total : Nat
  page : Int
  pages : Int
  data : List α
deriving DecidableEq, Repr

/-- The answer `res.json({ success: true, count, total, page, pages, data })`
of the list handlers. -/
def pageEnvelope {α : Type} (data : List α) (total : Nat) (page limit : Int) :
    Response (Page α) :=
  { status := 200, success := true, message := none,
    data := some { count := data.length, total := total, page := page,
                   pages := ceilDiv total limit, data := data } }

/-! ## List handlers of `routes/jobs.js` -/

/-- The two query operators whose meaning lives in the database server and
not in this repository: `$text` search over the text index of `Job` and
`$regex` with option `i`.  `regexI pattern` is `none` when the server
rejects the pattern. -/
structure Mongo where
  textSearch : String → Job → Bool
  regexI : String → Option (String → Bool)

/-- The query string of `GET /api/jobs`; an absent parameter is `none`. -/
structure JobsQuery where
  page : Option String
  limit : Option String
  search : Option String
  location : Option String
  category : Option String
  experience : Option String
  remote : Option String
  minSalary : Option String
  maxSalary : Option String
  featured : Option String
  sort : Option String
deriving DecidableEq, Repr

/-- The `filter` object `GET /api/jobs` builds (always with
`status: 'active'`); a salary bound holds the result of `parseInt`. -/
structure JobFilter where
  text : Option String
  location : Option String
  category : Option String
  experience : Option String
  remote : Option Bool
  salaryMin : Option (Option Int)
  salaryMax : Option (Option Int)
  featured : Option Bool
deriving DecidableEq, Repr

/-- The filter construction of `GET /api/jobs`. -/
def jobsFilter (q : JobsQuery) : JobFilter :=
  { text := present q.search
    location := present q.location
    category := present q.category
    experience := present q.experience
    remote := (present q.remote).map (fun s => s == "true")
    salaryMin := (present q.minSalary).map parseInt
    salaryMax := (present q.maxSalary).map parseInt
    featured := (present q.featured).map (fun s => s == "true") }

/-- Whether a job satisfies the filter, given the compiled location
pattern.  A field the document lacks never satisfies a comparison. -/
def JobFilter.accepts (eng : Mongo) (f : JobFilter) (location : Option (String → Bool))
    (j : Job) : Bool :=
  (j.status == JobStatus.active) &&
  (match f.text with
    | none => true
    | some s => eng.textSearch s j) &&
  (match location with
    | none => true
    | some m => m j.location) &&
  (match f.category with
    | none => true
    | some c => Category.ofString? c == some j.category) &&
  (match f.experience with
    | none => true
    | some e => Experience.ofString? e == some j.experience) &&
  (match f.remote with
    | none => true
    | some r => j.remote == r) &&
  (match f.salaryMin, j.salaryMin with
    | none, _ => true
    | some (some n), some v => decide (n ≤ v)
    | some _, _ => false) &&
  (match f.salaryMax, j.salaryMax with
    | none, _ => true
    | some (some n), some v => decide (v ≤ n)
    | some _, _ => false) &&
  (match f.featured with
    | none => true
    | some r => j.featured == r)

/-- The documents `Job.find(filter)` and `Job.countDocuments(filter)` range
over, in collection order.  `none` stands for a thrown error: a salary
bound that is `NaN` cannot be cast to a number, and the server rejects an
invalid pattern. -/
def Job.find (eng : Mongo) (db : Db) (f : JobFilter) : Option (List Job) :=
  if f.salaryMin == some none || f.salaryMax == some none then none else
  match f.location with
  | none => some (db.jobs.filter (f.accepts eng none))
  | some pattern =>
    match eng.regexI pattern with
    | none => none
    | some m => some (db.jobs.filter (f.accepts eng (some m)))

/-- The `sort` objects of `GET /api/jobs`. -/
inductive JobSort where
  | createdDesc | createdAsc | salaryMaxDesc | salaryMinAsc | applicationCountDesc
deriving DecidableEq, Repr

/-- The sort construction of `GET /api/jobs` (the `switch` on
`req.query.sort`). -/
def jobSortOf (sort : Option String) : JobSort :=
  match present sort with
  | none => JobSort.createdDesc
  | some "newest" => JobSort.createdDesc
  | some "oldest" => JobSort.createdAsc
  | some "salary-high" => JobSort.salaryMaxDesc
  | some "salary-low" => JobSort.salaryMinAsc
  | some "applications" => JobSort.applicationCountDesc
  | some _ => JobSort.createdDesc

/-- The store's order on a numeric field that may be missing: a missing
value sorts before every number. -/
def nullLe : Option Int → Option Int → Bool
  | none, _ => true
  | some _, none => false
  | some a, some b => decide (a ≤ b)

/-- Whether `a` may stand before `b` under the sort. -/
def JobSort.before : JobSort → Job → Job → Bool
  | JobSort.createdDesc, a, b => decide (b.createdAt ≤ a.createdAt)
  | JobSort.createdAsc, a, b => decide (a.createdAt ≤ b.createdAt)
  | JobSort.salaryMaxDesc, a, b => nullLe b.salaryMax a.salaryMax
  | JobSort.salaryMinAsc, a, b => nullLe a.salaryMin b.salaryMin
  | JobSort.applicationCountDesc, a, b => decide (b.applicationCount ≤ a.applicationCount)

/-- The cursor call `.sort(sort)`: documents with equal keys keep their
collection order. -/
def sortJobs (s : JobSort) (jobs : List Job) : List Job :=
  jobs.insertionSort (fun a b => s.before a b = true)

/-- The map `applicationMap` of `GET /api/jobs`, filled by
`applications.forEach(app => applicationMap[app.jobId] = app.status)`. -/
def applicationMap (applications : List Application) : Nat → Option AppStatus :=
  applications.foldl (fun m a => fun k => if k == a.jobId then some a.status else m k)
    (fun _ => none)

/-- The two keys `GET /api/jobs` adds to a job for an authenticated
caller. -/
structure JobAnnotation where
  hasApplied : Bool
  applicationStatus : Option AppStatus
deriving DecidableEq, Repr

/-- An element of `data` in the answer of `GET /api/jobs`; without a caller
the two keys are absent. -/
structure JobListItem where
  job : PopulatedJob
  annotation : Option JobAnnotation
deriving DecidableEq, Repr

/-- Query `Application.find({ userId, jobId: { $in: jobIds } })`. -/
def Application.findForJobs (db : Db) (userId : Nat) (jobIds : List Nat) : List Application :=
  db.applications.filter (fun a => a.userId == userId && jobIds.contains a.jobId)

/-- The annotation step of `GET /api/jobs` (`jobsWithApplicationStatus`):
with a caller, one `Application.find` over the ids of the returned jobs
fills `applicationMap`, from which every job gets `hasApplied` and
`applicationStatus`; without a caller the jobs are returned as they are. -/
def jobAnnotation (db : Db) (caller : Option User) (jobs : List Job) :
    Job → Option JobAnnotation :=
  match caller with
  | none => fun _ => none
  | some user =>
    let jobIds := jobs.map (fun job => job.id)
    let applications := Application.findForJobs db user.id jobIds
    let map := applicationMap applications
    fun job => some { hasApplied := (map job.id).isSome, applicationStatus := map job.id }

/-- Route `GET /api/jobs`; `caller` is `req.user` of `optionalAuth`. -/
def getJobs (eng : Mongo) (db : Db) (caller : Option User) (q : JobsQuery) :
    Response (Page JobListItem) :=
  let page := parseIntOr q.page 1
  let limit := parseIntOr q.limit 10
  let skip := (page - 1) * limit
  let filter := jobsFilter q
  let sort := jobSortOf q.sort
  match Job.find eng db filter with
  | none => serverError
  | some matching =>
    match skipLimit (sortJobs sort matching) skip limit with
    | none => serverError
    | some jobs =>
      let total := matching.length
      pageEnvelope
        (jobs.map (fun job =>
          { job := populateOwner db false job, annotation := jobAnnotation db caller jobs job }))
        total page limit

/-- The query string of the remaining list routes. -/
structure ListQuery where
  page : Option String
  limit : Option String
  status : Option String
  jobId : Option Nat
  userId : Option Nat
deriving DecidableEq, Repr

/-- Route `GET /api/jobs/my-jobs`. -/
def getMyJobs (db : Db) (caller : User) (q : ListQuery) : Response (Page PopulatedJob) :=
  if !authorize [Role.employer, Role.admin] caller then roleForbidden else
  let page := parseIntOr q.page 1
  let limit := parseIntOr q.limit 10
  let skip := (page - 1) * limit
  let matching := db.jobs.filter (fun j =>
    j.postedBy == caller.id &&
    (match present q.status with
      | none => true
      | some s => JobStatus.ofString? s == some j.status))
  match skipLimit (sortJobs JobSort.createdDesc matching) skip limit with
  | none => serverError
  | some jobs => pageEnvelope (jobs.map (populateOwner db false)) matching.length page limit

/-! ## List handlers of `routes/applications.js` -/

/-- What `populate('jobId', 'title company location category salary
experience')` puts in place of the job id. -/
structure JobCard where
  id : Nat
  title : String
  company : String
  location : String
  category : Category
  salaryMin : Option Int
  salaryMax : Option Int
  experience : Experience
deriving DecidableEq, Repr

/-- An element of `data` in the answer of `GET /api/applications/my-applications`. -/
structure MyApplication where
  doc : Application
  jobId : Option JobCard
deriving DecidableEq, Repr

/-- An element of `data` in the answer of `GET /api/applications/job/:jobId`. -/
structure JobApplication where
  doc : Application
  userId : Option UserRef
deriving DecidableEq, Repr

/-- Populate `jobId` with `title company location category salary experience`. -/
def populateJobCard (db : Db) (a : Application) : MyApplication :=
  { doc := a
    jobId := (Job.findById db a.jobId).map (fun j =>
      { id := j.id, title := j.title, company := j.company, location := j.location,
        category := j.category, salaryMin := j.salaryMin, salaryMax := j.salaryMax,
        experience := j.experience }) }

/-- Populate `userId` with `name email profile`. -/
def populateApplicant (db : Db) (a : Application) : JobApplication :=
  { doc := a, userId := populateUser db a.userId }

/-- The equality `filter.status = req.query.status` on an application. -/
def statusAccepts (status : Option String) (a : Application) : Bool :=
  match present status with
  | none => true
  | some s => AppStatus.ofString? s == some a.status

/-- The cursor call `.sort({ appliedDate: -1 })`. -/
def sortApplications (applications : List Application) : List Application :=
  applications.insertionSort (fun a b => b.appliedDate ≤ a.appliedDate)

/-- Route `GET /api/applications/my-applications`. -/
def getMyApplications (db : Db) (caller : User) (q : ListQuery) :
    Response (Page MyApplication) :=
  if !authorize [Role.jobseeker] caller then roleForbidden else
  let page := parseIntOr q.page 1
  let limit := parseIntOr q.limit 10
  let skip := (page - 1) * limit
  let matching := db.applications.filter (fun a =>
    a.userId == caller.id && statusAccepts q.status a)
  match skipLimit (sortApplications matching) skip limit with
  | none => serverError
  | some applications =>
    pageEnvelope (applications.map (populateJobCard db)) matching.length page limit

/-- Route `GET /api/applications/job/:jobId`. -/
def getJobApplications (db : Db) (caller : User) (jobId : Nat) (q : ListQuery) :
    Response (Page JobApplication) :=
  if !authorize [Role.employer, Role.admin] caller then roleForbidden else
  let page := parseIntOr q.page 1
  let limit := parseIntOr q.limit 10
  let skip := (page - 1) * limit
  match Job.findById db jobId with
  | none => failure 404 "Job not found"
  | some job =>
    if job.postedBy ≠ caller.id && caller.role ≠ Role.admin then
      failure 403 "Not authorized to view applications for this job"
    else
      let matching := db.applications.filter (fun a =>
        a.jobId == jobId && statusAccepts q.status a)
      match skipLimit (sortApplications matching) skip limit with
      | none => serverError
      | some applications =>
        pageEnvelope (applications.map (populateApplicant db)) matching.length page limit

/-- Route `GET /api/applications` (admin only). -/
def getAllApplications (db : Db) (caller : User) (q : ListQuery) :
    Response (Page PopulatedApplication) :=
  if !authorize [Role.admin] caller then roleForbidden else
  let page := parseIntOr q.page 1
  let limit := parseIntOr q.limit 10
  let skip := (page - 1) * limit
  let matching := db.applications.filter (fun a =>
    statusAccepts q.status a &&
    (match q.jobId with
      | none => true
      | some j => a.jobId == j) &&
    (match q.userId with
      | none => true
      | some u => a.userId == u))
  match skipLimit (sortApplications matching) skip limit with
  | none => serverError
  | some applications =>
    pageEnvelope (applications.map (populateApplication db false)) matching.length page limit

/-! ## Statistics handlers -/

/-- The stages `$lookup` (from `jobs`, `jobId` against `_id`, as `job`) and
`$unwind: '$job'` that open both pipelines of `GET /api/applications/stats`:
one document per application and job whose `_id` is its `jobId`. -/
def lookupJob (db : Db) : List (Application × Job) :=
  db.applications.flatMap (fun a =>
    (db.jobs.filter (fun j => j.id == a.jobId)).map (fun j => (a, j)))

/-- An accumulator `$sum` over `$cond: [test, 1, 0]`. -/
def sumCond {α : Type} (test : α → Bool) (docs : List α) : Nat :=
  (docs.map (fun d => if test d then 1 else 0)).sum

/-- The document the first `$group` of `GET /api/applications/stats` builds. -/
structure ApplicationOverview where
  totalApplications : Nat
  applied : Nat
  underReview : Nat
  shortlisted : Nat
  interview : Nat
  accepted : Nat
  rejected : Nat
deriving DecidableEq, Repr

/-- Stage `$group` with `_id: null` over the joined applications: no input
document gives no output document. -/
def groupApplications (docs : List (Application × Job)) : List ApplicationOverview :=
  if docs.isEmpty then [] else
  [{ totalApplications := (docs.map (fun _ => 1)).sum
     applied := sumCond (fun d => d.1.status == AppStatus.applied) docs
     underReview := sumCond (fun d => d.1.status == AppStatus.underReview) docs
     shortlisted := sumCond (fun d => d.1.status == AppStatus.shortlisted) docs
     interview := sumCond (fun d => d.1.status == AppStatus.interview) docs
     accepted := sumCond (fun d => d.1.status == AppStatus.accepted) docs
     rejected := sumCond (fun d => d.1.status == AppStatus.rejected) docs }]

/-- Stage `$group` with `_id: '$key'` and `count: $sum 1`: one output
document per key that occurs.  The store fixes no order of the groups; here
they come in the order of the last occurrence of each key. -/
def groupCount {κ : Type} [DecidableEq κ] (keys : List κ) : List (κ × Nat) :=
  keys.dedup.map (fun k => (k, (keys.filter (fun x => x == k)).length))

/-- The payload of `GET /api/applications/stats`. -/
structure ApplicationStats where
  overview : ApplicationOverview
  statusBreakdown : List (AppStatus × Nat)
deriving DecidableEq, Repr

/-- The handler registered for `GET /api/applications/stats`;
`req.user._id` is the caller's id. -/
def getApplicationStats (db : Db) (caller : User) : Response ApplicationStats :=
  if !authorize [Role.employer, Role.admin] caller then roleForbidden else
  let docs := (lookupJob db).filter (fun d => d.2.postedBy == caller.id)
  let stats := groupApplications docs
  let statusStats := groupCount (docs.map (fun d => d.1.status))
  let zeros : ApplicationOverview :=
    { totalApplications := 0, applied := 0, underReview := 0, shortlisted := 0,
      interview := 0, accepted := 0, rejected := 0 }
  { status := 200, success := true, message := none,
    data := some { overview := stats.head?.getD zeros, statusBreakdown := statusStats } }

/-- The document the first `$group` of `GET /api/jobs/stats` builds. -/
structure JobOverview where
  totalJobs : Nat
  activeJobs : Nat
  totalApplications : Int
  totalViews : Int
deriving DecidableEq, Repr

/-- Stage `$group` with `_id: null` over the caller's jobs. -/
def groupJobs (docs : List Job) : List JobOverview :=
  if docs.isEmpty then [] else
  [{ totalJobs := (docs.map (fun _ => 1)).sum
     activeJobs := sumCond (fun j => j.status == JobStatus.active) docs
     totalApplications := (docs.map (fun j => j.applicationCount)).sum
     totalViews := (docs.map (fun j => j.views)).sum }]

/-- The payload of `GET /api/jobs/stats`. -/
structure JobStats where
  overview : JobOverview
  categories : List (Category × Nat)
deriving DecidableEq, Repr

/-- The handler registered for `GET /api/jobs/stats`. -/
def getJobStats (db : Db) (caller : User) : Response JobStats :=
  if !authorize [Role.employer, Role.admin] caller then roleForbidden else
  let docs := db.jobs.filter (fun j => j.postedBy == caller.id)
  let stats := groupJobs docs
  let categoryStats := groupCount (docs.map (fun j => j.category))
  let zeros : JobOverview :=
    { totalJobs := 0, activeJobs := 0, totalApplications := 0, totalViews := 0 }
  { status := 200, success := true, message := none,
    data := some { overview := stats.head?.getD zeros, categories := categoryStats } }

/-! ## Route tables -/

/-- HTTP methods the routers register. -/
inductive Method where
  | get | post | put | delete
deriving DecidableEq, Repr

/-- A segment of a route path: fixed text, or a parameter such as `:id`,
which stands for any one non-empty segment. -/
inductive Segment where
  | fixed (text : String)
  | param (name : String)
deriving DecidableEq, Repr

/-- Cut a path at every `/`, dropping empty pieces; `acc` holds the piece
being read, latest character first. -/
def splitPath : List Char → List Char → List String
  | acc, [] => if acc.isEmpty then [] else [String.mk acc.reverse]
  | acc, c :: cs =>
    if c == '/' then
      (if acc.isEmpty then splitPath [] cs else String.mk acc.reverse :: splitPath [] cs)
    else splitPath (c :: acc) cs

/-- The segments of a route path as written in `router.get('/job/:jobId', ...)`. -/
def pathPattern (path : String) : List Segment :=
  (splitPath [] path.data).map (fun s =>
    match s.data with
    | ':' :: name => Segment.param (String.mk name)
    | _ => Segment.fixed s)

/-- Whether a segment of the request path fits a segment of the route. -/
def Segment.fits : Segment → String → Bool
  | Segment.fixed text, s => text == s
  | Segment.param _, _ => true

/-- A registered route: method, path and the handler it leads to. -/
structure Route (η : Type) where
  method : Method
  path : String
  handler : η

/-- Whether a request fits a route: same method, as many segments, and
each segment fits. -/
def Route.fits {η : Type} (r : Route η) (method : Method) (url : String) : Bool :=
  let pattern := pathPattern r.path
  let segments := splitPath [] url.data
  r.method == method && pattern.length == segments.length &&
  (pattern.zip segments).all (fun p => p.1.fits p.2)

/-- First-match dispatch: the router tries its routes in registration
order, and the handlers of these routers answer without passing on. -/
def dispatch {η : Type} (routes : List (Route η)) (method : Method) (url : String) : Option η :=
  (routes.find? (fun r => r.fits method url)).map (fun r => r.handler)

/-- The handlers of `routes/jobs.js`. -/
inductive JobsHandler where
  | getJobs | getJob | createJob | updateJob | deleteJob | getMyJobs | getJobStats
deriving DecidableEq, Repr

/-- The handlers of `routes/applications.js`. -/
inductive ApplicationsHandler where
  | applyForJob | getMyApplications | getJobApplications | getAllApplications
  | updateApplicationStatus | getApplication | deleteApplication | getApplicationStats
deriving DecidableEq, Repr

/-- The routes of `routes/jobs.js` in the order of their registration. -/
def jobsRouter : List (Route JobsHandler) :=
  [ { method := Method.get, path := "/", handler := JobsHandler.getJobs },
    { method := Method.get, path := "/:id", handler := JobsHandler.getJob },
    { method := Method.post, path := "/", handler := JobsHandler.createJob },
    { method := Method.put, path := "/:id", handler := JobsHandler.updateJob },
    { method := Method.delete, path := "/:id", handler := JobsHandler.deleteJob },
    { method := Method.get, path := "/my-jobs", handler := JobsHandler.getMyJobs },
    { method := Method.get, path := "/stats", handler := JobsHandler.getJobStats } ]

/-- The routes of `routes/applications.js` in the order of their
registration. -/
def applicationsRouter : List (Route ApplicationsHandler) :=
  [ { method := Method.post, path := "/", handler := ApplicationsHandler.applyForJob },
    { method := Method.get, path := "/my-applications",
      handler := ApplicationsHandler.getMyApplications },
    { method := Method.get, path := "/job/:jobId",
      handler := ApplicationsHandler.getJobApplications },
    { method := Method.get, path := "/", handler := ApplicationsHandler.getAllApplications },
    { method := Method.put, path := "/:id/status",
      handler := ApplicationsHandler.updateApplicationStatus },
    { method := Method.get, path := "/:id", handler := ApplicationsHandler.getApplication },
    { method := Method.delete, path := "/:id", handler := ApplicationsHandler.deleteApplication },
    { method := Method.get, path := "/stats",
      handler := ApplicationsHandler.getApplicationStats } ]

/-! ## `models/User.js` -/

/-- A value of a plain user object. -/
inductive FieldValue where
  | objectId (id : Nat)
  | text (s : String)
  | role (r : Role)
  | profile (p : Profile)
deriving DecidableEq, Repr

/-- Method `toObject()` on a user document loaded with all its paths: the
keys and their values. -/
def User.toObject (u : User) : List (String × FieldValue) :=
  [("_id", FieldValue.objectId u.id), ("name", FieldValue.text u.name),
   ("email", FieldValue.text u.email), ("password", FieldValue.text u.password),
   ("role", FieldValue.role u.role), ("profile", FieldValue.profile u.profile)]

/-- Method `userSchema.methods.toJSON`: `toObject()`, then
`delete userObject.password`. -/
def User.toJSON (u : User) : List (String × FieldValue) :=
  let userObject := u.toObject
  userObject.filter (fun kv => kv.1 != "password")

/-- What one run of a `pre('save')` hook did to the document: the document
as it stood at each call of `next()`, in order, and the document when the
hook function finished. -/
structure HookRun where
  nextCalls : List User
  final : User
deriving DecidableEq, Repr

/-- Hook `userSchema.pre('save')`.  `hash` is `bcrypt.hash` and `salt` the
value `bcrypt.genSalt(12)` gave; `passwordModified` is
`this.isModified('password')`.  The `if` calls `next()` and does not return,
so the two lines after it run in either case. -/
def User.preSave (hash : String → String → String) (salt : String) (passwordModified : Bool)
    (doc : User) : HookRun :=
  -- if (!this.isModified('password')) next()
  let early := if !passwordModified then [doc] else []
  -- this.password = await bcrypt.hash(this.password, salt); next()
  let doc1 : User := { doc with password := hash doc.password salt }
  { nextCalls := early ++ [doc1], final := doc1 }

/-! ## Apply while other requests write -/

/-- Route `POST /api/applications` with the writes of other requests let in
between its `await`s: the lookups up to the pre-check read `db`, and by the
time `Application.create` runs the database is `db'`.  With `db' = db` this
is `applyForJob`. -/
def applyForJobInterleaved (db db' : Db) (now : Nat) (caller : User) (jobId : Nat)
    (coverLetter : Option String) : Response PopulatedApplication × Db :=
  if !authorize [Role.jobseeker] caller then (roleForbidden, db) else
  let coverLetter := coverLetter.map jsTrim
  let valid := match coverLetter with
    | none => true
    | some s => decide (isLengthValue s ≤ 1000)
  if !valid then (validationFailed, db) else
  match Job.findById db jobId with
  | none => (failure 404 "Job not found", db)
  | some job =>
    if job.status ≠ JobStatus.active then
      (failure 400 "This job is no longer accepting applications", db)
    else
      match Application.findOne db caller.id jobId with
      | some _ => (failure 400 "You have already applied for this job", db)
      | none =>
        match caller.profile.resume with
        | none => (failure 400 "Please upload your resume before applying for jobs", db)
        | some resume =>
          if !truthyStr resume then
            (failure 400 "Please upload your resume before applying for jobs", db)
          else
            let text := match coverLetter with
              | none => ""
              | some s => if truthyStr s then s else ""
            match Application.create db' now caller.id jobId resume text with
            | (none, db1) => (serverError, db1)
            | (some application, db1) =>
              ({ status := 201, success := true,
                 message := some "Application submitted successfully",
                 data := (Application.findById db1 application.id).map
                           (populateApplication db1 false) }, db1)

/-! ## The `$regex` operator -/

/-- Regular expressions: the fragment of the server's pattern language
(Perl-compatible regular expressions) covered here.  `fail` matches nothing
and is written by no pattern; it arises when a pattern is advanced over a
character. -/
inductive Regex where
  | fail : Regex
  | eps : Regex
  | lit (c : Char) : Regex
  | dot : Regex
  | seq (r s : Regex) : Regex
  | alt (r s : Regex) : Regex
  | star (r : Regex) : Regex
deriving DecidableEq, Repr

/-- Whether the expression matches the empty text. -/
def Regex.nullable : Regex → Bool
  | Regex.fail => false
  | Regex.eps => true
  | Regex.lit _ => false
  | Regex.dot => false
  | Regex.seq r s => r.nullable && s.nullable
  | Regex.alt r s => r.nullable || s.nullable
  | Regex.star _ => true

/-- The expression for what may follow once the character `d` has been
read.  Under option `i` a literal fits both cases of a letter; `.` fits
every character but a line feed. -/
def Regex.deriv : Regex → Char → Regex
  | Regex.fail, _ => Regex.fail
  | Regex.eps, _ => Regex.fail
  | Regex.lit c, d => if c.toLower == d.toLower then Regex.eps else Regex.fail
  | Regex.dot, d => if d == '\n' then Regex.fail else Regex.eps
  | Regex.seq r s, d =>
    if r.nullable then Regex.alt (Regex.seq (r.deriv d) s) (s.deriv d)
    else Regex.seq (r.deriv d) s
  | Regex.alt r s, d => Regex.alt (r.deriv d) (s.deriv d)
  | Regex.star r, d => Regex.seq (r.deriv d) (Regex.star r)

/-- Whether the expression matches some prefix of the text. -/
def Regex.matchesPrefix : Regex → List Char → Bool
  | r, [] => r.nullable
  | r, c :: cs => r.nullable || (r.deriv c).matchesPrefix cs

/-- Whether the expression matches somewhere in the text, which is what
`$regex` asks of a field. -/
def Regex.search (r : Regex) (text : List Char) : Bool :=
  text.tails.any r.matchesPrefix

/-- A group being read: the alternatives closed by `|` so far and the items
of the alternative in progress, both latest first. -/
structure Frame where
  done : List Regex
  cur : List Regex
deriving DecidableEq, Repr

/-- What the reader saw last: nothing since the start of a group or
alternative, an opening parenthesis, a quantifier, or another item. -/
inductive Prev where
  | start | opened | quantifier | item
deriving DecidableEq, Repr

/-- The reader of a pattern between two characters: the group in progress,
the groups around it (innermost first), whether a backslash is pending, and
what was read last. -/
structure Reader where
  top : Frame
  stack : List Frame
  escape : Bool
  prev : Prev
deriving DecidableEq, Repr

/-- The outcome of reading a pattern: an expression, a pattern the server
rejects, or a pattern that uses syntax outside the fragment. -/
inductive Compiled where
  | ok (r : Regex)
  | invalid
  | outside
deriving DecidableEq, Repr

/-- The reader part-way through a pattern, or its verdict. -/
inductive Reading where
  | going (st : Reader)
  | invalid
  | outside
deriving DecidableEq, Repr

/-- The items of one alternative, in order, as one expression. -/
def seqOf (items : List Regex) : Regex :=
  items.foldr Regex.seq Regex.eps

/-- The expression of a finished group. -/
def Frame.close (f : Frame) : Regex :=
  f.done.foldl (fun acc a => Regex.alt a acc) (seqOf f.cur.reverse)

/-- The characters with a meaning of their own in a pattern. -/
def isMeta (c : Char) : Bool :=
  c == '\\' || c == '^' || c == '$' || c == '.' || c == '|' || c == '?' || c == '*' ||
  c == '+' || c == '(' || c == ')' || c == '[' || c == ']' || c.toNat == 0x7B || c.toNat == 0x7D

/-- Append an item to the alternative in progress. -/
def Reader.push (st : Reader) (r : Regex) : Reader :=
  { st with top := { st.top with cur := r :: st.top.cur }, escape := false, prev := Prev.item }

/-- Apply a quantifier to the item read last.  A quantifier with nothing
to repeat is an error; one right after `(` or after another quantifier
belongs to syntax outside the fragment (`(?:`, `(*`, lazy and possessive
quantifiers). -/
def Reader.quantify (st : Reader) (c : Char) (q : Regex → Regex) : Reading :=
  match st.prev with
  | Prev.opened => if c == '+' then Reading.invalid else Reading.outside
  | Prev.quantifier => Reading.outside
  | Prev.start => Reading.invalid
  | Prev.item =>
    match st.top.cur with
    | [] => Reading.invalid
    | r :: rs =>
      Reading.going { st with top := { st.top with cur := q r :: rs }, prev := Prev.quantifier }

/-- Read one character of a pattern. -/
def Reader.step (st : Reader) (c : Char) : Reading :=
  if st.escape then
    -- a backslash before a letter or digit is a class, an assertion or a
    -- back reference; before any other character it makes that character literal
    if c.isAlphanum then Reading.outside else Reading.going (st.push (Regex.lit c))
  else if c == '\\' then Reading.going { st with escape := true }
  else if c == '(' then
    Reading.going { top := { done := [], cur := [] }, stack := st.top :: st.stack,
                    escape := false, prev := Prev.opened }
  else if c == ')' then
    match st.stack with
    | [] => Reading.invalid
    | f :: rest =>
      Reading.going { top := { f with cur := st.top.close :: f.cur }, stack := rest,
                      escape := false, prev := Prev.item }
  else if c == '|' then
    Reading.going { st with top := { done := seqOf st.top.cur.reverse :: st.top.done, cur := [] },
                            prev := Prev.start }
  else if c == '*' then st.quantify c Regex.star
  else if c == '+' then st.quantify c (fun r => Regex.seq r (Regex.star r))
  else if c == '?' then st.quantify c (fun r => Regex.alt r Regex.eps)
  else if c == '.' then Reading.going (st.push Regex.dot)
  else if c == '[' || c == '^' || c == '$' || c.toNat == 0x7B then Reading.outside
  else Reading.going (st.push (Regex.lit c))

/-- Read the characters of a pattern from left to right. -/
def readAll : Reading → List Char → Reading
  | rd, [] => rd
  | Reading.going st, c :: cs => readAll (st.step c) cs
  | rd, _ :: _ => rd

/-- Compile a pattern: read it through; a pending backslash or an open
group at the end is an error. -/
def compile (pattern : String) : Compiled :=
  let initial : Reader :=
    { top := { done := [], cur := [] }, stack := [], escape := false, prev := Prev.start }
  match readAll (Reading.going initial) pattern.data with
  | Reading.invalid => Compiled.invalid
  | Reading.outside => Compiled.outside
  | Reading.going st =>
    if st.escape || !st.stack.isEmpty then Compiled.invalid else Compiled.ok st.top.close

/-- A database server follows the fragment when it gives every pattern of
the fragment the meaning above and rejects what the fragment rejects; what
it does with a pattern outside the fragment is left open. -/
def Mongo.FollowsFragment (eng : Mongo) : Prop :=
  ∀ pattern : String,
    (∀ r, compile pattern = Compiled.ok r →
      eng.regexI pattern = some (fun text => r.search text.data)) ∧
    (compile pattern = Compiled.invalid → eng.regexI pattern = none)

/-- A database server that follows the fragment (and rejects every pattern
outside it); its text search accepts every job. -/
def fragmentMongo : Mongo :=
  { textSearch := fun _ _ => true
    regexI := fun pattern =>
      match compile pattern with
      | Compiled.ok r => some (fun text => r.search text.data)
      | _ => none }

/-! ## Reachable databases -/

/-- The databases the API can produce: start with some users and no jobs or
applications, then run any of the writing handlers with any request. -/
inductive Reachable : Db → Prop where
  | init (users : List User) :
      Reachable { users := users, jobs := [], applications := [], nextId := 0 }
  | createJob {db : Db} (now : Nat) (caller : User) (body : JobBody) :
      Reachable db → Reachable (createJob db now caller body).2
  | updateJob {db : Db} (now : Nat) (caller : User) (id : Nat) (body : JobBody) :
      Reachable db → Reachable (updateJob db now caller id body).2
  | getJob {db : Db} (now : Nat) (caller : Option User) (id : IdParam) :
      Reachable db → Reachable (getJob db now caller id).2
  | deleteJob {db : Db} (caller : User) (id : Nat) :
      Reachable db → Reachable (deleteJob db caller id).2
  | applyForJob {db : Db} (now : Nat) (caller : User) (jobId : Nat) (coverLetter : Option String) :
      Reachable db → Reachable (applyForJob db now caller jobId coverLetter).2
  | updateApplicationStatus {db : Db} (now : Nat) (caller : User) (id : Nat) (body : StatusBody) :
      Reachable db → Reachable (updateApplicationStatus db now caller id body).2
  | deleteApplication {db : Db} (caller : User) (id : Nat) :
      Reachable db → Reachable (deleteApplication db caller id).2

/-- The databases the API can produce without deleting a single application
and without a job request body that carries `applicationCount`. -/
inductive ReachableCounted : Db → Prop where
  | init (users : List User) :
      ReachableCounted { users := users, jobs := [], applications := [], nextId := 0 }
  | createJob {db : Db} (now : Nat) (caller : User) (body : JobBody) :
      body.applicationCount = none →
      ReachableCounted db → ReachableCounted (createJob db now caller body).2
  | updateJob {db : Db} (now : Nat) (caller : User) (id : Nat) (body : JobBody) :
      body.applicationCount = none →
      ReachableCounted db → ReachableCounted (updateJob db now caller id body).2
  | getJob {db : Db} (now : Nat) (caller : Option User) (id : IdParam) :
      ReachableCounted db → ReachableCounted (getJob db now caller id).2
  | deleteJob {db : Db} (caller : User) (id : Nat) :
      ReachableCounted db → ReachableCounted (deleteJob db caller id).2
  | applyForJob {db : Db} (now : Nat) (caller : User) (jobId : Nat) (coverLetter : Option String) :
      ReachableCounted db → ReachableCounted (applyForJob db now caller jobId coverLetter).2
  | updateApplicationStatus {db : Db} (now : Nat) (caller : User) (id : Nat) (body : StatusBody) :
      ReachableCounted db → ReachableCounted (updateApplicationStatus db now caller id body).2

/-- Every job's counter is the number of stored applications that reference
the job. -/
def Db.Counted (db : Db) : Prop :=
  ∀ j ∈ db.jobs,
    j.applicationCount = ((db.applications.map (fun a => a.jobId)).count j.id : Int)

/-! ## Sample data -/

/-- A job seeker with a resume on file. -/
def sampleSeeker : User :=
  { id := 101, name := "Sam", email := "sam@example.com", password := "h1",
    role := Role.jobseeker,
    profile := { resume := some "/uploads/sam.pdf", company := none, website := none } }

/-- A second job seeker, without a resume. -/
def sampleOther : User :=
  { id := 102, name := "Oli", email := "oli@example.com", password := "h2",
    role := Role.jobseeker,
    profile := { resume := none, company := none, website := none } }

/-- An employer. -/
def sampleEmployer : User :=
  { id := 201, name := "Eve", email := "eve@example.com", password := "h3",
    role := Role.employer,
    profile := { resume := none, company := some "Acme", website := none } }

/-- A second employer. -/
def sampleRival : User :=
  { id := 202, name := "Rob", email := "rob@example.com", password := "h4",
    role := Role.employer,
    profile := { resume := none, company := some "Globex", website := none } }

/-- An administrator. -/
def sampleAdmin : User :=
  { id := 301, name := "Ada", email := "ada@example.com", password := "h5",
    role := Role.admin,
    profile := { resume := none, company := none, website := none } }

/-- The users of the sample databases. -/
def sampleUsers : List User :=
  [sampleSeeker, sampleOther, sampleEmployer, sampleRival, sampleAdmin]

/-- A job posted by `sampleEmployer`. -/
def sampleJob (id : Nat) (status : JobStatus) (count : Int) : Job :=
  { id := id, title := "Backend developer", company := "Acme",
    description := "Build services", requirements := "Node", location := "Pune",
    category := Category.fullTime, salaryMin := none, salaryMax := none,
    experience := Experience.mid, postedBy := 201, status := status, remote := false,
    applicationCount := count, views := 0, featured := false, createdAt := 1, updatedAt := 1 }

/-- An application as `applyForJob` stores it. -/
def sampleApplication (id userId jobId : Nat) : Application :=
  { id := id, userId := userId, jobId := jobId, resume := "/uploads/sam.pdf",
    coverLetter := some "", status := AppStatus.applied, appliedDate := 2, notes := none,
    interviewDate := none, interviewLocation := none,
    interviewType := InterviewType.inPerson, createdAt := 2, updatedAt := 2 }

/-- One active job, nobody has applied. -/
def dbOpenJob : Db :=
  { users := sampleUsers, jobs := [sampleJob 1 JobStatus.active 0], applications := [],
    nextId := 2 }

/-- One active job (id 1) with the application (id 2) of `sampleSeeker`, and a
second job (id 3) with the application (id 4) of the same seeker. -/
def dbApplied : Db :=
  { users := sampleUsers,
    jobs := [sampleJob 1 JobStatus.active 1, sampleJob 3 JobStatus.active 1],
    applications := [sampleApplication 2 101 1, sampleApplication 4 101 3],
    nextId := 5 }

/-- One closed job on which `sampleOther` (no resume) has an application. -/
def dbClosedJob : Db :=
  { users := sampleUsers, jobs := [sampleJob 1 JobStatus.closed 1],
    applications := [sampleApplication 2 102 1], nextId := 3 }

/-- No jobs and no applications yet. -/
def dbEmpty : Db :=
  { users := sampleUsers, jobs := [], applications := [], nextId := 0 }

/-- A request body that passes the validation of `POST /api/jobs`. -/
def sampleBody : JobBody :=
  { title := some "Backend developer", company := some "Acme",
    description := some "Design, build and operate the services behind the job board.",
    requirements := some "Three years of Node.js and MongoDB.",
    location := some "Pune", category := some "full-time", salaryMin := none,
    salaryMax := none, experience := some "mid", postedBy := none, status := none,
    remote := none, applicationCount := none, views := none, featured := none }

/-- The database after `sampleEmployer` posted `sampleBody` at time 1. -/
def dbPosted : Db := (createJob dbEmpty 1 sampleEmployer sampleBody).2

/-- An update body that sets nothing but `applicationCount`. -/
def overwriteBody : JobBody :=
  { title := none, company := none, description := none, requirements := none,
    location := none, category := none, salaryMin := none, salaryMax := none,
    experience := none, postedBy := none, status := none, remote := none,
    applicationCount := some 5, views := none, featured := none }

/-- The job stored in `dbPosted`. -/
def postedJob : Job :=
  { id := 0, title := "Backend developer", company := "Acme",
    description := "Design, build and operate the services behind the job board.",
    requirements := "Three years of Node.js and MongoDB.", location := "Pune",
    category := Category.fullTime, salaryMin := none, salaryMax := none,
    experience := Experience.mid, postedBy := 201, status := JobStatus.active,
    remote := false, applicationCount := 0, views := 0, featured := false,
    createdAt := 1, updatedAt := 1 }

/-- Three jobs, two of `sampleEmployer` (ids 1 and 3) and one of
`sampleRival` (id 6), and four applications: `sampleSeeker` applied to job 1
at time 2 and to job 3 at time 7 (now at the interview stage), `sampleOther`
to job 1 at time 5 and to job 6 at time 6 (accepted). -/
def dbHistory : Db :=
  { users := sampleUsers,
    jobs := [sampleJob 1 JobStatus.active 2, sampleJob 3 JobStatus.paused 1,
             { sampleJob 6 JobStatus.active 1 with postedBy := 202, category := Category.contract }],
    applications :=
      [sampleApplication 2 101 1,
       { sampleApplication 4 102 1 with appliedDate := 5 },
       { sampleApplication 5 101 3 with appliedDate := 7, status := AppStatus.interview },
       { sampleApplication 7 102 6 with appliedDate := 6, status := AppStatus.accepted }],
    nextId := 8 }

/-- The stored applications whose job is posted by user `e`. -/
def applicationsOfOwner (db : Db) (e : Nat) : List Application :=
  db.applications.filter (fun a => (Job.findById db a.jobId).any (fun j => j.postedBy == e))

/-- The stored jobs posted by user `e`. -/
def jobsOfOwner (db : Db) (e : Nat) : List Job :=
  db.jobs.filter (fun j => j.postedBy == e)

/-- How many of the applications have the given status. -/
def countStatus (applications : List Application) (s : AppStatus) : Nat :=
  (applications.filter (fun a => a.status == s)).length

/-- The number of stored applications that reference the job. -/
def applicationsFor (db : Db) (jobId : Nat) : Int :=
  ((db.applications.map (fun a => a.jobId)).count jobId : Int)

/-- The database `dbOpenJob` after `sampleSeeker` applied to job 1 at time 1:
what a second request of the same seeker, already past its pre-check, finds
when it comes to insert. -/
def dbRaced : Db := (applyForJob dbOpenJob 1 sampleSeeker 1 none).2

/-- The database between the two writes of `Application.create` for a valid
new document: the fresh id is taken and the pre-save hook has run, the
insert has not. -/
def Application.afterHook (db : Db) (now jobId : Nat) : Db :=
  Application.preSave { db with nextId := db.nextId + 1 } now true jobId

/-- A text with its ASCII letters in lower case: two texts are equal
without regard to case when their folded forms are equal. -/
def foldCase (cs : List Char) : List Char := cs.map Char.toLower

/-- The string `q`, compared case-insensitively, occurs as a literal
substring of `text`. -/
def containsIgnoringCase (q text : String) : Prop :=
  foldCase q.data <:+: foldCase text.data

/-! ## Request well-formedness -/

/-- The integers a JavaScript number holds exactly, together with their
neighbours: those of magnitude below 2^53 (`Number.isSafeInteger`).  On them
the integer arithmetic of this development is the arithmetic of the code. -/
def IsSafeInteger (n : Int) : Prop :=
  -(2 ^ 53 : Int) < n ∧ n < 2 ^ 53

/-- The body validation of `POST /api/applications` passes: the trimmed cover
letter, when one is sent, has at most 1000 characters. -/
def coverLetterValid (coverLetter : Option String) : Prop :=
  ∀ s, coverLetter = some s → isLengthValue (jsTrim s) ≤ 1000

/-- The cover letter also passes the schema's `maxlength`: at most 1000
UTF-16 code units after trimming. -/
def coverLetterStorable (coverLetter : Option String) : Prop :=
  ∀ s, coverLetter = some s → utf16Length (jsTrim s) ≤ 1000

/-- The text `applyForJob` stores for a supplied cover letter: the trimmed
text, or the empty string when none is supplied. -/
def storedCoverLetter (coverLetter : Option String) : String :=
  match coverLetter with
  | none => ""
  | some s => jsTrim s

/-- The body validation of `PUT /api/applications/:id/status` passes with
the status read as `status`. -/
def statusBodyValid (body : StatusBody) (status : AppStatus) : Prop :=
  body.status.bind AppStatus.ofString? = some status ∧
  ∀ n, body.notes = some n → isLengthValue (jsTrim n) ≤ 500

/-- The body validation of `PUT /api/jobs/:id` passes: a title, when sent,
has 5 to 100 characters after trimming, and a description 50 to 2000. -/
def updateJobValid (body : JobBody) : Prop :=
  ((body.title.map jsTrim).map (lengthBetween 5 100)).getD true = true ∧
  ((body.description.map jsTrim).map (lengthBetween 50 2000)).getD true = true

/-- An empty request body. -/
def emptyBody : JobBody :=
  { title := none, company := none, description := none, requirements := none,
    location := none, category := none, salaryMin := none, salaryMax := none,
    experience := none, postedBy := none, status := none, remote := none,
    applicationCount := none, views := none, featured := none }

/-- A query string without parameters. -/
def emptyQuery : ListQuery :=
  { page := none, limit := none, status := none, jobId := none, userId := none }

/-- The database `dbApplied` after the owner of job 1 handed the job to
`sampleOther`, a job seeker, through an update whose body carries
`postedBy: 102`. -/
def dbSeekerOwned : Db :=
  (updateJob dbApplied 9 sampleEmployer 1 { emptyBody with postedBy := some 102 }).2

/-- The body validation of `POST /api/jobs` passes. -/
def createJobValid (body : JobBody) : Prop :=
  ((body.title.map jsTrim).map (lengthBetween 5 100)).getD false = true ∧
  ((body.company.map jsTrim).map (lengthBetween 2 100)).getD false = true ∧
  ((body.description.map jsTrim).map (lengthBetween 50 2000)).getD false = true ∧
  ((body.requirements.map jsTrim).map (lengthBetween 20 1000)).getD false = true ∧
  ((body.location.map jsTrim).map truthyStr).getD false = true ∧
  (body.category.bind Category.ofString?).isSome = true ∧
  (body.experience.bind Experience.ofString?).isSome = true

/-- The `jobData` that `POST /api/jobs` hands to `Job.create`: the body as
the validation chains leave it, with `postedBy` set to the caller. -/
def createJobData (caller : User) (body : JobBody) : JobBody :=
  { body with title := body.title.map jsTrim, company := body.company.map jsTrim,
              description := body.description.map jsTrim,
              requirements := body.requirements.map jsTrim,
              location := body.location.map jsTrim,
              postedBy := some caller.id }

/-- A query string of `GET /api/jobs` without parameters. -/
def emptyJobsQuery : JobsQuery :=
  { page := none, limit := none, search := none, location := none, category := none,
    experience := none, remote := none, minSalary := none, maxSalary := none,
    featured := none, sort := none }

/-- A database server whose text search accepts every job and which rejects
every pattern; the sample queries use neither. -/
def sampleMongo : Mongo :=
  { textSearch := fun _ _ => true, regexI := fun _ => none }

/-- A job of the listing samples. -/
def listedJob (id : Nat) (category : Category) (experience : Experience) (createdAt : Nat)
    (count : Int) (status : JobStatus) : Job :=
  { sampleJob id status count with
    category := category, experience := experience, createdAt := createdAt }

/-- Four jobs: an entry-level internship (id 1, oldest, 5 applications), a
senior internship (id 2), an entry-level contract (id 3, newest, no
applications) and a closed entry-level internship (id 4); `sampleSeeker` has
applied to job 1. -/
def dbListing : Db :=
  { users := sampleUsers,
    jobs := [listedJob 1 Category.internship Experience.entry 10 5 JobStatus.active,
             listedJob 2 Category.internship Experience.senior 20 2 JobStatus.active,
             listedJob 3 Category.contract Experience.entry 30 0 JobStatus.active,
             listedJob 4 Category.internship Experience.entry 40 1 JobStatus.closed],
    applications := [{ sampleApplication 5 101 1 with status := AppStatus.shortlisted }],
    nextId := 6 }

/-- The answer `r` is page `p` of size `l` of the sequence `xs`, whose
elements the items of the answer show through `view`: status 200, the items
are the elements at positions `(p - 1) * l` up to `p * l` (exclusive) in
order, `count` is their number and at most `l`, `total` is the length of the
whole sequence, `page` is `p` and `pages` is the ceiling of `total / l`. -/
def IsPageOf {α β : Type} (r : Response (Page β)) (view : β → α) (xs : List α)
    (p l : Nat) : Prop :=
  r.status = 200 ∧
  ∃ pg : Page β, r.data = some pg ∧
    pg.data.map view = (xs.drop ((p - 1) * l)).take l ∧
    pg.count = pg.data.length ∧ pg.count ≤ l ∧
    pg.total = xs.length ∧ pg.page = (p : Int) ∧
    pg.pages = (((xs.length + l - 1) / l : Nat) : Int) ∧
    xs.length ≤ ((xs.length + l - 1) / l) * l ∧
    ((xs.length + l - 1) / l) * l < xs.length + l

/-- The conjunction List jobs promises of a returned job: it is active and
satisfies every filter the query supplies.  `location` is the compiled
location pattern when the query carries one. -/
def SatisfiesQuery (eng : Mongo) (q : JobsQuery) (location : Option (String → Bool))
    (j : Job) : Prop :=
  j.status = JobStatus.active ∧
  (∀ s, present q.search = some s → eng.textSearch s j = true) ∧
  (∀ m, location = some m → m j.location = true) ∧
  (∀ c, present q.category = some c → Category.ofString? c = some j.category) ∧
  (∀ e, present q.experience = some e → Experience.ofString? e = some j.experience) ∧
  (∀ r, present q.remote = some r → j.remote = (r == "true")) ∧
  (∀ s, present q.minSalary = some s →
    ∃ n v, parseInt s = some n ∧ j.salaryMin = some v ∧ n ≤ v) ∧
  (∀ s, present q.maxSalary = some s →
    ∃ n v, parseInt s = some n ∧ j.salaryMax = some v ∧ v ≤ n) ∧
  (∀ r, present q.featured = some r → j.featured = (r == "true"))

/-! ## Store invariants -/

/-- What the storage layer and the handlers keep true of a database: no two
applications share a `(userId, jobId)` pair (the unique compound index), ids
are unique within a collection and older than the next fresh id, and every
application references a stored job. -/
structure Db.Consistent (db : Db) : Prop where
  pairs : (db.applications.map (fun a => (a.userId, a.jobId))).Nodup
  appIds : (db.applications.map (fun a => a.id)).Nodup
  jobIds : (db.jobs.map (fun j => j.id)).Nodup
  appBound : ∀ k ∈ db.applications.map (fun a => a.id), k < db.nextId
  jobBound : ∀ k ∈ db.jobs.map (fun j => j.id), k < db.nextId
  refs : ∀ k ∈ db.applications.map (fun a => a.jobId), k ∈ db.jobs.map (fun j => j.id)

/-! # Theorems -/

set_option maxRecDepth 100000

/-! ## Strings and single-document updates -/

/-- A string has at least as many UTF-16 code units as code points. -/
theorem utf16Length_ge_length (s : String) : s.length ≤ utf16Length s := by
  unfold utf16Length
  rw [String.length]
  induction s.data with
  | nil => simp
  | cons c cs ih =>
    simp only [List.length_cons, List.map_cons, List.sum_cons]
    split_ifs <;> omega

/-- The length `isLength` measures is at most the number of UTF-16 code
units. -/
theorem isLengthValue_le (s : String) : isLengthValue s ≤ utf16Length s := by
  unfold isLengthValue
  exact le_trans (Nat.sub_le _ _) (Nat.sub_le _ _)

/-- A cover letter short enough for the schema is short enough for the route. -/
theorem coverLetterStorable_valid (coverLetter : Option String)
    (h : coverLetterStorable coverLetter) : coverLetterValid coverLetter := by
  intro s hs
  exact le_trans (isLengthValue_le (jsTrim s)) (h s hs)

/-- The stored text of a storable cover letter passes `maxlength`. -/
theorem storedCoverLetter_length (coverLetter : Option String)
    (h : coverLetterStorable coverLetter) : utf16Length (storedCoverLetter coverLetter) ≤ 1000 := by
  cases coverLetter with
  | none => decide
  | some s => exact h s rfl

/-- Updating one element leaves every projection the update respects unchanged. -/
theorem updateFirst_map_eq {α β : Type} (p : α → Bool) (f : α → α) (g : α → β)
    (hg : ∀ x, p x = true → g (f x) = g x) (l : List α) :
    (updateFirst p f l).map g = l.map g := by
  induction l with
  | nil => rfl
  | cons x xs ih =>
    unfold updateFirst
    by_cases h : p x = true
    · simp [h, hg x h]
    · simp [h, ih]

/-- Looking up the updated key finds the updated element. -/
theorem updateFirst_find_same {α : Type} (key : α → Nat) (k : Nat) (f : α → α)
    (hf : ∀ x, key (f x) = key x) (l : List α) :
    (updateFirst (fun x => key x == k) f l).find? (fun x => key x == k) =
      (l.find? (fun x => key x == k)).map f := by
  induction l with
  | nil => rfl
  | cons x xs ih =>
    unfold updateFirst
    by_cases h : key x = k
    · simp [h, hf]
    · simp [h, ih]

/-- Looking up another key is unaffected by the update. -/
theorem updateFirst_find_other {α : Type} (key : α → Nat) (k k2 : Nat) (f : α → α)
    (hf : ∀ x, key (f x) = key x) (hk : k2 ≠ k) (l : List α) :
    (updateFirst (fun x => key x == k) f l).find? (fun x => key x == k2) =
      l.find? (fun x => key x == k2) := by
  induction l with
  | nil => rfl
  | cons x xs ih =>
    unfold updateFirst
    by_cases h : key x = k
    · have h2 : ¬ key x = k2 := fun h3 => hk (h3.symm.trans h)
      have h3 : (key x == k) = true := by simpa using h
      have h4 : (key (f x) == k2) = false := by simpa [hf] using h2
      have h5 : (key x == k2) = false := by simpa using h2
      simp only [h3, if_true, List.find?_cons, h4, h5]
    · have h3 : (key x == k) = false := by simpa using h
      simp only [h3, Bool.false_eq_true, if_false, List.find?_cons, ih]

/-- Elements that do not match the filter are neither added nor removed. -/
theorem mem_updateFirst_of_not {α : Type} (p : α → Bool) (f : α → α)
    (hf : ∀ y, p y = true → p (f y) = true) (x : α) (hx : p x = false) (l : List α) :
    x ∈ updateFirst p f l ↔ x ∈ l := by
  induction l with
  | nil => simp [updateFirst]
  | cons y ys ih =>
    unfold updateFirst
    by_cases hy : p y = true
    · have h1 : x ≠ f y := fun h => by
        rw [h, hf y hy] at hx
        exact Bool.noConfusion hx
      have h2 : x ≠ y := fun h => by
        rw [h, hy] at hx
        exact Bool.noConfusion hx
      simp [hy, h1, h2]
    · simp [hy, ih]

/-- With unique keys, updating the first match is updating every match. -/
theorem updateFirst_eq_map {α : Type} (key : α → Nat) (k : Nat) (f : α → α) (l : List α)
    (h : (l.map key).Nodup) :
    updateFirst (fun x => key x == k) f l = l.map (fun x => if key x == k then f x else x) := by
  induction l with
  | nil => rfl
  | cons x xs ih =>
    rw [List.map_cons, List.nodup_cons] at h
    unfold updateFirst
    by_cases hx : key x = k
    · have hxs : xs.map (fun y => if key y == k then f y else y) = xs := by
        conv_rhs => rw [← List.map_id xs]
        refine List.map_congr_left ?_
        intro y hy
        have : key y ≠ k := fun hk => h.1 (by rw [hx, ← hk]; exact List.mem_map_of_mem key hy)
        simp [this]
      have hb : (key x == k) = true := by simpa using hx
      rw [if_pos hb, List.map_cons, if_pos hb, hxs]
    · simp [hx, ih h.2]

/-- With unique keys, erasing by key removes exactly the elements with that key. -/
theorem mem_eraseP_key {α : Type} (key : α → Nat) (k : Nat) (l : List α)
    (h : (l.map key).Nodup) (x : α) :
    x ∈ l.eraseP (fun y => key y == k) ↔ x ∈ l ∧ key x ≠ k := by
  induction l with
  | nil => simp
  | cons y ys ih =>
    rw [List.map_cons, List.nodup_cons] at h
    by_cases hy : key y = k
    · have h1 : (key y == k) = true := by simpa using hy
      rw [List.eraseP_cons_of_pos (p := fun y => key y == k) h1]
      constructor
      · intro hx
        refine ⟨List.mem_cons_of_mem _ hx, fun hk => h.1 ?_⟩
        rw [hy, ← hk]
        exact List.mem_map_of_mem key hx
      · rintro ⟨hx, hk⟩
        rcases List.mem_cons.mp hx with rfl | hx
        · exact absurd hy hk
        · exact hx
    · have h1 : ¬ (key y == k) = true := by simpa using hy
      rw [List.eraseP_cons_of_neg (p := fun y => key y == k) h1, List.mem_cons, ih h.2,
        List.mem_cons]
      constructor
      · rintro (rfl | ⟨hx, hk⟩)
        · exact ⟨Or.inl rfl, hy⟩
        · exact ⟨Or.inr hx, hk⟩
      · rintro ⟨rfl | hx, hk⟩
        · exact Or.inl rfl
        · exact Or.inr ⟨hx, hk⟩

/-- With unique keys, an erased key is no longer found. -/
theorem find_eraseP_key {α : Type} (key : α → Nat) (k : Nat) (l : List α)
    (h : (l.map key).Nodup) :
    (l.eraseP (fun y => key y == k)).find? (fun y => key y == k) = none := by
  rw [List.find?_eq_none]
  intro x hx
  have := (mem_eraseP_key key k l h x).mp hx
  simpa using this.2

/-- With unique keys, two stored elements with the same key are equal. -/
theorem eq_of_key_eq {α : Type} (key : α → Nat) (l : List α) (h : (l.map key).Nodup)
    (x y : α) (hx : x ∈ l) (hy : y ∈ l) (hk : key x = key y) : x = y :=
  List.inj_on_of_nodup_map h hx hy hk

/-! ## Lookups and model operations -/

/-- The user found by `User.findById` has the id asked for. -/
theorem userFindById_id (db : Db) (k : Nat) (u : User) (h : User.findById db k = some u) :
    u.id = k := by
  unfold User.findById at h
  simpa using List.find?_some h

/-- The job found by `Job.findById` has the id asked for. -/
theorem jobFindById_id (db : Db) (k : Nat) (j : Job) (h : Job.findById db k = some j) :
    j.id = k := by
  unfold Job.findById at h
  simpa using List.find?_some h

/-- The application found by `Application.findById` has the id asked for. -/
theorem applicationFindById_id (db : Db) (k : Nat) (a : Application)
    (h : Application.findById db k = some a) : a.id = k := by
  unfold Application.findById at h
  simpa using List.find?_some h

/-- The `$inc` update is seen on the job it targets. -/
theorem findById_incApplicationCount_same (db : Db) (now id : Nat) (d : Int) :
    Job.findById (Job.incApplicationCount db now id d) id =
      (Job.findById db id).map
        (fun j => { j with applicationCount := j.applicationCount + d, updatedAt := now }) := by
  unfold Job.findById Job.incApplicationCount
  exact updateFirst_find_same (fun j : Job => j.id) id
    (fun j => { j with applicationCount := j.applicationCount + d, updatedAt := now })
    (fun _ => rfl) db.jobs

/-- The `$inc` update is not seen on any other job id. -/
theorem findById_incApplicationCount_other (db : Db) (now id id2 : Nat) (d : Int)
    (h : id2 ≠ id) :
    Job.findById (Job.incApplicationCount db now id d) id2 = Job.findById db id2 := by
  unfold Job.findById Job.incApplicationCount
  exact updateFirst_find_other (fun j : Job => j.id) id id2
    (fun j => { j with applicationCount := j.applicationCount + d, updatedAt := now })
    (fun _ => rfl) h db.jobs

/-- A valid new application for a fresh `(userId, jobId)` pair is inserted after its job's counter was bumped. -/
theorem applicationCreate_ok (db : Db) (now userId jobId : Nat) (resume text : String)
    (hres : truthyStr resume = true) (hlen : utf16Length text ≤ 1000)
    (hnew : Application.findOne db userId jobId = none) :
    Application.create db now userId jobId resume text =
      (some { id := db.nextId, userId := userId, jobId := jobId, resume := resume,
              coverLetter := some text, status := AppStatus.applied, appliedDate := now,
              notes := none, interviewDate := none, interviewLocation := none,
              interviewType := InterviewType.inPerson, createdAt := now, updatedAt := now },
       { users := db.users
         jobs := (Job.incApplicationCount db now jobId 1).jobs
         applications := db.applications ++
           [{ id := db.nextId, userId := userId, jobId := jobId, resume := resume,
              coverLetter := some text, status := AppStatus.applied, appliedDate := now,
              notes := none, interviewDate := none, interviewLocation := none,
              interviewType := InterviewType.inPerson, createdAt := now, updatedAt := now }]
         nextId := db.nextId + 1 }) := by
  have hany : db.applications.any (fun a => a.userId == userId && a.jobId == jobId) = false := by
    unfold Application.findOne at hnew
    rw [List.find?_eq_none] at hnew
    rw [List.any_eq_false]
    exact hnew
  unfold Application.create
  simp [Application.validate, hres, hlen, Application.preSave, Job.incApplicationCount, hany]

/-- The databases `Application.create` can leave behind. -/
theorem applicationCreate_db (db : Db) (now userId jobId : Nat) (resume text : String) :
    ∃ jobs2 : List Job, jobs2.map (fun j => j.id) = db.jobs.map (fun j => j.id) ∧
      ((Application.create db now userId jobId resume text).2 =
          { db with nextId := db.nextId + 1, jobs := jobs2 } ∨
       (db.applications.any (fun a => a.userId == userId && a.jobId == jobId) = false ∧
        ∃ doc : Application, doc.userId = userId ∧ doc.jobId = jobId ∧ doc.id = db.nextId ∧
          (Application.create db now userId jobId resume text).2 =
            { users := db.users, jobs := jobs2, applications := db.applications ++ [doc],
              nextId := db.nextId + 1 })) := by
  have hmap : (updateFirst (fun j : Job => j.id == jobId)
      (fun j => { j with applicationCount := j.applicationCount + 1, updatedAt := now })
      db.jobs).map (fun j => j.id) = db.jobs.map (fun j => j.id) :=
    updateFirst_map_eq (fun j : Job => j.id == jobId)
      (fun j => { j with applicationCount := j.applicationCount + 1, updatedAt := now })
      (fun j : Job => j.id) (fun _ _ => rfl) db.jobs
  unfold Application.create
  by_cases hv : Application.validate resume text = true
  · by_cases hany : db.applications.any (fun a => a.userId == userId && a.jobId == jobId) = true
    · refine ⟨_, hmap, Or.inl ?_⟩
      simp [hv, Application.preSave, Job.incApplicationCount, hany]
    · have hany2 : db.applications.any (fun a => a.userId == userId && a.jobId == jobId)
          = false := by simpa using hany
      refine ⟨_, hmap, Or.inr ⟨hany2, ?_⟩⟩
      simp only [hv, Application.preSave, Job.incApplicationCount, hany2, if_true,
        Bool.not_true, Bool.false_eq_true, if_false]
      exact ⟨_, rfl, rfl, rfl, rfl⟩
  · refine ⟨db.jobs, rfl, Or.inl ?_⟩
    simp [hv]

/-- The databases `Job.create` can leave behind. -/
theorem jobCreate_db (db : Db) (now : Nat) (b : JobBody) :
    (Job.create db now b).2 = { db with nextId := db.nextId + 1 } ∨
    ∃ doc : Job, doc.id = db.nextId ∧ doc.applicationCount = b.applicationCount.getD 0 ∧
      (Job.create db now b).2 = { db with nextId := db.nextId + 1, jobs := db.jobs ++ [doc] } := by
  unfold Job.create
  dsimp only
  split
  · split_ifs
    · exact Or.inl rfl
    · exact Or.inr ⟨_, rfl, rfl, rfl⟩
  · exact Or.inl rfl

/-- Assigning body paths never changes a job's id. -/
theorem jobAssign_id (j : Job) (b : JobBody) : (Job.assign j b).id = j.id := rfl

/-- Employers and admins pass `authorize('employer', 'admin')`. -/
theorem authorize_staff (caller : User) (h : caller.role ≠ Role.jobseeker) :
    authorize [Role.employer, Role.admin] caller = true := by
  unfold authorize
  cases hr : caller.role
  · exact absurd hr h
  · decide
  · decide

/-! ## Apply -/

/-- For a job seeker with a valid body, `applyForJob` is the handler's chain of checks. -/
theorem applyForJob_gate (db : Db) (now : Nat) (caller : User) (jobId : Nat)
    (coverLetter : Option String)
    (hrole : caller.role = Role.jobseeker) (hvalid : coverLetterValid coverLetter) :
    applyForJob db now caller jobId coverLetter =
      match Job.findById db jobId with
      | none => (failure 404 "Job not found", db)
      | some job =>
        if job.status ≠ JobStatus.active then
          (failure 400 "This job is no longer accepting applications", db)
        else
          match Application.findOne db caller.id jobId with
          | some _ => (failure 400 "You have already applied for this job", db)
          | none =>
            if truthy caller.profile.resume = false then
              (failure 400 "Please upload your resume before applying for jobs", db)
            else
              match Application.create db now caller.id jobId (caller.profile.resume.getD "")
                      (storedCoverLetter coverLetter) with
              | (none, db1) => (serverError, db1)
              | (some application, db1) =>
                ({ status := 201, success := true,
                   message := some "Application submitted successfully",
                   data := (Application.findById db1 application.id).map
                             (populateApplication db1 false) }, db1) := by
  have hv : (match coverLetter.map jsTrim with
      | none => true
      | some s => decide (isLengthValue s ≤ 1000)) = true := by
    cases coverLetter with
    | none => rfl
    | some s => simpa using hvalid s rfl
  have htext : (match coverLetter.map jsTrim with
      | none => ""
      | some s => if truthyStr s then s else "") = storedCoverLetter coverLetter := by
    cases coverLetter with
    | none => rfl
    | some s =>
      simp only [Option.map_some', storedCoverLetter, truthyStr]
      split_ifs with h
      · rfl
      · simp only [Bool.not_eq_true, bne_eq_false_iff_eq] at h
        exact h.symm
  unfold applyForJob
  simp only [authorize, hrole, hv, htext]
  simp only [List.contains_cons, beq_self_eq_true, Bool.true_or, Bool.not_true, Bool.false_eq_true, if_false]
  cases hj : Job.findById db jobId with
  | none => rfl
  | some job =>
    simp only
    by_cases h1 : job.status ≠ JobStatus.active
    · rw [if_pos h1, if_pos h1]
    · rw [if_neg h1, if_neg h1]
      cases hf : Application.findOne db caller.id jobId with
      | some a => rfl
      | none =>
        simp only
        cases hr : caller.profile.resume with
        | none => simp [truthy]
        | some r =>
          simp only [truthy, Option.getD_some]
          cases ht : truthyStr r <;> simp

/-- What an accepted application writes. -/
theorem applyForJob_writes (db : Db) (now : Nat) (caller : User) (jobId : Nat)
    (coverLetter : Option String) (job : Job) (resume : String)
    (hrole : caller.role = Role.jobseeker) (hvalid : coverLetterStorable coverLetter)
    (hjob : Job.findById db jobId = some job) (hactive : job.status = JobStatus.active)
    (hnew : Application.findOne db caller.id jobId = none)
    (hres : caller.profile.resume = some resume) (htruthy : resume ≠ "") :
    (applyForJob db now caller jobId coverLetter).1.status = 201 ∧
    (applyForJob db now caller jobId coverLetter).1.success = true ∧
    (applyForJob db now caller jobId coverLetter).2.applications =
      db.applications ++
        [{ id := db.nextId, userId := caller.id, jobId := jobId, resume := resume,
           coverLetter := some (storedCoverLetter coverLetter), status := AppStatus.applied,
           appliedDate := now, notes := none, interviewDate := none,
           interviewLocation := none, interviewType := InterviewType.inPerson,
           createdAt := now, updatedAt := now }] ∧
    (applyForJob db now caller jobId coverLetter).2.jobs =
      (Job.incApplicationCount db now jobId 1).jobs ∧
    (applyForJob db now caller jobId coverLetter).2.users = db.users := by
  have ht : truthyStr resume = true := by simpa [truthyStr] using htruthy
  have hgate := applyForJob_gate db now caller jobId coverLetter hrole
    (coverLetterStorable_valid coverLetter hvalid)
  rw [hjob] at hgate
  simp only at hgate
  rw [if_neg (not_not.mpr hactive), hnew] at hgate
  simp only [hres, truthy, ht, Bool.true_eq_false, if_false, Option.getD_some] at hgate
  rw [applicationCreate_ok db now caller.id jobId resume (storedCoverLetter coverLetter) ht
    (storedCoverLetter_length coverLetter hvalid) hnew] at hgate
  simp only at hgate
  rw [hgate]
  exact ⟨rfl, rfl, rfl, rfl, rfl⟩

/-- Claim C2: a job seeker's valid request is answered by the first failing
precondition, in the order job exists (404), job active (400), no earlier
application of the caller for the job (400), resume on file (400); nothing
is written in any of the four cases. -/
theorem applyForJob_first_failure_wins (db : Db) (now : Nat) (caller : User) (jobId : Nat)
    (coverLetter : Option String)
    (hrole : caller.role = Role.jobseeker) (hvalid : coverLetterValid coverLetter) :
    (Job.findById db jobId = none →
      applyForJob db now caller jobId coverLetter = (failure 404 "Job not found", db)) ∧
    (∀ job, Job.findById db jobId = some job → job.status ≠ JobStatus.active →
      applyForJob db now caller jobId coverLetter =
        (failure 400 "This job is no longer accepting applications", db)) ∧
    (∀ job a, Job.findById db jobId = some job → job.status = JobStatus.active →
      Application.findOne db caller.id jobId = some a →
      applyForJob db now caller jobId coverLetter =
        (failure 400 "You have already applied for this job", db)) ∧
    (∀ job, Job.findById db jobId = some job → job.status = JobStatus.active →
      Application.findOne db caller.id jobId = none → truthy caller.profile.resume = false →
      applyForJob db now caller jobId coverLetter =
        (failure 400 "Please upload your resume before applying for jobs", db)) := by
  rw [applyForJob_gate db now caller jobId coverLetter hrole hvalid]
  refine ⟨?_, ?_, ?_, ?_⟩
  · intro h
    rw [h]
  · intro job h hs
    rw [h]
    simp only
    rw [if_pos hs]
  · intro job a h hs ha
    rw [h]
    simp only
    rw [if_neg (not_not.mpr hs), ha]
  · intro job h hs ha hr
    rw [h]
    simp only
    rw [if_neg (not_not.mpr hs), ha]
    simp only
    rw [if_pos hr]

/-- Instance of C2: a duplicate applicant without resume on a closed job. -/
theorem applyForJob_first_failure_wins_witness :
    sampleOther.role = Role.jobseeker ∧
    Application.findOne dbClosedJob sampleOther.id 1 = some (sampleApplication 2 102 1) ∧
    truthy sampleOther.profile.resume = false ∧
    applyForJob dbClosedJob 9 sampleOther 1 none =
      (failure 400 "This job is no longer accepting applications", dbClosedJob) :=
  ⟨rfl, by decide, rfl,
    (applyForJob_first_failure_wins dbClosedJob 9 sampleOther 1 none rfl
      (fun _ h => Option.noConfusion h)).2.1 (sampleJob 1 JobStatus.closed 1)
      (by decide) (by decide)⟩

/-- Claim C3 as stated fails: with all four preconditions true, a cover
letter sent as `" hi "` is stored as `"hi"`, and a cover letter of 1001
characters is answered 400 with nothing stored. -/
theorem applyForJob_cover_letter_not_verbatim :
    Job.findById dbOpenJob 1 = some (sampleJob 1 JobStatus.active 0) ∧
    (sampleJob 1 JobStatus.active 0).status = JobStatus.active ∧
    Application.findOne dbOpenJob sampleSeeker.id 1 = none ∧
    truthy sampleSeeker.profile.resume = true ∧
    (applyForJob dbOpenJob 7 sampleSeeker 1 (some " hi ")).1.status = 201 ∧
    (applyForJob dbOpenJob 7 sampleSeeker 1 (some " hi ")).2.applications.map
      (fun a => a.coverLetter) = [some "hi"] ∧
    (some "hi" : Option String) ≠ some " hi " ∧
    applyForJob dbOpenJob 7 sampleSeeker 1 (some (String.mk (List.replicate 1001 'a'))) =
      (validationFailed, dbOpenJob) := by
  decide

/-- Claim C3 (amended): when the caller is a job seeker whose cover letter
passes validation and the four preconditions hold, `applyForJob` answers 201
and appends exactly one application: the caller's id, the job's id, the
caller's current resume, status `applied`, and as cover letter the supplied
text with surrounding whitespace trimmed (empty when none is supplied).  The
target job's `applicationCount` grows by 1 and no other job, application or
user changes. -/
theorem applyForJob_success (db : Db) (now : Nat) (caller : User) (jobId : Nat)
    (coverLetter : Option String) (job : Job) (resume : String)
    (hrole : caller.role = Role.jobseeker) (hvalid : coverLetterStorable coverLetter)
    (hjob : Job.findById db jobId = some job) (hactive : job.status = JobStatus.active)
    (hnew : Application.findOne db caller.id jobId = none)
    (hres : caller.profile.resume = some resume) (htruthy : resume ≠ "") :
    (applyForJob db now caller jobId coverLetter).1.status = 201 ∧
    (applyForJob db now caller jobId coverLetter).1.success = true ∧
    (applyForJob db now caller jobId coverLetter).2.applications =
      db.applications ++
        [{ id := db.nextId, userId := caller.id, jobId := jobId, resume := resume,
           coverLetter := some (storedCoverLetter coverLetter), status := AppStatus.applied,
           appliedDate := now, notes := none, interviewDate := none,
           interviewLocation := none, interviewType := InterviewType.inPerson,
           createdAt := now, updatedAt := now }] ∧
    Job.findById (applyForJob db now caller jobId coverLetter).2 jobId =
      some { job with applicationCount := job.applicationCount + 1, updatedAt := now } ∧
    (∀ id2, id2 ≠ jobId →
      Job.findById (applyForJob db now caller jobId coverLetter).2 id2 = Job.findById db id2) ∧
    (∀ j : Job, j.id ≠ jobId →
      (j ∈ (applyForJob db now caller jobId coverLetter).2.jobs ↔ j ∈ db.jobs)) ∧
    (applyForJob db now caller jobId coverLetter).2.jobs.length = db.jobs.length ∧
    (applyForJob db now caller jobId coverLetter).2.users = db.users := by
  obtain ⟨h1, h2, h3, h4, h5⟩ := applyForJob_writes db now caller jobId coverLetter job resume
    hrole hvalid hjob hactive hnew hres htruthy
  refine ⟨h1, h2, h3, ?_, ?_, ?_, ?_, h5⟩
  · have h := findById_incApplicationCount_same db now jobId 1
    rw [hjob] at h
    unfold Job.findById at h ⊢
    rw [h4]
    exact h
  · intro id2 h2
    have h := findById_incApplicationCount_other db now jobId id2 1 h2
    unfold Job.findById at h ⊢
    rw [h4]
    exact h
  · intro j hj
    rw [h4]
    exact mem_updateFirst_of_not (fun x : Job => x.id == jobId)
      (fun j : Job => { j with applicationCount := j.applicationCount + 1, updatedAt := now })
      (fun _ h => h) j (by simpa using hj) db.jobs
  · rw [h4]
    show (updateFirst _ _ db.jobs).length = db.jobs.length
    have h := congrArg List.length
      (updateFirst_map_eq (fun x : Job => x.id == jobId)
        (fun j : Job => { j with applicationCount := j.applicationCount + 1, updatedAt := now })
        (fun j : Job => j.id) (fun _ _ => rfl) db.jobs)
    simpa using h

/-- Instance of C3 (amended): `sampleSeeker` applies to the open job with cover letter `" hi "`. -/
theorem applyForJob_success_witness :
    sampleSeeker.role = Role.jobseeker ∧
    Job.findById dbOpenJob 1 = some (sampleJob 1 JobStatus.active 0) ∧
    Application.findOne dbOpenJob sampleSeeker.id 1 = none ∧
    (applyForJob dbOpenJob 7 sampleSeeker 1 (some " hi ")).1.status = 201 ∧
    Job.findById (applyForJob dbOpenJob 7 sampleSeeker 1 (some " hi ")).2 1 =
      some { sampleJob 1 JobStatus.active 0 with applicationCount := 0 + 1, updatedAt := 7 } :=
  have h := applyForJob_success dbOpenJob 7 sampleSeeker 1 (some " hi ")
    (sampleJob 1 JobStatus.active 0) "/uploads/sam.pdf" rfl
    (fun s hs => by
      cases hs
      decide)
    (by decide) rfl (by decide) rfl (by decide)
  ⟨rfl, by decide, by decide, h.1, h.2.2.2.1⟩

/-- Claim C5: when the target job exists and its status is not `active`,
`applyForJob` fails for every caller and every cover letter (400, or 403 from
the role gate) and returns the database it was given, so no application is
created and no `applicationCount` changes. -/
theorem applyForJob_inactive_job_rejected (db : Db) (now : Nat) (caller : User) (jobId : Nat)
    (coverLetter : Option String) (job : Job)
    (hjob : Job.findById db jobId = some job) (hstatus : job.status ≠ JobStatus.active) :
    (applyForJob db now caller jobId coverLetter).1.success = false ∧
    ((applyForJob db now caller jobId coverLetter).1.status = 400 ∨
      (applyForJob db now caller jobId coverLetter).1.status = 403) ∧
    (applyForJob db now caller jobId coverLetter).2 = db := by
  unfold applyForJob
  simp only [hjob]
  split_ifs <;> simp_all [roleForbidden, validationFailed, failure]

/-- Instance of C5: `sampleSeeker` applies to the closed job. -/
theorem applyForJob_inactive_job_rejected_witness :
    (applyForJob dbClosedJob 9 sampleSeeker 1 (some "hello")).1.success = false ∧
    ((applyForJob dbClosedJob 9 sampleSeeker 1 (some "hello")).1.status = 400 ∨
      (applyForJob dbClosedJob 9 sampleSeeker 1 (some "hello")).1.status = 403) ∧
    (applyForJob dbClosedJob 9 sampleSeeker 1 (some "hello")).2 = dbClosedJob :=
  applyForJob_inactive_job_rejected dbClosedJob 9 sampleSeeker 1 (some "hello")
    (sampleJob 1 JobStatus.closed 1) (by decide) (by decide)

/-! ## Reading, deleting and updating one application -/

/-- Claim C8 as stated fails: `GET /api/applications/stats` reaches this
handler with the parameter `stats`, which resolves to no application; the
query throws on it and the answer is 500, not 404. -/
theorem getApplication_malformed_id_is_server_error :
    dispatch applicationsRouter Method.get "/stats" = some ApplicationsHandler.getApplication ∧
    getApplication dbApplied sampleSeeker (IdParam.malformed "stats") = serverError ∧
    (getApplication dbApplied sampleSeeker (IdParam.malformed "stats")).status = 500 ∧
    (serverError : Response PopulatedApplication) ≠ failure 404 "Application not found" := by
  decide

/-- Claim C8, amended: an ObjectId that no application has is answered 404
and a parameter that does not cast to an ObjectId 500; for an application
whose applicant and job resolve, the caller receives the populated record
when they are the applicant, the job's `postedBy` user or an admin, and 403
otherwise. -/
theorem getApplication_visibility (db : Db) (caller : User) (id : Nat) :
    (Application.findById db id = none →
      getApplication db caller (IdParam.objectId id) =
        failure 404 "Application not found") ∧
    (∀ text, getApplication db caller (IdParam.malformed text) = serverError) ∧
    (∀ a u j, Application.findById db id = some a → User.findById db a.userId = some u →
      Job.findById db a.jobId = some j →
      ((caller.id = a.userId ∨ caller.id = j.postedBy ∨ caller.role = Role.admin) →
        getApplication db caller (IdParam.objectId id) =
          { status := 200, success := true, message := none,
            data := some (populateApplication db true a) }) ∧
      (¬(caller.id = a.userId ∨ caller.id = j.postedBy ∨ caller.role = Role.admin) →
        getApplication db caller (IdParam.objectId id) =
          failure 403 "Not authorized to view this application")) := by
  refine ⟨?_, fun _ => rfl, ?_⟩
  · intro h
    rw [getApplication.eq_2]
    rw [h]
  · intro a u j ha hu hj
    have hid := userFindById_id db a.userId u hu
    rw [getApplication.eq_2]
    simp only [ha, populateApplication, populateUser, populateJob, hu, hj, Option.map_some',
      if_true, hid]
    refine ⟨?_, ?_⟩
    · intro hc
      rw [if_neg]
      simp only [Bool.and_eq_true, Bool.not_eq_true', beq_eq_false_iff_ne, ne_eq]
      tauto
    · intro hc
      rw [if_pos]
      simp only [Bool.and_eq_true, Bool.not_eq_true', beq_eq_false_iff_ne, ne_eq]
      tauto

/-- Instance of C8: the applicant and the job's owner read application 2,
another job seeker is refused, and ObjectId 77 is unknown. -/
theorem getApplication_visibility_witness :
    getApplication dbApplied sampleSeeker (IdParam.objectId 2) =
      { status := 200, success := true, message := none,
        data := some (populateApplication dbApplied true (sampleApplication 2 101 1)) } ∧
    getApplication dbApplied sampleEmployer (IdParam.objectId 2) =
      { status := 200, success := true, message := none,
        data := some (populateApplication dbApplied true (sampleApplication 2 101 1)) } ∧
    getApplication dbApplied sampleOther (IdParam.objectId 2) =
      failure 403 "Not authorized to view this application" ∧
    getApplication dbApplied sampleOther (IdParam.objectId 77) =
      failure 404 "Application not found" :=
  ⟨((getApplication_visibility dbApplied sampleSeeker 2).2.2 (sampleApplication 2 101 1)
      sampleSeeker (sampleJob 1 JobStatus.active 1) (by decide) (by decide) (by decide)).1
      (Or.inl rfl),
   ((getApplication_visibility dbApplied sampleEmployer 2).2.2 (sampleApplication 2 101 1)
      sampleSeeker (sampleJob 1 JobStatus.active 1) (by decide) (by decide) (by decide)).1
      (Or.inr (Or.inl rfl)),
   ((getApplication_visibility dbApplied sampleOther 2).2.2 (sampleApplication 2 101 1)
      sampleSeeker (sampleJob 1 JobStatus.active 1) (by decide) (by decide) (by decide)).2
      (by decide),
   (getApplication_visibility dbApplied sampleOther 77).1 (by decide)⟩

/-- Claim C9: on an existing application, `deleteApplication` succeeds
exactly for the applicant and for admins; every other caller, the owner of
the job included, is answered 403 and the database is left as it was. -/
theorem deleteApplication_authorization (db : Db) (caller : User) (id : Nat) (a : Application)
    (ha : Application.findById db id = some a) :
    ((deleteApplication db caller id).1.status = 200 ↔
      (caller.id = a.userId ∨ caller.role = Role.admin)) ∧
    ((caller.id = a.userId ∨ caller.role = Role.admin) →
      (deleteApplication db caller id).2 = Application.findByIdAndDelete db id) ∧
    (¬(caller.id = a.userId ∨ caller.role = Role.admin) →
      deleteApplication db caller id =
        (failure 403 "Not authorized to delete this application", db) ∧
      Application.findById (deleteApplication db caller id).2 id = some a) := by
  unfold deleteApplication
  simp only [ha]
  by_cases hc : caller.id = a.userId ∨ caller.role = Role.admin
  · have h : (!(caller.id == a.userId) && !(caller.role == Role.admin)) = false := by
      rw [Bool.eq_false_iff]
      simp only [ne_eq, Bool.and_eq_true, Bool.not_eq_true', beq_eq_false_iff_ne]
      tauto
    simp [h, hc]
  · have h : (!(caller.id == a.userId) && !(caller.role == Role.admin)) = true := by
      simpa [not_or] using hc
    simp [h, hc, failure, ha]

/-- Instance of C9: the employer who owns job 1 may not delete application 2, its applicant may. -/
theorem deleteApplication_authorization_witness :
    Job.findById dbApplied 1 = some (sampleJob 1 JobStatus.active 1) ∧
    (sampleJob 1 JobStatus.active 1).postedBy = sampleEmployer.id ∧
    deleteApplication dbApplied sampleEmployer 2 =
      (failure 403 "Not authorized to delete this application", dbApplied) ∧
    (deleteApplication dbApplied sampleSeeker 2).1.status = 200 :=
  ⟨by decide, rfl,
   ((deleteApplication_authorization dbApplied sampleEmployer 2 (sampleApplication 2 101 1)
      (by decide)).2.2 (by decide)).1,
   (deleteApplication_authorization dbApplied sampleSeeker 2 (sampleApplication 2 101 1)
      (by decide)).1.mpr (Or.inl rfl)⟩

/-- A job seeker is turned away by `authorize('employer', 'admin')`. -/
theorem authorize_staff_jobseeker (caller : User) (h : caller.role = Role.jobseeker) :
    authorize [Role.employer, Role.admin] caller = false := by
  simp [authorize, h]

/-- Claim C10 as stated fails: `sampleOther`, a job seeker, is the `postedBy`
user of job 1 in `dbSeekerOwned` and is answered 403 on application 2 of
that job; and `sampleRival`, who is neither the owner of job 1 nor an admin,
is answered 400 and not 403 when the body carries an unknown status. -/
theorem updateApplicationStatus_owner_refused_by_role :
    (Application.findById dbSeekerOwned 2).map (fun a => a.jobId) = some 1 ∧
    (Job.findById dbSeekerOwned 1).map (fun j => j.postedBy) = some sampleOther.id ∧
    sampleOther.role = Role.jobseeker ∧
    (updateApplicationStatus dbSeekerOwned 10 sampleOther 2
      { status := some "interview", notes := none, interviewDate := none,
        interviewLocation := none, interviewType := none }).1.status = 403 ∧
    (Job.findById dbApplied 1).map (fun j => j.postedBy) = some sampleEmployer.id ∧
    sampleRival.id ≠ sampleEmployer.id ∧ sampleRival.role ≠ Role.admin ∧
    (updateApplicationStatus dbApplied 10 sampleRival 2
      { status := some "hired", notes := none, interviewDate := none,
        interviewLocation := none, interviewType := none }).1.status = 400 := by
  decide

/-- Claim C10, amended: on an existing application whose job resolves, the
answer is 403 exactly when the caller is a job seeker, whom the route does
not admit, or the body passes validation and the caller is neither the
job's `postedBy` user nor an admin; a 403 writes nothing, and an employer
who owns a different job gets the 403 of the ownership check. -/
theorem updateApplicationStatus_forbidden_iff (db : Db) (now : Nat) (caller : User) (id : Nat)
    (body : StatusBody) (a : Application) (job : Job)
    (ha : Application.findById db id = some a) (hj : Job.findById db a.jobId = some job) :
    ((updateApplicationStatus db now caller id body).1.status = 403 ↔
      (caller.role = Role.jobseeker ∨
        ((∃ status, statusBodyValid body status) ∧
          caller.id ≠ job.postedBy ∧ caller.role ≠ Role.admin))) ∧
    ((updateApplicationStatus db now caller id body).1.status = 403 →
      (updateApplicationStatus db now caller id body).2 = db) ∧
    (caller.role ≠ Role.jobseeker → (∃ status, statusBodyValid body status) →
      (caller.id ≠ job.postedBy ∧ caller.role ≠ Role.admin) →
      updateApplicationStatus db now caller id body =
        (failure 403 "Not authorized to update this application", db)) := by
  by_cases hrole : caller.role = Role.jobseeker
  · have hrun : updateApplicationStatus db now caller id body = (roleForbidden, db) := by
      unfold updateApplicationStatus
      simp [authorize_staff_jobseeker caller hrole]
    rw [hrun]
    exact ⟨⟨fun _ => Or.inl hrole, fun _ => rfl⟩, fun _ => rfl, fun h => absurd hrole h⟩
  · by_cases hvalid : ∃ status, statusBodyValid body status
    · obtain ⟨status, hvalid⟩ := hvalid
      have hn : (match body.notes.map jsTrim with
          | none => true
          | some n => decide (isLengthValue n ≤ 500)) = true := by
        cases hb : body.notes with
        | none => rfl
        | some n => simpa using hvalid.2 n hb
      unfold updateApplicationStatus
      simp only [authorize_staff caller hrole, hvalid.1, hn, ha, populateJobOwner, hj,
        Option.map_some', Bool.not_true, Bool.false_eq_true, if_false]
      by_cases hc : caller.id ≠ job.postedBy ∧ caller.role ≠ Role.admin
      · have h : (decide (job.postedBy ≠ caller.id) && decide (caller.role ≠ Role.admin))
            = true := by
          simp only [Bool.and_eq_true, decide_eq_true_eq]
          exact ⟨fun h => hc.1 h.symm, hc.2⟩
        simp only [h, if_true, failure]
        exact ⟨⟨fun _ => Or.inr ⟨⟨status, hvalid⟩, hc⟩, fun _ => trivial⟩, fun _ => trivial,
          fun _ _ _ => trivial⟩
      · have h : (decide (job.postedBy ≠ caller.id) && decide (caller.role ≠ Role.admin))
            = false := by
          rw [Bool.eq_false_iff]
          simp only [ne_eq, Bool.and_eq_true, decide_eq_true_eq]
          intro h2
          exact hc ⟨fun h => h2.1 h.symm, h2.2⟩
        simp only [h, Bool.false_eq_true, if_false]
        have hne : ∀ r : Response PopulatedApplication × Db,
            (r = (serverError, db) ∨ r.1.status = 200) → ¬ r.1.status = 403 := by
          rintro r (h1 | h1) h2
          · rw [h1] at h2
            simp [serverError] at h2
          · rw [h1] at h2
            exact absurd h2 (by decide)
        have hcase : ∀ r : Response PopulatedApplication × Db, ¬ r.1.status = 403 →
            (r.1.status = 403 ↔
              (caller.role = Role.jobseeker ∨
                ((∃ status, statusBodyValid body status) ∧
                  caller.id ≠ job.postedBy ∧ caller.role ≠ Role.admin))) ∧
            (r.1.status = 403 → r.2 = db) ∧
            (caller.role ≠ Role.jobseeker → (∃ status, statusBodyValid body status) →
              (caller.id ≠ job.postedBy ∧ caller.role ≠ Role.admin) →
              r = (failure 403 "Not authorized to update this application", db)) :=
          fun r hr => ⟨⟨fun h3 => absurd h3 hr, fun h3 => h3.elim (fun h4 => absurd h4 hrole)
            (fun h4 => absurd h4.2 hc)⟩, fun h3 => absurd h3 hr, fun _ _ h3 => absurd h3 hc⟩
        apply hcase
        apply hne
        split
        · exact Or.inl rfl
        · exact Or.inr rfl
    · have hrun : updateApplicationStatus db now caller id body = (validationFailed, db) := by
        unfold updateApplicationStatus
        simp only [authorize_staff caller hrole, Bool.not_true, Bool.false_eq_true, if_false]
        cases hs : body.status.bind AppStatus.ofString? with
        | none => rfl
        | some status =>
          simp only
          have hbad : ¬ ((match body.notes.map jsTrim with
              | none => true
              | some n => decide (isLengthValue n ≤ 500)) = true) := by
            intro hn
            apply hvalid
            refine ⟨status, hs, fun n hb => ?_⟩
            rw [hb] at hn
            simpa using hn
          simp [hbad]
      rw [hrun]
      have h400 : ¬ ((validationFailed : Response PopulatedApplication), db).1.status = 403 := by
        simp [validationFailed]
      refine ⟨⟨fun h => absurd h h400, fun h => ?_⟩, fun h => absurd h h400,
        fun _ h => absurd h hvalid⟩
      rcases h with h | h
      · exact absurd h hrole
      · exact absurd h.1 hvalid

/-- Instance of C10: an employer who owns another job may not update
application 2. -/
theorem updateApplicationStatus_forbidden_iff_witness :
    sampleRival.role = Role.employer ∧
    Job.findById dbApplied 3 = some (sampleJob 3 JobStatus.active 1) ∧
    updateApplicationStatus dbApplied 9 sampleRival 2
        { status := some "interview", notes := none, interviewDate := none,
          interviewLocation := none, interviewType := none } =
      (failure 403 "Not authorized to update this application", dbApplied) :=
  ⟨rfl, by decide,
   (updateApplicationStatus_forbidden_iff dbApplied 9 sampleRival 2
      { status := some "interview", notes := none, interviewDate := none,
        interviewLocation := none, interviewType := none }
      (sampleApplication 2 101 1) (sampleJob 1 JobStatus.active 1)
      (by decide) (by decide)).2.2 (by decide)
      ⟨AppStatus.interview, by decide, fun _ h => Option.noConfusion h⟩ (by decide)⟩

/-! ## Deleting a job -/

/-- Claim C7: for a database with unique ids, an existing job and a caller
the route admits who owns the job or is an admin, `deleteJob` answers 200,
removes the job and exactly the applications that reference it (all of
them, and none of another job); afterwards `getJob` on the job's id and
`getApplication` on every former application's id answer 404. -/
theorem deleteJob_cascade (db : Db) (caller : User) (id : Nat) (job : Job)
    (hjobs : (db.jobs.map (fun j => j.id)).Nodup)
    (happs : (db.applications.map (fun a => a.id)).Nodup)
    (hrole : caller.role ≠ Role.jobseeker)
    (hjob : Job.findById db id = some job)
    (hauth : caller.id = job.postedBy ∨ caller.role = Role.admin) :
    (deleteJob db caller id).1.status = 200 ∧
    (∀ a, a ∈ (deleteJob db caller id).2.applications ↔ a ∈ db.applications ∧ a.jobId ≠ id) ∧
    (deleteJob db caller id).2.applications.length +
        (db.applications.filter (fun a => a.jobId == id)).length = db.applications.length ∧
    (∀ j, j ∈ (deleteJob db caller id).2.jobs ↔ j ∈ db.jobs ∧ j.id ≠ id) ∧
    (∀ now viewer, getJob (deleteJob db caller id).2 now viewer (IdParam.objectId id) =
        (failure 404 "Job not found", (deleteJob db caller id).2)) ∧
    (∀ a, a ∈ db.applications → a.jobId = id → ∀ viewer,
        getApplication (deleteJob db caller id).2 viewer (IdParam.objectId a.id) =
          failure 404 "Application not found") := by
  have hc : (decide (job.postedBy ≠ caller.id) && decide (caller.role ≠ Role.admin)) = false := by
    rw [Bool.eq_false_iff]
    simp only [ne_eq, Bool.and_eq_true, decide_eq_true_eq]
    rintro ⟨h1, h2⟩
    rcases hauth with h | h
    · exact h1 h.symm
    · exact h2 h
  have hrun : deleteJob db caller id =
      ({ status := 200, success := true, message := some "Job deleted successfully",
         data := none }, Job.findByIdAndDelete (Application.deleteMany db id) id) := by
    unfold deleteJob
    simp only [authorize_staff caller hrole, hjob, hc, Bool.not_true, Bool.false_eq_true,
      if_false]
  rw [hrun]
  have happs2 : ∀ a, a ∈ db.applications.filter (fun a => !(a.jobId == id)) ↔
      a ∈ db.applications ∧ a.jobId ≠ id := by
    intro a
    simp [List.mem_filter]
  refine ⟨rfl, happs2, ?_, ?_, ?_, ?_⟩
  · show (db.applications.filter (fun a => !(a.jobId == id))).length + _ = _
    have h := List.length_eq_length_filter_add (l := db.applications) (fun a => a.jobId == id)
    omega
  · intro j
    exact mem_eraseP_key (fun j : Job => j.id) id db.jobs hjobs j
  · intro now viewer
    have h : Job.findById (Job.findByIdAndDelete (Application.deleteMany db id) id) id = none :=
      find_eraseP_key (fun j : Job => j.id) id db.jobs hjobs
    rw [getJob.eq_2]
    rw [h]
  · intro a ha hid viewer
    have h : Application.findById (Job.findByIdAndDelete (Application.deleteMany db id) id) a.id
        = none := by
      unfold Application.findById
      rw [List.find?_eq_none]
      intro b hb hk
      have hb2 := (happs2 b).mp hb
      have hba : b = a := eq_of_key_eq (fun a : Application => a.id) db.applications happs
        b a hb2.1 ha (by simpa using hk)
      exact hb2.2 (hba ▸ hid)
    rw [getApplication.eq_2]
    rw [h]

/-- Instance of C7: the owner deletes job 1 of `dbApplied`. -/
theorem deleteJob_cascade_witness :
    (deleteJob dbApplied sampleEmployer 1).1.status = 200 ∧
    (deleteJob dbApplied sampleEmployer 1).2.applications = [sampleApplication 4 101 3] ∧
    (deleteJob dbApplied sampleEmployer 1).2.jobs = [sampleJob 3 JobStatus.active 1] ∧
    getApplication (deleteJob dbApplied sampleEmployer 1).2 sampleSeeker (IdParam.objectId 2) =
      failure 404 "Application not found" :=
  have h := deleteJob_cascade dbApplied sampleEmployer 1 (sampleJob 1 JobStatus.active 1)
    (by decide) (by decide) (by decide) (by decide) (Or.inl rfl)
  ⟨h.1, by decide, by decide,
   h.2.2.2.2.2 (sampleApplication 2 101 1) (by decide) rfl sampleSeeker⟩

/-! ## What each handler writes -/

/-- The databases `applyForJob` can leave behind. -/
theorem applyForJob_db (db : Db) (now : Nat) (caller : User) (jobId : Nat)
    (coverLetter : Option String) :
    (applyForJob db now caller jobId coverLetter).2 = db ∨
    ∃ job resume text, Job.findById db jobId = some job ∧
      Application.findOne db caller.id jobId = none ∧
      (applyForJob db now caller jobId coverLetter).2 =
        (Application.create db now caller.id jobId resume text).2 := by
  unfold applyForJob
  dsimp only
  repeat' split
  all_goals first
    | exact Or.inl rfl
    | exact Or.inr ⟨_, _, _, by assumption, by assumption, by
        rename_i heq
        exact (congrArg Prod.snd heq).symm⟩

/-- The databases `createJob` can leave behind. -/
theorem createJob_db (db : Db) (now : Nat) (caller : User) (body : JobBody) :
    (createJob db now caller body).2 = db ∨
    ∃ b : JobBody, b.applicationCount = body.applicationCount ∧
      (createJob db now caller body).2 = (Job.create db now b).2 := by
  unfold createJob
  dsimp only
  repeat' split
  all_goals first
    | exact Or.inl rfl
    | (rename_i heq
       refine Or.inr ⟨_, ?_, (congrArg Prod.snd heq).symm⟩
       rfl)

/-- Posting a job never touches the applications. -/
theorem applications_createJob (db : Db) (now : Nat) (caller : User) (body : JobBody) :
    (createJob db now caller body).2.applications = db.applications := by
  rcases createJob_db db now caller body with h | ⟨b, _, h⟩
  · rw [h]
  · rw [h]
    rcases jobCreate_db db now b with h2 | ⟨doc, _, _, h2⟩ <;> rw [h2]

/-- The databases `updateJob` can leave behind. -/
theorem updateJob_db (db : Db) (now : Nat) (caller : User) (id : Nat) (body : JobBody) :
    (updateJob db now caller id body).2 = db ∨
    ∃ f : Job → Job,
      (∀ j, (f j).id = j.id ∧
        (f j).applicationCount = body.applicationCount.getD j.applicationCount) ∧
      (updateJob db now caller id body).2 =
        { db with jobs := updateFirst (fun j => j.id == id) f db.jobs } := by
  unfold updateJob
  dsimp only
  repeat' split
  all_goals first
    | exact Or.inl rfl
    | (rename_i heq
       unfold Job.findByIdAndUpdate at heq
       dsimp only at heq
       split at heq
       · exact absurd heq (by simp)
       · simp only [Option.some.injEq] at heq
         refine Or.inr ⟨_, ?_, heq.symm⟩
         intro _
         exact ⟨rfl, rfl⟩)

/-- The databases `getJob` can leave behind. -/
theorem getJob_db (db : Db) (now : Nat) (caller : Option User) (param : IdParam) :
    (getJob db now caller param).2 = db ∨
    ∃ (id : Nat) (job job1 : Job), Job.findById db id = some job ∧ job1.id = job.id ∧
      job1.applicationCount = job.applicationCount ∧
      (getJob db now caller param).2 =
        { db with jobs := updateFirst (fun j => j.id == id) (fun _ => job1) db.jobs } := by
  cases param with
  | malformed text => exact Or.inl rfl
  | objectId id =>
    rw [getJob.eq_2]
    split
    · exact Or.inl rfl
    · rename_i job hjob
      refine Or.inr ⟨id, job, _, hjob, ?_, ?_, rfl⟩
      · rfl
      · rfl

/-- The databases `deleteJob` can leave behind. -/
theorem deleteJob_db (db : Db) (caller : User) (id : Nat) :
    (deleteJob db caller id).2 = db ∨
    (deleteJob db caller id).2 = Job.findByIdAndDelete (Application.deleteMany db id) id := by
  unfold deleteJob
  dsimp only
  repeat' split
  all_goals first
    | exact Or.inl rfl
    | exact Or.inr rfl

/-- The databases `deleteApplication` can leave behind. -/
theorem deleteApplication_db (db : Db) (caller : User) (id : Nat) :
    (deleteApplication db caller id).2 = db ∨
    (deleteApplication db caller id).2 = Application.findByIdAndDelete db id := by
  unfold deleteApplication
  dsimp only
  repeat' split
  all_goals first
    | exact Or.inl rfl
    | exact Or.inr rfl

/-- The databases `updateApplicationStatus` can leave behind. -/
theorem updateApplicationStatus_db (db : Db) (now : Nat) (caller : User) (id : Nat)
    (body : StatusBody) :
    (updateApplicationStatus db now caller id body).2 = db ∨
    ∃ f : Application → Application,
      (∀ a, (f a).id = a.id ∧ (f a).userId = a.userId ∧ (f a).jobId = a.jobId) ∧
      (updateApplicationStatus db now caller id body).2 =
        { db with applications := updateFirst (fun a => a.id == id) f db.applications } := by
  unfold updateApplicationStatus
  dsimp only
  repeat' split
  all_goals first
    | exact Or.inl rfl
    | (rename_i heq
       unfold Application.findByIdAndUpdate at heq
       dsimp only at heq
       split at heq
       · exact absurd heq (by simp)
       · simp only [Option.some.injEq] at heq
         refine Or.inr ⟨_, ?_, heq.symm⟩
         intro _
         exact ⟨rfl, rfl, rfl⟩)

/-! ## The store invariants hold in every reachable database -/

/-- Consistency only depends on the ids and references stored. -/
theorem consistent_of_maps (db db2 : Db) (h : db.Consistent)
    (hp : db2.applications.map (fun a => (a.userId, a.jobId)) =
      db.applications.map (fun a => (a.userId, a.jobId)))
    (ha : db2.applications.map (fun a => a.id) = db.applications.map (fun a => a.id))
    (hr : db2.applications.map (fun a => a.jobId) = db.applications.map (fun a => a.jobId))
    (hj : db2.jobs.map (fun j => j.id) = db.jobs.map (fun j => j.id))
    (hn : db.nextId ≤ db2.nextId) : db2.Consistent where
  pairs := hp ▸ h.pairs
  appIds := ha ▸ h.appIds
  jobIds := hj ▸ h.jobIds
  appBound := fun k hk => lt_of_lt_of_le (h.appBound k (ha ▸ hk)) hn
  jobBound := fun k hk => lt_of_lt_of_le (h.jobBound k (hj ▸ hk)) hn
  refs := fun k hk => hj ▸ h.refs k (hr ▸ hk)

/-- Updating one job in place keeps the database consistent. -/
theorem consistent_updateJobs (db : Db) (id : Nat) (f : Job → Job) (hf : ∀ j, (f j).id = j.id)
    (h : db.Consistent) :
    Db.Consistent { db with jobs := updateFirst (fun j => j.id == id) f db.jobs } :=
  consistent_of_maps db _ h rfl rfl rfl
    (updateFirst_map_eq _ f (fun j : Job => j.id) (fun j _ => hf j) db.jobs) (le_refl _)

/-- Viewing a job keeps the database consistent. -/
theorem consistent_getJob (db : Db) (now : Nat) (caller : Option User) (param : IdParam)
    (h : db.Consistent) : (getJob db now caller param).2.Consistent := by
  rcases getJob_db db now caller param with h1 | ⟨id, job, job1, hjob, hid, _, h1⟩
  · rw [h1]
    exact h
  · rw [h1]
    refine consistent_of_maps db _ h rfl rfl rfl ?_ (le_refl _)
    refine updateFirst_map_eq _ _ (fun j : Job => j.id) ?_ db.jobs
    intro j hj
    simp only [beq_iff_eq] at hj
    exact (hid.trans (jobFindById_id db id job hjob)).trans hj.symm

/-- Updating a job keeps the database consistent. -/
theorem consistent_updateJob (db : Db) (now : Nat) (caller : User) (id : Nat) (body : JobBody)
    (h : db.Consistent) : (updateJob db now caller id body).2.Consistent := by
  rcases updateJob_db db now caller id body with h1 | ⟨f, hf, h1⟩
  · rw [h1]
    exact h
  · rw [h1]
    exact consistent_updateJobs db id f (fun j => (hf j).1) h

/-- Updating an application's status keeps the database consistent. -/
theorem consistent_updateApplicationStatus (db : Db) (now : Nat) (caller : User) (id : Nat)
    (body : StatusBody) (h : db.Consistent) :
    (updateApplicationStatus db now caller id body).2.Consistent := by
  rcases updateApplicationStatus_db db now caller id body with h1 | ⟨f, hf, h1⟩
  · rw [h1]
    exact h
  · rw [h1]
    refine consistent_of_maps db _ h ?_ ?_ ?_ rfl (le_refl _)
    · exact updateFirst_map_eq _ f (fun a : Application => (a.userId, a.jobId))
        (fun a _ => by simp only [(hf a).2.1, (hf a).2.2]) db.applications
    · exact updateFirst_map_eq _ f (fun a : Application => a.id)
        (fun a _ => (hf a).1) db.applications
    · exact updateFirst_map_eq _ f (fun a : Application => a.jobId)
        (fun a _ => (hf a).2.2) db.applications

/-- Drawing a fresh id keeps the database consistent. -/
theorem consistent_bump (db : Db) (h : db.Consistent) :
    Db.Consistent { db with nextId := db.nextId + 1 } :=
  consistent_of_maps db _ h rfl rfl rfl rfl (Nat.le_succ _)

/-- Posting a job keeps the database consistent. -/
theorem consistent_createJob (db : Db) (now : Nat) (caller : User) (body : JobBody)
    (h : db.Consistent) : (createJob db now caller body).2.Consistent := by
  rcases createJob_db db now caller body with h1 | ⟨b, _, h1⟩
  · rw [h1]
    exact h
  · rw [h1]
    rcases jobCreate_db db now b with h2 | ⟨doc, hid, _, h2⟩
    · rw [h2]
      exact consistent_bump db h
    · rw [h2]
      refine ⟨h.pairs, h.appIds, ?_, ?_, ?_, ?_⟩
      · show ((db.jobs ++ [doc]).map (fun j => j.id)).Nodup
        rw [List.map_append, List.map_cons, List.map_nil]
        refine List.Nodup.append h.jobIds (List.nodup_singleton _) ?_
        rw [List.disjoint_singleton]
        intro hm
        exact absurd (h.jobBound _ hm) (by rw [hid]; exact lt_irrefl _)
      · intro k hk
        exact Nat.lt_succ_of_lt (h.appBound k hk)
      · intro k hk
        have hk2 : k ∈ (db.jobs ++ [doc]).map (fun j => j.id) := hk
        rw [List.map_append, List.mem_append] at hk2
        rcases hk2 with hk2 | hk2
        · exact Nat.lt_succ_of_lt (h.jobBound k hk2)
        · simp only [List.map_cons, List.map_nil, List.mem_singleton] at hk2
          rw [hk2, hid]
          exact Nat.lt_succ_self _
      · intro k hk
        show k ∈ (db.jobs ++ [doc]).map (fun j => j.id)
        rw [List.map_append, List.mem_append]
        exact Or.inl (h.refs k hk)

/-- Deleting an application keeps the database consistent. -/
theorem consistent_deleteApplication (db : Db) (caller : User) (id : Nat)
    (h : db.Consistent) : (deleteApplication db caller id).2.Consistent := by
  rcases deleteApplication_db db caller id with h1 | h1
  · rw [h1]
    exact h
  · rw [h1]
    have hs : (db.applications.eraseP (fun a => a.id == id)).Sublist db.applications :=
      List.eraseP_sublist _
    exact ⟨(hs.map _).nodup h.pairs, (hs.map _).nodup h.appIds, h.jobIds,
      fun k hk => h.appBound k ((hs.map _).subset hk), h.jobBound,
      fun k hk => h.refs k ((hs.map _).subset hk)⟩

/-- Deleting a job with its applications keeps the database consistent. -/
theorem consistent_deleteJob (db : Db) (caller : User) (id : Nat)
    (h : db.Consistent) : (deleteJob db caller id).2.Consistent := by
  rcases deleteJob_db db caller id with h1 | h1
  · rw [h1]
    exact h
  · rw [h1]
    have hs : (db.applications.filter (fun a => !(a.jobId == id))).Sublist db.applications :=
      List.filter_sublist _
    have hj : (db.jobs.eraseP (fun j => j.id == id)).Sublist db.jobs := List.eraseP_sublist _
    refine ⟨(hs.map _).nodup h.pairs, (hs.map _).nodup h.appIds, (hj.map _).nodup h.jobIds,
      fun k hk => h.appBound k ((hs.map _).subset hk),
      fun k hk => h.jobBound k ((hj.map _).subset hk), ?_⟩
    intro k hk
    rcases List.mem_map.mp hk with ⟨a, ha, rfl⟩
    have ha2 : a ∈ db.applications ∧ a.jobId ≠ id := by
      have := List.mem_filter.mp ha
      exact ⟨this.1, by simpa using this.2⟩
    rcases List.mem_map.mp (h.refs a.jobId (List.mem_map_of_mem _ ha2.1)) with ⟨j, hjm, hje⟩
    refine List.mem_map.mpr ⟨j, ?_, hje⟩
    exact (mem_eraseP_key (fun j : Job => j.id) id db.jobs h.jobIds j).mpr
      ⟨hjm, by rw [hje]; exact ha2.2⟩

/-- Applying keeps the database consistent. -/
theorem consistent_applyForJob (db : Db) (now : Nat) (caller : User) (jobId : Nat)
    (coverLetter : Option String) (h : db.Consistent) :
    (applyForJob db now caller jobId coverLetter).2.Consistent := by
  rcases applyForJob_db db now caller jobId coverLetter with
    h1 | ⟨job, resume, text, hjob, _, h1⟩
  · rw [h1]
    exact h
  · rw [h1]
    rcases applicationCreate_db db now caller.id jobId resume text with
      ⟨jobs2, hmap, h2 | ⟨hany, doc, hu, hj, hid, h2⟩⟩
    · rw [h2]
      exact consistent_of_maps db _ h rfl rfl rfl hmap (Nat.le_succ _)
    · rw [h2]
      have hjob2 : jobId ∈ db.jobs.map (fun j => j.id) := by
        unfold Job.findById at hjob
        exact List.mem_map.mpr ⟨job, List.mem_of_find?_eq_some hjob,
          by simpa using List.find?_some hjob⟩
      refine ⟨?_, ?_, ?_, ?_, ?_, ?_⟩
      · show ((db.applications ++ [doc]).map (fun a => (a.userId, a.jobId))).Nodup
        rw [List.map_append, List.map_cons, List.map_nil]
        refine List.Nodup.append h.pairs (List.nodup_singleton _) ?_
        rw [List.disjoint_singleton]
        intro hm
        rcases List.mem_map.mp hm with ⟨b, hb, hbe⟩
        rw [List.any_eq_false] at hany
        apply hany b hb
        simp only [Prod.mk.injEq] at hbe
        simp [hbe.1, hbe.2, hu, hj]
      · show ((db.applications ++ [doc]).map (fun a => a.id)).Nodup
        rw [List.map_append, List.map_cons, List.map_nil]
        refine List.Nodup.append h.appIds (List.nodup_singleton _) ?_
        rw [List.disjoint_singleton]
        intro hm
        exact absurd (h.appBound _ hm) (by rw [hid]; exact lt_irrefl _)
      · show (jobs2.map (fun j => j.id)).Nodup
        rw [hmap]
        exact h.jobIds
      · intro k hk
        have hk2 : k ∈ (db.applications ++ [doc]).map (fun a => a.id) := hk
        rw [List.map_append, List.mem_append] at hk2
        rcases hk2 with hk2 | hk2
        · exact Nat.lt_succ_of_lt (h.appBound k hk2)
        · simp only [List.map_cons, List.map_nil, List.mem_singleton] at hk2
          rw [hk2, hid]
          exact Nat.lt_succ_self _
      · intro k hk
        have hk2 : k ∈ jobs2.map (fun j => j.id) := hk
        rw [hmap] at hk2
        exact Nat.lt_succ_of_lt (h.jobBound k hk2)
      · intro k hk
        show k ∈ jobs2.map (fun j => j.id)
        rw [hmap]
        have hk2 : k ∈ (db.applications ++ [doc]).map (fun a => a.jobId) := hk
        rw [List.map_append, List.mem_append] at hk2
        rcases hk2 with hk2 | hk2
        · exact h.refs k hk2
        · simp only [List.map_cons, List.map_nil, List.mem_singleton] at hk2
          rw [hk2, hj]
          exact hjob2

/-- Every database the API can produce is consistent. -/
theorem reachable_consistent (db : Db) (h : Reachable db) : db.Consistent := by
  induction h with
  | init users =>
    exact ⟨List.nodup_nil, List.nodup_nil, List.nodup_nil,
      fun _ hk => absurd hk (List.not_mem_nil _), fun _ hk => absurd hk (List.not_mem_nil _),
      fun _ hk => absurd hk (List.not_mem_nil _)⟩
  | createJob now caller body _ ih => exact consistent_createJob _ now caller body ih
  | updateJob now caller id body _ ih => exact consistent_updateJob _ now caller id body ih
  | getJob now caller id _ ih => exact consistent_getJob _ now caller id ih
  | deleteJob caller id _ ih => exact consistent_deleteJob _ caller id ih
  | applyForJob now caller jobId coverLetter _ ih =>
    exact consistent_applyForJob _ now caller jobId coverLetter ih
  | updateApplicationStatus now caller id body _ ih =>
    exact consistent_updateApplicationStatus _ now caller id body ih
  | deleteApplication caller id _ ih => exact consistent_deleteApplication _ caller id ih

/-! ## At most one application per user and job -/

/-- Claim C4: in every reachable database no two applications share a
`(userId, jobId)` pair; and when a job seeker's first application for a job
meets the preconditions it is answered 201, after which a second
application by the same user for the same job is answered with the
already-applied error and changes nothing. -/
theorem no_duplicate_applications (db : Db) (hreach : Reachable db) :
    (db.applications.map (fun a => (a.userId, a.jobId))).Nodup ∧
    (∀ a b, a ∈ db.applications → b ∈ db.applications →
      a.userId = b.userId → a.jobId = b.jobId → a = b) ∧
    (∀ (now : Nat) (caller : User) (jobId : Nat) (coverLetter : Option String) (job : Job)
        (resume : String) (now2 : Nat) (caller2 : User) (coverLetter2 : Option String),
      caller.role = Role.jobseeker → coverLetterStorable coverLetter →
      Job.findById db jobId = some job → job.status = JobStatus.active →
      Application.findOne db caller.id jobId = none →
      caller.profile.resume = some resume → resume ≠ "" →
      caller2.id = caller.id → caller2.role = Role.jobseeker →
      coverLetterValid coverLetter2 →
      (applyForJob db now caller jobId coverLetter).1.status = 201 ∧
      applyForJob (applyForJob db now caller jobId coverLetter).2 now2 caller2 jobId
          coverLetter2 =
        (failure 400 "You have already applied for this job",
          (applyForJob db now caller jobId coverLetter).2)) := by
  have hc := reachable_consistent db hreach
  refine ⟨hc.pairs, ?_, ?_⟩
  · intro a b ha hb hu hj
    exact List.inj_on_of_nodup_map hc.pairs ha hb (by simp only [hu, hj])
  · intro now caller jobId coverLetter job resume now2 caller2 coverLetter2 hrole hvalid hjob
      hactive hnew hres htruthy hid2 hrole2 hvalid2
    obtain ⟨h1, _, h3, h4, _⟩ := applyForJob_writes db now caller jobId coverLetter job resume
      hrole hvalid hjob hactive hnew hres htruthy
    refine ⟨h1, ?_⟩
    have hfound : (Application.findOne (applyForJob db now caller jobId coverLetter).2
        caller2.id jobId).isSome = true := by
      unfold Application.findOne
      rw [List.find?_isSome, h3]
      exact ⟨_, List.mem_append_right _ (List.mem_singleton_self _), by simp [hid2]⟩
    rcases Option.isSome_iff_exists.mp hfound with ⟨a, ha⟩
    have hjob2 : Job.findById (applyForJob db now caller jobId coverLetter).2 jobId =
        some { job with applicationCount := job.applicationCount + 1, updatedAt := now } := by
      have h := findById_incApplicationCount_same db now jobId 1
      rw [hjob] at h
      unfold Job.findById at h ⊢
      rw [h4]
      exact h
    rw [applyForJob_gate _ now2 caller2 jobId coverLetter2 hrole2 hvalid2, hjob2]
    simp only
    rw [if_neg (not_not.mpr hactive), ha]

/-- Instance of C4: `sampleSeeker` applies twice to the job of `dbPosted`. -/
theorem no_duplicate_applications_witness :
    Reachable dbPosted ∧
    Job.findById dbPosted 0 = some postedJob ∧
    (applyForJob dbPosted 2 sampleSeeker 0 none).1.status = 201 ∧
    applyForJob (applyForJob dbPosted 2 sampleSeeker 0 none).2 3 sampleSeeker 0 (some "again") =
      (failure 400 "You have already applied for this job",
        (applyForJob dbPosted 2 sampleSeeker 0 none).2) :=
  have hr : Reachable dbPosted :=
    Reachable.createJob 1 sampleEmployer sampleBody (Reachable.init sampleUsers)
  have hj : Job.findById dbPosted 0 = some postedJob := by decide
  have h := (no_duplicate_applications dbPosted hr).2.2 2 sampleSeeker 0 none postedJob
    "/uploads/sam.pdf" 3 sampleSeeker (some "again") rfl (fun _ hs => Option.noConfusion hs)
    hj rfl (by decide) rfl (by decide) rfl rfl
    (fun s hs => by
      cases hs
      decide)
  ⟨hr, hj, h.1, h.2⟩

/-! ## The application counter -/

/-- Counting a job id among the references is counting the applications of that job. -/
theorem count_jobId_eq (l : List Application) (k : Nat) :
    (l.map (fun a => a.jobId)).count k = (l.filter (fun a => a.jobId == k)).length := by
  rw [List.count_eq_countP, List.countP_map, List.countP_eq_length_filter]
  rfl

/-- Dropping the applications of one job does not change the count of another. -/
theorem count_jobId_filter_ne (l : List Application) (id k : Nat) (h : k ≠ id) :
    ((l.filter (fun a => !(a.jobId == id))).map (fun a => a.jobId)).count k =
      (l.map (fun a => a.jobId)).count k := by
  rw [count_jobId_eq, count_jobId_eq, List.filter_filter]
  congr 1
  refine List.filter_congr ?_
  intro a _
  by_cases ha : a.jobId = k
  · simp [ha, h]
  · simp [ha]

/-- Rewriting jobs without touching id or counter keeps the counters right. -/
theorem counted_mapJobs (db : Db) (g : Job → Job) (apps2 : List Application) (n : Nat)
    (hg : ∀ j ∈ db.jobs, (g j).id = j.id ∧ (g j).applicationCount = j.applicationCount)
    (hmap : apps2.map (fun a => a.jobId) = db.applications.map (fun a => a.jobId))
    (h : db.Counted) :
    Db.Counted { users := db.users, jobs := db.jobs.map g, applications := apps2, nextId := n } := by
  intro j hj
  rcases List.mem_map.mp hj with ⟨y, hy, rfl⟩
  show (g y).applicationCount = ((apps2.map (fun a => a.jobId)).count (g y).id : Int)
  rw [hmap, (hg y hy).1, (hg y hy).2]
  exact h y hy

/-- Updating one job without touching id or counter keeps the counters right. -/
theorem counted_updateJobs (db : Db) (id : Nat) (f : Job → Job)
    (hf : ∀ j ∈ db.jobs, j.id = id →
      (f j).id = j.id ∧ (f j).applicationCount = j.applicationCount)
    (hc : db.Consistent) (h : db.Counted) :
    Db.Counted { db with jobs := updateFirst (fun j => j.id == id) f db.jobs } := by
  rw [updateFirst_eq_map (fun j : Job => j.id) id f db.jobs hc.jobIds]
  refine counted_mapJobs db _ db.applications db.nextId ?_ rfl h
  intro j hj
  by_cases hk : j.id = id
  · simpa [hk] using hf j hj hk
  · simp [hk]

/-- Viewing a job keeps the counters right. -/
theorem counted_getJob (db : Db) (now : Nat) (caller : Option User) (param : IdParam)
    (hc : db.Consistent) (h : db.Counted) : (getJob db now caller param).2.Counted := by
  rcases getJob_db db now caller param with h1 | ⟨id, job, job1, hjob, hid, hcount, h1⟩
  · rw [h1]
    exact h
  · rw [h1]
    refine counted_updateJobs db id _ ?_ hc h
    intro j hj hk
    have hjob2 : job ∈ db.jobs := by
      unfold Job.findById at hjob
      exact List.mem_of_find?_eq_some hjob
    have hje : j = job := eq_of_key_eq (fun j : Job => j.id) db.jobs hc.jobIds j job hj hjob2
      (hk.trans (jobFindById_id db id job hjob).symm)
    rw [hje]
    exact ⟨hid, hcount⟩

/-- An update whose body carries no `applicationCount` keeps the counters right. -/
theorem counted_updateJob (db : Db) (now : Nat) (caller : User) (id : Nat) (body : JobBody)
    (hbody : body.applicationCount = none) (hc : db.Consistent) (h : db.Counted) :
    (updateJob db now caller id body).2.Counted := by
  rcases updateJob_db db now caller id body with h1 | ⟨f, hf, h1⟩
  · rw [h1]
    exact h
  · rw [h1]
    refine counted_updateJobs db id f ?_ hc h
    intro j _ _
    have := hf j
    rw [hbody] at this
    exact this

/-- Updating an application's status keeps the counters right. -/
theorem counted_updateApplicationStatus (db : Db) (now : Nat) (caller : User) (id : Nat)
    (body : StatusBody) (h : db.Counted) :
    (updateApplicationStatus db now caller id body).2.Counted := by
  rcases updateApplicationStatus_db db now caller id body with h1 | ⟨f, hf, h1⟩
  · rw [h1]
    exact h
  · rw [h1]
    have hmap : (updateFirst (fun a => a.id == id) f db.applications).map (fun a => a.jobId) =
        db.applications.map (fun a => a.jobId) :=
      updateFirst_map_eq _ f (fun a : Application => a.jobId) (fun a _ => (hf a).2.2)
        db.applications
    have := counted_mapJobs db (fun j => j) _ db.nextId (fun _ _ => ⟨rfl, rfl⟩) hmap h
    rw [List.map_id'] at this
    exact this

/-- Deleting a job with its applications keeps the counters right. -/
theorem counted_deleteJob (db : Db) (caller : User) (id : Nat)
    (hc : db.Consistent) (h : db.Counted) : (deleteJob db caller id).2.Counted := by
  rcases deleteJob_db db caller id with h1 | h1
  · rw [h1]
    exact h
  · rw [h1]
    intro j hj
    have hj2 := (mem_eraseP_key (fun j : Job => j.id) id db.jobs hc.jobIds j).mp hj
    show j.applicationCount =
      ((((db.applications.filter (fun a => !(a.jobId == id))).map (fun a => a.jobId)).count
        j.id : Nat) : Int)
    rw [count_jobId_filter_ne db.applications id j.id hj2.2]
    exact h j hj2.1

/-- Posting a job whose body carries no `applicationCount` keeps the counters right. -/
theorem counted_createJob (db : Db) (now : Nat) (caller : User) (body : JobBody)
    (hbody : body.applicationCount = none) (hc : db.Consistent) (h : db.Counted) :
    (createJob db now caller body).2.Counted := by
  rcases createJob_db db now caller body with h1 | ⟨b, hb, h1⟩
  · rw [h1]
    exact h
  · rw [h1]
    rcases jobCreate_db db now b with h2 | ⟨doc, hid, hcount, h2⟩
    · rw [h2]
      exact h
    · rw [h2]
      intro j hj
      have hj2 : j ∈ db.jobs ++ [doc] := hj
      rcases List.mem_append.mp hj2 with hj3 | hj3
      · exact h j hj3
      · rw [List.mem_singleton] at hj3
        have hfresh : db.nextId ∉ db.applications.map (fun a => a.jobId) := fun hm =>
          lt_irrefl _ (hc.jobBound _ (hc.refs _ hm))
        show j.applicationCount =
          (((db.applications.map (fun a => a.jobId)).count j.id : Nat) : Int)
        rw [hj3, hid, List.count_eq_zero_of_not_mem hfresh, hcount, hb, hbody]
        rfl

/-- Applying keeps the counters right. -/
theorem counted_applyForJob (db : Db) (now : Nat) (caller : User) (jobId : Nat)
    (coverLetter : Option String) (hc : db.Consistent) (h : db.Counted) :
    (applyForJob db now caller jobId coverLetter).2.Counted := by
  rcases applyForJob_db db now caller jobId coverLetter with
    h1 | ⟨job, resume, text, _, hnew, h1⟩
  · rw [h1]
    exact h
  · rw [h1]
    by_cases hv : Application.validate resume text = true
    · have hv2 : truthyStr resume = true ∧ utf16Length text ≤ 1000 := by
        simpa [Application.validate] using hv
      rw [applicationCreate_ok db now caller.id jobId resume text hv2.1 hv2.2 hnew]
      intro j hj
      have hj2 : j ∈ updateFirst (fun j : Job => j.id == jobId)
          (fun j => { j with applicationCount := j.applicationCount + 1, updatedAt := now })
          db.jobs := hj
      rw [updateFirst_eq_map (fun j : Job => j.id) jobId _ db.jobs hc.jobIds] at hj2
      rcases List.mem_map.mp hj2 with ⟨y, hy, hye⟩
      have hy2 := h y hy
      show j.applicationCount =
        (((List.map (fun a : Application => a.jobId) (db.applications ++ [_])).count j.id : Nat) : Int)
      by_cases hk : y.id = jobId
      · have hb : (y.id == jobId) = true := by simpa using hk
        rw [if_pos hb] at hye
        rw [← hye]
        simp only [List.map_append, List.map_cons, List.map_nil, List.count_append,
          List.count_singleton, hk, beq_self_eq_true, if_true, Nat.cast_add, Nat.cast_one]
        rw [hy2, hk]
      · have hb : ¬ (y.id == jobId) = true := by simpa using hk
        have hk2 : (jobId == y.id) = false := by simpa using fun e : jobId = y.id => hk e.symm
        rw [if_neg hb] at hye
        rw [← hye]
        simp only [List.map_append, List.map_cons, List.map_nil, List.count_append,
          List.count_singleton, hk2, Bool.false_eq_true, if_false, Nat.cast_add, Nat.cast_zero,
          add_zero]
        exact hy2
    · have hrun : (Application.create db now caller.id jobId resume text).2 =
          { db with nextId := db.nextId + 1 } := by
        unfold Application.create
        simp [hv]
      rw [hrun]
      exact h

/-- The restricted runs are runs of the API. -/
theorem reachableCounted_reachable (db : Db) (h : ReachableCounted db) : Reachable db := by
  induction h with
  | init users => exact Reachable.init users
  | createJob now caller body _ _ ih => exact Reachable.createJob now caller body ih
  | updateJob now caller id body _ _ ih => exact Reachable.updateJob now caller id body ih
  | getJob now caller id _ ih => exact Reachable.getJob now caller id ih
  | deleteJob caller id _ ih => exact Reachable.deleteJob caller id ih
  | applyForJob now caller jobId coverLetter _ ih =>
    exact Reachable.applyForJob now caller jobId coverLetter ih
  | updateApplicationStatus now caller id body _ ih =>
    exact Reachable.updateApplicationStatus now caller id body ih

/-- The counters are right after every restricted run. -/
theorem reachableCounted_counted (db : Db) (h : ReachableCounted db) : db.Counted := by
  induction h with
  | init users => exact fun _ hj => absurd hj (List.not_mem_nil _)
  | createJob now caller body hb hr ih =>
    exact counted_createJob _ now caller body hb
      (reachable_consistent _ (reachableCounted_reachable _ hr)) ih
  | updateJob now caller id body hb hr ih =>
    exact counted_updateJob _ now caller id body hb
      (reachable_consistent _ (reachableCounted_reachable _ hr)) ih
  | getJob now caller id hr ih =>
    exact counted_getJob _ now caller id
      (reachable_consistent _ (reachableCounted_reachable _ hr)) ih
  | deleteJob caller id hr ih =>
    exact counted_deleteJob _ caller id
      (reachable_consistent _ (reachableCounted_reachable _ hr)) ih
  | applyForJob now caller jobId coverLetter hr ih =>
    exact counted_applyForJob _ now caller jobId coverLetter
      (reachable_consistent _ (reachableCounted_reachable _ hr)) ih
  | updateApplicationStatus now caller id body _ ih =>
    exact counted_updateApplicationStatus _ now caller id body ih

/-- Claim C1 as stated fails: the owner of the job in `dbPosted` sends an
update whose body sets `applicationCount` to 5, and a job posted with
`applicationCount` 5 in its body starts at 5; both databases are reachable
and hold no application at all. -/
theorem applicationCount_overwritten_by_body :
    Reachable (updateJob dbPosted 2 sampleEmployer 0 overwriteBody).2 ∧
    (updateJob dbPosted 2 sampleEmployer 0 overwriteBody).1.status = 200 ∧
    (Job.findById (updateJob dbPosted 2 sampleEmployer 0 overwriteBody).2 0).map
      (fun j => j.applicationCount) = some 5 ∧
    (updateJob dbPosted 2 sampleEmployer 0 overwriteBody).2.applications = [] ∧
    Reachable
      (createJob dbEmpty 1 sampleEmployer { sampleBody with applicationCount := some 5 }).2 ∧
    (createJob dbEmpty 1 sampleEmployer { sampleBody with applicationCount := some 5 }).1.status
      = 201 ∧
    (Job.findById
        (createJob dbEmpty 1 sampleEmployer { sampleBody with applicationCount := some 5 }).2
        0).map (fun j => j.applicationCount) = some 5 ∧
    (createJob dbEmpty 1 sampleEmployer
      { sampleBody with applicationCount := some 5 }).2.applications = [] :=
  ⟨Reachable.updateJob 2 sampleEmployer 0 overwriteBody
      (Reachable.createJob 1 sampleEmployer sampleBody (Reachable.init sampleUsers)),
   by decide, by decide, by decide,
   Reachable.createJob 1 sampleEmployer _ (Reachable.init sampleUsers),
   by decide, by decide, by decide⟩

/-- Claim C1 (amended): in every database reached through create job, update
job, get job, delete job, apply and update application status, with no job
request body carrying `applicationCount`, each job's `applicationCount` is
the number of stored applications whose `jobId` is that job. -/
theorem applicationCount_matches (db : Db) (h : ReachableCounted db) :
    ∀ j ∈ db.jobs,
      j.applicationCount =
        ((db.applications.filter (fun a => a.jobId == j.id)).length : Int) := by
  intro j hj
  rw [← count_jobId_eq]
  exact reachableCounted_counted db h j hj

/-- Instance of C1 (amended): after one application to the job of `dbPosted` its counter is 1. -/
theorem applicationCount_matches_witness :
    ReachableCounted (applyForJob dbPosted 2 sampleSeeker 0 none).2 ∧
    (applyForJob dbPosted 2 sampleSeeker 0 none).2.jobs =
      [{ postedJob with applicationCount := 1, updatedAt := 2 }] ∧
    ({ postedJob with applicationCount := 1, updatedAt := 2 } : Job).applicationCount =
      (((applyForJob dbPosted 2 sampleSeeker 0 none).2.applications.filter
        (fun a => a.jobId == 0)).length : Int) :=
  have hr : ReachableCounted (applyForJob dbPosted 2 sampleSeeker 0 none).2 :=
    ReachableCounted.applyForJob 2 sampleSeeker 0 none
      (ReachableCounted.createJob 1 sampleEmployer sampleBody rfl
        (ReachableCounted.init sampleUsers))
  ⟨hr, by decide,
   applicationCount_matches _ hr { postedJob with applicationCount := 1, updatedAt := 2 }
     (by decide)⟩

/-- Claim C6 fails on the code: `deleteApplication` never writes to the jobs
collection.  After the job seeker's application to the job of `dbPosted`
(counter 1) the same job seeker deletes it: the answer is 200, the record is
gone, and the job's `applicationCount` is still 1 with no application left. -/
theorem deleteApplication_keeps_applicationCount :
    (∀ (db : Db) (caller : User) (id : Nat), (deleteApplication db caller id).2.jobs = db.jobs) ∧
    Reachable (deleteApplication (applyForJob dbPosted 2 sampleSeeker 0 none).2 sampleSeeker 1).2 ∧
    (applyForJob dbPosted 2 sampleSeeker 0 none).1.status = 201 ∧
    (Job.findById (applyForJob dbPosted 2 sampleSeeker 0 none).2 0).map
      (fun j => j.applicationCount) = some 1 ∧
    (deleteApplication (applyForJob dbPosted 2 sampleSeeker 0 none).2 sampleSeeker 1).1.status
      = 200 ∧
    (deleteApplication (applyForJob dbPosted 2 sampleSeeker 0 none).2 sampleSeeker
      1).2.applications = [] ∧
    (Job.findById
        (deleteApplication (applyForJob dbPosted 2 sampleSeeker 0 none).2 sampleSeeker 1).2 0).map
      (fun j => j.applicationCount) = some 1 := by
  refine ⟨?_, ?_, by decide, by decide, by decide, by decide, by decide⟩
  · intro db caller id
    rcases deleteApplication_db db caller id with h | h
    · rw [h]
    · rw [h]
      rfl
  · exact Reachable.deleteApplication sampleSeeker 1
      (Reachable.applyForJob 2 sampleSeeker 0 none
        (Reachable.createJob 1 sampleEmployer sampleBody (Reachable.init sampleUsers)))

/-! ## More on single-document updates and what handlers write -/

/-- Looking up the updated key finds the updated element, when the update
keeps the key of the elements it applies to. -/
theorem updateFirst_find_hit {α : Type} (key : α → Nat) (k : Nat) (f : α → α)
    (hf : ∀ x, key x = k → key (f x) = k) (l : List α) :
    (updateFirst (fun x => key x == k) f l).find? (fun x => key x == k) =
      (l.find? (fun x => key x == k)).map f := by
  induction l with
  | nil => rfl
  | cons x xs ih =>
    unfold updateFirst
    by_cases h : key x = k
    · simp [h, hf x h]
    · simp [h, ih]

/-- Looking up another key is unaffected, when the update keeps the key of
the elements it applies to. -/
theorem updateFirst_find_miss {α : Type} (key : α → Nat) (k k2 : Nat) (f : α → α)
    (hf : ∀ x, key x = k → key (f x) = k) (hk : k2 ≠ k) (l : List α) :
    (updateFirst (fun x => key x == k) f l).find? (fun x => key x == k2) =
      l.find? (fun x => key x == k2) := by
  induction l with
  | nil => rfl
  | cons x xs ih =>
    unfold updateFirst
    by_cases h : key x = k
    · have h3 : (key x == k) = true := by simpa using h
      have h4 : (key (f x) == k2) = false := by
        rw [hf x h]
        simpa using fun e : k = k2 => hk e.symm
      have h5 : (key x == k2) = false := by
        rw [h]
        simpa using fun e : k = k2 => hk e.symm
      simp only [h3, if_true, List.find?_cons, h4, h5]
    · have h3 : (key x == k) = false := by simpa using h
      simp only [h3, Bool.false_eq_true, if_false, List.find?_cons, ih]

/-- What `getJob` answers and writes for an existing job. -/
theorem getJob_found (db : Db) (now : Nat) (caller : Option User) (id : Nat) (job : Job)
    (hjob : Job.findById db id = some job) :
    (getJob db now caller (IdParam.objectId id)).1.status = 200 ∧
    (getJob db now caller (IdParam.objectId id)).2 =
      { db with jobs := updateFirst (fun j => j.id == id)
                  (fun _ => { job with views := job.views + 1, updatedAt := now }) db.jobs } ∧
    Job.findById (getJob db now caller (IdParam.objectId id)).2 id =
      some { job with views := job.views + 1, updatedAt := now } ∧
    (∀ id2, id2 ≠ id →
      Job.findById (getJob db now caller (IdParam.objectId id)).2 id2 = Job.findById db id2) := by
  have hid := jobFindById_id db id job hjob
  have hrun : (getJob db now caller (IdParam.objectId id)).2 =
      { db with jobs := updateFirst (fun j => j.id == id)
                  (fun _ => { job with views := job.views + 1, updatedAt := now }) db.jobs } := by
    rw [getJob.eq_2]
    rw [hjob]
  refine ⟨?_, hrun, ?_, ?_⟩
  · rw [getJob.eq_2]
    rw [hjob]
  · rw [hrun]
    have h := updateFirst_find_hit (fun j : Job => j.id) id
      (fun _ => { job with views := job.views + 1, updatedAt := now }) (fun _ _ => hid) db.jobs
    unfold Job.findById at hjob ⊢
    rw [hjob] at h
    exact h
  · intro id2 h2
    rw [hrun]
    exact updateFirst_find_miss (fun j : Job => j.id) id id2
      (fun _ => { job with views := job.views + 1, updatedAt := now }) (fun _ _ => hid) h2 db.jobs

/-- The jobs collection after `updateJob`: untouched, or the target job with
the body's paths assigned and `updatedAt` refreshed. -/
theorem updateJob_jobs (db : Db) (now : Nat) (caller : User) (id : Nat) (body : JobBody) :
    (updateJob db now caller id body).2 = db ∨
    (updateJob db now caller id body).2 =
      { db with jobs := updateFirst (fun j => j.id == id)
                  (fun j => { Job.assign j (Job.applySetters
                                { body with title := body.title.map jsTrim,
                                            description := body.description.map jsTrim })
                              with updatedAt := now }) db.jobs } := by
  unfold updateJob
  dsimp only
  repeat' split
  all_goals first
    | exact Or.inl rfl
    | (rename_i heq
       unfold Job.findByIdAndUpdate at heq
       dsimp only at heq
       split at heq
       · exact absurd heq (by simp)
       · simp only [Option.some.injEq] at heq
         exact Or.inr heq.symm)

/-- The jobs collection after `applyForJob`: untouched, or the target job's
counter bumped. -/
theorem applyForJob_jobs (db : Db) (now : Nat) (caller : User) (jobId : Nat)
    (coverLetter : Option String) :
    (applyForJob db now caller jobId coverLetter).2.jobs = db.jobs ∨
    (applyForJob db now caller jobId coverLetter).2.jobs =
      (Job.incApplicationCount db now jobId 1).jobs := by
  rcases applyForJob_db db now caller jobId coverLetter with h | ⟨_, resume, text, _, _, h⟩
  · rw [h]
    exact Or.inl rfl
  · rw [h]
    unfold Application.create
    dsimp only
    split_ifs
    · exact Or.inl rfl
    · exact Or.inr rfl
    · exact Or.inr rfl

/-! ## The owner-or-admin rule of the job-scoped handlers -/

/-- The ownership test the three job-scoped handlers share, as a Boolean. -/
theorem ownerTest_eq_true (job : Job) (caller : User) :
    (decide (job.postedBy ≠ caller.id) && decide (caller.role ≠ Role.admin)) = true ↔
      (caller.id ≠ job.postedBy ∧ caller.role ≠ Role.admin) := by
  simp only [Bool.and_eq_true, decide_eq_true_eq]
  constructor
  · rintro ⟨h1, h2⟩
    exact ⟨fun h => h1 h.symm, h2⟩
  · rintro ⟨h1, h2⟩
    exact ⟨fun h => h1 h.symm, h2⟩

/-- Claim C11 as stated fails: `sampleOther`, a job seeker, is the
`postedBy` user of job 1 in `dbSeekerOwned` and is answered 403 by all three
handlers; and `sampleRival`, who neither owns the job of `dbPosted` nor is
an admin, is answered 400 and not 403 by Update job when the title has
three characters. -/
theorem job_routes_owner_refused_by_role :
    (Job.findById dbSeekerOwned 1).map (fun j => j.postedBy) = some sampleOther.id ∧
    sampleOther.role = Role.jobseeker ∧
    (updateJob dbSeekerOwned 10 sampleOther 1 emptyBody).1.status = 403 ∧
    (deleteJob dbSeekerOwned sampleOther 1).1.status = 403 ∧
    (getJobApplications dbSeekerOwned sampleOther 1 emptyQuery).status = 403 ∧
    (Job.findById dbPosted 0).map (fun j => j.postedBy) = some sampleEmployer.id ∧
    sampleRival.id ≠ sampleEmployer.id ∧ sampleRival.role ≠ Role.admin ∧
    (updateJob dbPosted 4 sampleRival 0 { emptyBody with title := some "Dev" }).1.status =
      400 := by
  decide

/-- Claim C11, amended: on an existing job, delete job and list
applications for job answer 403 exactly when the caller is a job seeker,
whom the routes do not admit, or the caller's id differs from
`job.postedBy` and the caller is not an admin; update job does so exactly
when the caller is a job seeker, or the body passes validation and the
caller's id differs from `job.postedBy` and the caller is not an admin. -/
theorem job_routes_forbidden_iff (db : Db) (now : Nat) (caller : User) (id : Nat)
    (body : JobBody) (q : ListQuery) (job : Job)
    (hjob : Job.findById db id = some job) :
    ((updateJob db now caller id body).1.status = 403 ↔
      (caller.role = Role.jobseeker ∨
        (updateJobValid body ∧ caller.id ≠ job.postedBy ∧ caller.role ≠ Role.admin))) ∧
    ((deleteJob db caller id).1.status = 403 ↔
      (caller.role = Role.jobseeker ∨
        (caller.id ≠ job.postedBy ∧ caller.role ≠ Role.admin))) ∧
    ((getJobApplications db caller id q).status = 403 ↔
      (caller.role = Role.jobseeker ∨
        (caller.id ≠ job.postedBy ∧ caller.role ≠ Role.admin))) := by
  by_cases hrole : caller.role = Role.jobseeker
  · have hauth := authorize_staff_jobseeker caller hrole
    refine ⟨?_, ?_, ?_⟩
    · unfold updateJob
      simp only [hauth, Bool.not_false, if_true, roleForbidden]
      exact iff_of_true trivial (Or.inl hrole)
    · unfold deleteJob
      simp only [hauth, Bool.not_false, if_true, roleForbidden]
      exact iff_of_true trivial (Or.inl hrole)
    · unfold getJobApplications
      simp only [hauth, Bool.not_false, if_true, roleForbidden]
      exact iff_of_true trivial (Or.inl hrole)
  · have hauth := authorize_staff caller hrole
    have hor : ∀ p : Prop, (caller.role = Role.jobseeker ∨ p) ↔ p :=
      fun p => ⟨fun h => h.elim (fun h2 => absurd h2 hrole) (fun h2 => h2), Or.inr⟩
    simp only [hor]
    by_cases hc : caller.id ≠ job.postedBy ∧ caller.role ≠ Role.admin
    · have ht := (ownerTest_eq_true job caller).mpr hc
      refine ⟨?_, ?_, ?_⟩
      · by_cases hvalid : updateJobValid body
        · have hv : (((body.title.map jsTrim).map (lengthBetween 5 100)).getD true &&
              ((body.description.map jsTrim).map (lengthBetween 50 2000)).getD true) = true := by
            rw [hvalid.1, hvalid.2]
            rfl
          unfold updateJob
          simp only [hauth, hv, hjob, ht, Bool.not_true, Bool.false_eq_true,
            if_false, if_true, failure]
          exact iff_of_true trivial ⟨hvalid, hc⟩
        · have hv : (((body.title.map jsTrim).map (lengthBetween 5 100)).getD true &&
              ((body.description.map jsTrim).map (lengthBetween 50 2000)).getD true) = false := by
            rw [Bool.eq_false_iff]
            intro h
            rw [Bool.and_eq_true] at h
            exact hvalid h
          unfold updateJob
          simp only [hauth, hv, Bool.not_true, Bool.not_false, Bool.false_eq_true,
            if_false, if_true, validationFailed]
          exact iff_of_false (by decide) (fun h => hvalid h.1)
      · unfold deleteJob
        simp only [hauth, hjob, ht, Bool.not_true, Bool.false_eq_true,
          if_false, if_true, failure]
        exact iff_of_true trivial hc
      · unfold getJobApplications
        simp only [hauth, hjob, ht, Bool.not_true, Bool.false_eq_true,
          if_false, if_true, failure]
        exact iff_of_true trivial hc
    · have ht : (decide (job.postedBy ≠ caller.id) && decide (caller.role ≠ Role.admin))
          = false := by
        rw [Bool.eq_false_iff]
        exact fun h => hc ((ownerTest_eq_true job caller).mp h)
      refine ⟨?_, ?_, ?_⟩
      · have hrhs : ¬ (updateJobValid body ∧ caller.id ≠ job.postedBy ∧
            caller.role ≠ Role.admin) := fun h => hc h.2
        refine iff_of_false ?_ hrhs
        unfold updateJob
        simp only [hauth, hjob, ht, Bool.not_true, Bool.false_eq_true, if_false]
        repeat' split
        all_goals simp [serverError, validationFailed]
      · unfold deleteJob
        simp only [hauth, hjob, ht, Bool.not_true, Bool.false_eq_true,
          if_false, hc, iff_false]
        simp
      · unfold getJobApplications
        simp only [hauth, hjob, ht, Bool.not_true, Bool.false_eq_true,
          if_false, hc, iff_false]
        split <;> simp [serverError, pageEnvelope]

/-- Instance of C11: on the job of `dbPosted`, an employer who does not own
it is refused by all three handlers and its owner by none. -/
theorem job_routes_forbidden_iff_witness :
    (updateJob dbPosted 4 sampleRival 0 emptyBody).1.status = 403 ∧
    (deleteJob dbPosted sampleRival 0).1.status = 403 ∧
    (getJobApplications dbPosted sampleRival 0 emptyQuery).status = 403 ∧
    ¬ (getJobApplications dbPosted sampleEmployer 0 emptyQuery).status = 403 :=
  have h := job_routes_forbidden_iff dbPosted 4 sampleRival 0 emptyBody emptyQuery postedJob
    (by decide)
  have h2 := job_routes_forbidden_iff dbPosted 4 sampleEmployer 0 emptyBody emptyQuery postedJob
    (by decide)
  ⟨h.1.mpr (Or.inr ⟨⟨rfl, rfl⟩, by decide, by decide⟩), h.2.1.mpr (Or.inr (by decide)),
   h.2.2.mpr (Or.inr (by decide)),
   fun h3 => (h2.2.2.mp h3).elim (fun h4 => absurd h4 (by decide)) (fun h4 => h4.1 rfl)⟩

/-! ## Calls that end in 404 or 403 write nothing -/

/-- Claim C12: when update job, delete job, update application status or
delete application answers 404 or 403, the database returned is the database
given: no job and no application was written. -/
theorem not_found_or_forbidden_writes_nothing (db : Db) (now : Nat) (caller : User) (id : Nat)
    (jobBody : JobBody) (statusBody : StatusBody) :
    (((updateJob db now caller id jobBody).1.status = 404 ∨
        (updateJob db now caller id jobBody).1.status = 403) →
      (updateJob db now caller id jobBody).2 = db) ∧
    (((deleteJob db caller id).1.status = 404 ∨ (deleteJob db caller id).1.status = 403) →
      (deleteJob db caller id).2 = db) ∧
    (((updateApplicationStatus db now caller id statusBody).1.status = 404 ∨
        (updateApplicationStatus db now caller id statusBody).1.status = 403) →
      (updateApplicationStatus db now caller id statusBody).2 = db) ∧
    (((deleteApplication db caller id).1.status = 404 ∨
        (deleteApplication db caller id).1.status = 403) →
      (deleteApplication db caller id).2 = db) := by
  refine ⟨?_, ?_, ?_, ?_⟩
  · unfold updateJob
    dsimp only
    repeat' split
    all_goals first
      | (intro _; rfl)
      | (intro h; simp [serverError] at h)
  · unfold deleteJob
    dsimp only
    repeat' split
    all_goals first
      | (intro _; rfl)
      | (intro h; simp at h)
  · unfold updateApplicationStatus
    dsimp only
    repeat' split
    all_goals first
      | (intro _; rfl)
      | (intro h; simp [serverError] at h)
  · unfold deleteApplication
    dsimp only
    repeat' split
    all_goals first
      | (intro _; rfl)
      | (intro h; simp at h)

/-- Instance of C12: an employer who does not own the job of `dbPosted` tries
to update and to delete it. -/
theorem not_found_or_forbidden_writes_nothing_witness :
    (updateJob dbPosted 4 sampleRival 0 overwriteBody).1.status = 403 ∧
    (updateJob dbPosted 4 sampleRival 0 overwriteBody).2 = dbPosted ∧
    (deleteJob dbPosted sampleRival 7).1.status = 404 ∧
    (deleteJob dbPosted sampleRival 7).2 = dbPosted :=
  have h := not_found_or_forbidden_writes_nothing dbPosted 4 sampleRival 0 overwriteBody
    { status := none, notes := none, interviewDate := none, interviewLocation := none,
      interviewType := none }
  have h2 := not_found_or_forbidden_writes_nothing dbPosted 4 sampleRival 7 overwriteBody
    { status := none, notes := none, interviewDate := none, interviewLocation := none,
      interviewType := none }
  ⟨by decide, h.1 (Or.inr (by decide)), by decide, h2.2.1 (Or.inl (by decide))⟩

/-! ## Views -/

/-- Claim C14 as stated fails: viewing the job of `dbPosted` at time 5 raises
`views` from 0 to 1 and also moves the job's `updatedAt` from 1 to 5; and
`GET /api/jobs/my-jobs` reaches this handler with the parameter `my-jobs`,
which resolves to no job and is answered 500, not 404. -/
theorem getJob_refreshes_updatedAt :
    Job.findById dbPosted 0 = some postedJob ∧
    postedJob.views = 0 ∧ postedJob.updatedAt = 1 ∧
    (getJob dbPosted 5 none (IdParam.objectId 0)).1.status = 200 ∧
    (Job.findById (getJob dbPosted 5 none (IdParam.objectId 0)).2 0).map (fun j => j.views) =
      some 1 ∧
    (Job.findById (getJob dbPosted 5 none (IdParam.objectId 0)).2 0).map
      (fun j => j.updatedAt) = some 5 ∧
    dispatch jobsRouter Method.get "/my-jobs" = some JobsHandler.getJob ∧
    (getJob dbPosted 5 none (IdParam.malformed "my-jobs")).1.status = 500 := by
  decide

/-- Claim C14 (amended): an ObjectId that no job has is answered 404 and a
parameter that does not cast to an ObjectId 500, both with nothing written.
For an existing job every call answers 200 and stores the job with
`updatedAt` set to the time of the call and every field other than `views`
and `updatedAt` as it was; no other job, no application and no user
changes.  Where `views` is a safe integer the stored `views` is one higher,
still an exact number, and a second call, by whichever caller, leaves it two
higher. -/
theorem getJob_counts_view (db : Db) (now : Nat) (caller : Option User) (id : Nat) :
    (Job.findById db id = none →
      getJob db now caller (IdParam.objectId id) = (failure 404 "Job not found", db)) ∧
    (∀ text, getJob db now caller (IdParam.malformed text) = (serverError, db)) ∧
    (∀ job, Job.findById db id = some job →
      (getJob db now caller (IdParam.objectId id)).1.status = 200 ∧
      (∃ job1 : Job,
        Job.findById (getJob db now caller (IdParam.objectId id)).2 id = some job1 ∧
        job1.updatedAt = now ∧
        { job1 with views := job.views, updatedAt := job.updatedAt } = job ∧
        (IsSafeInteger job.views → job1.views = job.views + 1 ∧ job1.views ≤ 2 ^ 53)) ∧
      (∀ id2, id2 ≠ id →
        Job.findById (getJob db now caller (IdParam.objectId id)).2 id2 =
          Job.findById db id2) ∧
      (∀ j : Job, j.id ≠ id →
        (j ∈ (getJob db now caller (IdParam.objectId id)).2.jobs ↔ j ∈ db.jobs)) ∧
      (getJob db now caller (IdParam.objectId id)).2.applications = db.applications ∧
      (getJob db now caller (IdParam.objectId id)).2.users = db.users ∧
      (∀ (now2 : Nat) (caller2 : Option User),
        IsSafeInteger job.views → IsSafeInteger (job.views + 1) →
        Job.findById (getJob (getJob db now caller (IdParam.objectId id)).2 now2 caller2
            (IdParam.objectId id)).2 id =
          some { job with views := job.views + 2, updatedAt := now2 })) := by
  refine ⟨?_, fun _ => rfl, ?_⟩
  · intro h
    rw [getJob.eq_2]
    rw [h]
  · intro job hjob
    obtain ⟨h1, h2, h3, h4⟩ := getJob_found db now caller id job hjob
    refine ⟨h1, ⟨_, h3, rfl, rfl, fun hsafe => ⟨rfl, ?_⟩⟩, h4, ?_, ?_, ?_, ?_⟩
    · show job.views + 1 ≤ 2 ^ 53
      have := hsafe.2
      omega
    · intro j hj
      rw [h2]
      exact mem_updateFirst_of_not (fun x : Job => x.id == id)
        (fun _ => { job with views := job.views + 1, updatedAt := now })
        (fun _ _ => by simpa using jobFindById_id db id job hjob) j (by simpa using hj) db.jobs
    · rw [h2]
    · rw [h2]
    · intro now2 caller2 _ _
      have h5 := (getJob_found (getJob db now caller (IdParam.objectId id)).2 now2 caller2 id _
        h3).2.2.1
      rw [h5]
      have h6 : job.views + 1 + 1 = job.views + 2 := by ring
      simp only [h6]

/-- Instance of C14 (amended): two viewers look at the job of `dbPosted`,
nobody finds a job under ObjectId 7, and the parameter `stats` is answered
500. -/
theorem getJob_counts_view_witness :
    getJob dbPosted 5 none (IdParam.objectId 7) = (failure 404 "Job not found", dbPosted) ∧
    getJob dbPosted 5 none (IdParam.malformed "stats") = (serverError, dbPosted) ∧
    Job.findById (getJob (getJob dbPosted 5 none (IdParam.objectId 0)).2 6 (some sampleSeeker)
        (IdParam.objectId 0)).2 0 =
      some { postedJob with views := postedJob.views + 2, updatedAt := 6 } :=
  ⟨(getJob_counts_view dbPosted 5 none 7).1 (by decide),
   (getJob_counts_view dbPosted 5 none 7).2.1 "stats",
   ((getJob_counts_view dbPosted 5 none 0).2.2 postedJob (by decide)).2.2.2.2.2.2 6
     (some sampleSeeker) (by unfold IsSafeInteger; decide) (by unfold IsSafeInteger; decide)⟩

/-- Claim C16 as stated fails: after one view the job of `dbPosted` has
`views` 1; its owner then sends an update whose body sets `views` to 0, and
the stored value drops to 0. -/
theorem updateJob_lowers_views :
    (Job.findById (getJob dbPosted 2 none (IdParam.objectId 0)).2 0).map (fun j => j.views) =
      some 1 ∧
    (updateJob (getJob dbPosted 2 none (IdParam.objectId 0)).2 3 sampleEmployer 0
      { emptyBody with views := some 0 }).1.status = 200 ∧
    (Job.findById (updateJob (getJob dbPosted 2 none (IdParam.objectId 0)).2 3 sampleEmployer 0
      { emptyBody with views := some 0 }).2 0).map (fun j => j.views) = some 0 := by
  decide

/-- Claim C16 (amended): get job, update job with a body that carries no
`views`, apply, update status and delete application never lower the `views`
of a job: a job found under an id before and after the call has at least the
`views` it had. -/
theorem views_never_decrease (db : Db) (now : Nat) (id : Nat) (j j2 : Job)
    (hj : Job.findById db id = some j) :
    (∀ (viewer : Option User) (target : IdParam),
      Job.findById (getJob db now viewer target).2 id = some j2 → j.views ≤ j2.views) ∧
    (∀ (caller : User) (target : Nat) (body : JobBody), body.views = none →
      Job.findById (updateJob db now caller target body).2 id = some j2 →
      j.views ≤ j2.views) ∧
    (∀ (caller : User) (target : Nat) (coverLetter : Option String),
      Job.findById (applyForJob db now caller target coverLetter).2 id = some j2 →
      j.views ≤ j2.views) ∧
    (∀ (caller : User) (target : Nat) (body : StatusBody),
      Job.findById (updateApplicationStatus db now caller target body).2 id = some j2 →
      j.views ≤ j2.views) ∧
    (∀ (caller : User) (target : Nat),
      Job.findById (deleteApplication db caller target).2 id = some j2 →
      j.views ≤ j2.views) := by
  have hsame : ∀ db2 : Db, db2.jobs = db.jobs → Job.findById db2 id = some j2 →
      j.views ≤ j2.views := by
    intro db2 h2 h
    unfold Job.findById at h hj
    rw [h2, hj] at h
    rw [Option.some.inj h]
  refine ⟨?_, ?_, ?_, ?_, ?_⟩
  · intro viewer param h
    cases param with
    | malformed text => exact hsame _ rfl h
    | objectId target =>
      cases ht : Job.findById db target with
      | none =>
        have hrun : (getJob db now viewer (IdParam.objectId target)).2 = db := by
          rw [getJob.eq_2]
          rw [ht]
        exact hsame _ (by rw [hrun]) h
      | some job =>
        obtain ⟨_, _, h3, h4⟩ := getJob_found db now viewer target job ht
        by_cases he : id = target
        · subst he
          rw [h3] at h
          rw [hj] at ht
          rw [← Option.some.inj h, Option.some.inj ht]
          show job.views ≤ job.views + 1
          omega
        · rw [h4 id he, hj] at h
          rw [Option.some.inj h]
  · intro caller target body hb h
    rcases updateJob_jobs db now caller target body with h1 | h1
    · exact hsame _ (by rw [h1]) h
    · rw [h1] at h
      by_cases he : id = target
      · subst he
        have h5 := updateFirst_find_same (fun x : Job => x.id) id
          (fun x => { Job.assign x (Job.applySetters
                        { body with title := body.title.map jsTrim,
                                    description := body.description.map jsTrim })
                      with updatedAt := now }) (fun _ => rfl) db.jobs
        unfold Job.findById at h hj
        rw [hj] at h5
        rw [h5] at h
        rw [← Option.some.inj h]
        show j.views ≤ (Option.getD body.views j.views)
        rw [hb]
        exact le_refl _
      · have h5 := updateFirst_find_other (fun x : Job => x.id) target id
          (fun x => { Job.assign x (Job.applySetters
                        { body with title := body.title.map jsTrim,
                                    description := body.description.map jsTrim })
                      with updatedAt := now }) (fun _ => rfl) he db.jobs
        unfold Job.findById at h hj
        rw [hj] at h5
        rw [h5] at h
        rw [Option.some.inj h]
  · intro caller target coverLetter h
    rcases applyForJob_jobs db now caller target coverLetter with h1 | h1
    · exact hsame _ h1 h
    · unfold Job.findById at h
      rw [h1] at h
      by_cases he : id = target
      · subst he
        have h5 := findById_incApplicationCount_same db now id 1
        unfold Job.findById at h5 hj
        rw [hj] at h5
        rw [h5] at h
        rw [← Option.some.inj h]
      · have h5 := findById_incApplicationCount_other db now target id 1 he
        unfold Job.findById at h5 hj
        rw [hj] at h5
        rw [h5] at h
        rw [Option.some.inj h]
  · intro caller target body h
    rcases updateApplicationStatus_db db now caller target body with h1 | ⟨f, _, h1⟩
    · exact hsame _ (by rw [h1]) h
    · exact hsame _ (by rw [h1]) h
  · intro caller target h
    rcases deleteApplication_db db caller target with h1 | h1
    · exact hsame _ (by rw [h1]) h
    · exact hsame _ (by rw [h1]; rfl) h

/-- Instance of C16 (amended): a view of the job of `dbPosted` takes `views`
from 0 to 1. -/
theorem views_never_decrease_witness :
    Job.findById dbPosted 0 = some postedJob ∧
    postedJob.views ≤ ({ postedJob with views := 1, updatedAt := 2 } : Job).views :=
  ⟨by decide,
   (views_never_decrease dbPosted 2 0 postedJob { postedJob with views := 1, updatedAt := 2 }
     (by decide)).1 none (IdParam.objectId 0) (by decide)⟩

/-! ## Posting a job -/

/-- Claim C15 as stated fails: a body that passes validation and carries
`applicationCount: 5` and `views: 9` is stored with those values. -/
theorem createJob_takes_counters_from_body :
    (createJob dbEmpty 1 sampleEmployer
      { sampleBody with applicationCount := some 5, views := some 9 }).1.status = 201 ∧
    (createJob dbEmpty 1 sampleEmployer
      { sampleBody with applicationCount := some 5, views := some 9 }).2.jobs =
      [{ postedJob with applicationCount := 5, views := 9 }] := by
  decide

/-- What `createJob` does with a body that passes both validations. -/
theorem createJob_run (db : Db) (now : Nat) (caller : User) (body : JobBody)
    (hrole : caller.role ≠ Role.jobseeker) (hroute : createJobValid body)
    (hschema : Job.validateBody (Job.applySetters (createJobData caller body)) = true) :
    (createJob db now caller body).1.status = 201 ∧
    ∃ job : Job,
      (createJob db now caller body).2 =
        { db with nextId := db.nextId + 1, jobs := db.jobs ++ [job] } ∧
      job.id = db.nextId ∧ job.postedBy = caller.id ∧
      job.applicationCount = body.applicationCount.getD 0 ∧
      job.views = body.views.getD 0 ∧
      job.status = (body.status.bind JobStatus.ofString?).getD JobStatus.active ∧
      job.createdAt = now := by
  rcases body with ⟨_ | t, _ | c, _ | d, _ | r, _ | l, _ | cat, smin, smax, _ | e, pb, st, rem,
    ac, v, f⟩
  all_goals first
    | (simp [createJobValid] at hroute
       done)
    | skip
  obtain ⟨h1, h2, h3, h4, h5, h6, h7⟩ := hroute
  simp only [Option.map_some', Option.getD_some, Option.bind_some] at h1 h2 h3 h4 h5 h6 h7
  obtain ⟨cv, hcv⟩ := Option.isSome_iff_exists.mp h6
  obtain ⟨ev, hev⟩ := Option.isSome_iff_exists.mp h7
  simp only [createJobData, Job.applySetters, Option.map_some'] at hschema
  unfold createJob Job.create
  simp only [authorize_staff caller hrole, Option.map_some', Option.getD_some, Option.bind_some,
    h1, h2, h3, h4, h5, hcv, hev, Option.isSome_some, Bool.and_self, Bool.not_true,
    Bool.false_eq_true, if_false, Job.applySetters, hschema]
  exact ⟨trivial, _, rfl, rfl, rfl, rfl, rfl, rfl, rfl⟩

/-- Claim C15 (amended): for a caller the route admits and a body that
passes the route's validation and the schema's validators, `createJob`
answers 201 and appends one job whose `postedBy` is the caller's id and whose
`applicationCount`, `views` and `status` are the body's values when the body
carries them and 0, 0 and `active` when it does not. -/
theorem createJob_stores (db : Db) (now : Nat) (caller : User) (body : JobBody)
    (hrole : caller.role ≠ Role.jobseeker) (hroute : createJobValid body)
    (hschema : Job.validateBody (Job.applySetters (createJobData caller body)) = true) :
    (createJob db now caller body).1.status = 201 ∧
    ∃ job : Job,
      (createJob db now caller body).2.jobs = db.jobs ++ [job] ∧
      job.postedBy = caller.id ∧
      job.applicationCount = body.applicationCount.getD 0 ∧
      job.views = body.views.getD 0 ∧
      job.status = (body.status.bind JobStatus.ofString?).getD JobStatus.active ∧
      (body.applicationCount = none → job.applicationCount = 0) ∧
      (body.views = none → job.views = 0) ∧
      (body.status = none → job.status = JobStatus.active) := by
  obtain ⟨h1, job, h2, _, h4, h5, h6, h7, _⟩ :=
    createJob_run db now caller body hrole hroute hschema
  refine ⟨h1, job, ?_, h4, h5, h6, h7, ?_, ?_, ?_⟩
  · rw [h2]
  · intro h
    rw [h5, h]
    rfl
  · intro h
    rw [h6, h]
    rfl
  · intro h
    rw [h7, h]
    rfl

/-- Instance of C15 (amended): `sampleEmployer` posts `sampleBody`. -/
theorem createJob_stores_witness :
    (createJob dbEmpty 1 sampleEmployer sampleBody).1.status = 201 ∧
    ∃ job : Job,
      (createJob dbEmpty 1 sampleEmployer sampleBody).2.jobs = dbEmpty.jobs ++ [job] ∧
      job.postedBy = sampleEmployer.id ∧ job.applicationCount = 0 ∧ job.views = 0 ∧
      job.status = JobStatus.active :=
  have h := createJob_stores dbEmpty 1 sampleEmployer sampleBody (by decide)
    (by unfold createJobValid; decide) (by decide)
  ⟨h.1, h.2.elim fun job hj =>
    ⟨job, hj.1, hj.2.1, hj.2.2.2.2.2.1 rfl, hj.2.2.2.2.2.2.1 rfl, hj.2.2.2.2.2.2.2 rfl⟩⟩

/-! ## Updating the status of an application -/

/-- The applicant reads their own application. -/
theorem getApplication_applicant (db : Db) (caller : User) (id : Nat) (a : Application)
    (u : User) (j : Job) (ha : Application.findById db id = some a)
    (hu : User.findById db a.userId = some u) (hj : Job.findById db a.jobId = some j)
    (hc : caller.id = a.userId) :
    getApplication db caller (IdParam.objectId id) =
      { status := 200, success := true, message := none,
        data := some (populateApplication db true a) } := by
  have hid := userFindById_id db a.userId u hu
  rw [getApplication.eq_2]
  simp only [ha, populateApplication, populateUser, populateJob, hu, hj, Option.map_some',
    if_true, hid]
  rw [if_neg]
  simp [hc]

/-- Claim C13 as stated fails: an interview location sent as `" Room 4 "` is
stored as `"Room 4"`, an interview date sent as 0 is not stored (the handler
copies the date only `if (interviewDate)`), and an interview type outside
the schema's enum makes the call answer 500 with the application left as it
was. -/
theorem updateApplicationStatus_location_trimmed_type_checked :
    (updateApplicationStatus dbApplied 9 sampleEmployer 2
      { status := some "interview", notes := none, interviewDate := some 20,
        interviewLocation := some " Room 4 ", interviewType := none }).1.status = 200 ∧
    (Application.findById (updateApplicationStatus dbApplied 9 sampleEmployer 2
      { status := some "interview", notes := none, interviewDate := some 20,
        interviewLocation := some " Room 4 ", interviewType := none }).2 2).map
      (fun a => a.interviewLocation) = some (some "Room 4") ∧
    (updateApplicationStatus dbApplied 9 sampleEmployer 2
      { status := some "interview", notes := none, interviewDate := some 0,
        interviewLocation := none, interviewType := none }).1.status = 200 ∧
    (Application.findById (updateApplicationStatus dbApplied 9 sampleEmployer 2
      { status := some "interview", notes := none, interviewDate := some 0,
        interviewLocation := none, interviewType := none }).2 2).map
      (fun a => a.interviewDate) = some none ∧
    updateApplicationStatus dbApplied 9 sampleEmployer 2
      { status := some "interview", notes := none, interviewDate := none,
        interviewLocation := none, interviewType := some "onsite" } =
      (serverError, dbApplied) := by
  decide

/-- Claim C13 (amended): for a caller the route admits who owns the job or
is an admin, a body that passes validation (status `t` among the six values,
notes within 500 code units, interview type absent or one of the four enum
values) and any stored application, the call answers 200 and the stored
status becomes `t` whatever it was; a supplied interview date other than 0
and a supplied interview type are stored as sent and a supplied interview
location with its surrounding whitespace trimmed, and the applicant reads
the updated record.  A body whose status is not one of the six values is
answered 400 with nothing written. -/
theorem updateApplicationStatus_sets_status (db : Db) (now : Nat) (caller : User) (id : Nat)
    (body : StatusBody) (t : AppStatus) (a : Application) (job : Job)
    (hrole : caller.role ≠ Role.jobseeker) (hvalid : statusBodyValid body t)
    (hnotes : ∀ n, body.notes = some n → utf16Length (jsTrim n) ≤ 500)
    (htype : ∀ s, body.interviewType = some s → s ≠ "" → (InterviewType.ofString? s).isSome)
    (ha : Application.findById db id = some a) (hj : Job.findById db a.jobId = some job)
    (hauth : caller.id = job.postedBy ∨ caller.role = Role.admin) :
    (updateApplicationStatus db now caller id body).1.status = 200 ∧
    (∃ a2 : Application,
      Application.findById (updateApplicationStatus db now caller id body).2 id = some a2 ∧
      a2.status = t ∧ a2.userId = a.userId ∧ a2.jobId = a.jobId ∧
      (∀ d, body.interviewDate = some d → d ≠ 0 → a2.interviewDate = some d) ∧
      (∀ l, body.interviewLocation = some l → l ≠ "" →
        a2.interviewLocation = some (jsTrim l)) ∧
      (∀ s ty, body.interviewType = some s → InterviewType.ofString? s = some ty →
        a2.interviewType = ty) ∧
      (∀ (applicant u : User), applicant.id = a.userId →
        User.findById db a.userId = some u →
        getApplication (updateApplicationStatus db now caller id body).2 applicant
            (IdParam.objectId id) =
          { status := 200, success := true, message := none,
            data := some (populateApplication
              (updateApplicationStatus db now caller id body).2 true a2) })) ∧
    (updateApplicationStatus db now caller id body).2.jobs = db.jobs ∧
    (∀ body2 : StatusBody, body2.status.bind AppStatus.ofString? = none →
      updateApplicationStatus db now caller id body2 = (validationFailed, db)) := by
  have hn : (match body.notes.map jsTrim with
      | none => true
      | some n => decide (isLengthValue n ≤ 500)) = true := by
    cases hb : body.notes with
    | none => rfl
    | some n => simpa using hvalid.2 n hb
  have hn2 : (match body.notes.map jsTrim with
      | none => true
      | some n => decide (utf16Length n ≤ 500)) = true := by
    cases hb : body.notes with
    | none => rfl
    | some n => simpa using hnotes n hb
  have ht2 : (match body.interviewType.filter truthyStr with
      | none => true
      | some s => (InterviewType.ofString? s).isSome) = true := by
    cases hb : body.interviewType with
    | none => rfl
    | some s =>
      by_cases hs : s = ""
      · subst hs
        rfl
      · have hts : truthyStr s = true := by simpa [truthyStr] using hs
        simp only [Option.filter, hts, if_true]
        exact htype s hb hs
  have hc : (decide (job.postedBy ≠ caller.id) && decide (caller.role ≠ Role.admin))
      = false := by
    rw [Bool.eq_false_iff]
    intro h
    have h2 := (ownerTest_eq_true job caller).mp h
    rcases hauth with h3 | h3
    · exact h2.1 h3
    · exact h2.2 h3
  have hrun : updateApplicationStatus db now caller id body =
      (match Application.findByIdAndUpdate db now id t (body.notes.map jsTrim)
          (body.interviewDate.filter (fun d => d != 0))
          (body.interviewLocation.filter truthyStr)
          (body.interviewType.filter truthyStr) with
        | none => (serverError, db)
        | some db1 =>
          ({ status := 200, success := true,
             message := some "Application status updated successfully",
             data := (Application.findById db1 id).map (populateApplication db1 false) },
           db1)) := by
    unfold updateApplicationStatus
    simp only [authorize_staff caller hrole, hvalid.1, hn, ha, populateJobOwner, hj,
      Option.map_some', Bool.not_true, Bool.false_eq_true, if_false, hc]
  have hupd : ∃ f : Application → Application,
      (∀ x, (f x).id = x.id ∧ (f x).status = t ∧ (f x).userId = x.userId ∧
        (f x).jobId = x.jobId ∧
        (∀ d, body.interviewDate = some d → d ≠ 0 → (f x).interviewDate = some d) ∧
        (∀ l, body.interviewLocation = some l → l ≠ "" →
          (f x).interviewLocation = some (jsTrim l)) ∧
        (∀ s ty, body.interviewType = some s → InterviewType.ofString? s = some ty →
          (f x).interviewType = ty)) ∧
      Application.findByIdAndUpdate db now id t (body.notes.map jsTrim)
          (body.interviewDate.filter (fun d => d != 0))
          (body.interviewLocation.filter truthyStr)
          (body.interviewType.filter truthyStr) =
        some { db with applications := updateFirst (fun x => x.id == id) f db.applications } := by
    unfold Application.findByIdAndUpdate
    simp only [hn2, ht2, Bool.and_self, Bool.not_true, Bool.false_eq_true, if_false]
    refine ⟨_, ?_, rfl⟩
    intro x
    refine ⟨rfl, rfl, rfl, rfl, ?_, ?_, ?_⟩
    · intro d hd hne
      have hnz : (d != 0) = true := by simpa using hne
      simp only [hd, Option.filter, hnz, if_true]
    · intro l hl hne
      have hts : truthyStr l = true := by simpa [truthyStr] using hne
      simp only [hl, Option.filter, hts, if_true]
    · intro s ty hs hty
      have hne : s ≠ "" := by
        intro he
        subst he
        have h0 : InterviewType.ofString? "" = none := by decide
        rw [h0] at hty
        exact Option.noConfusion hty
      have hts : truthyStr s = true := by simpa [truthyStr] using hne
      simp only [hs, Option.filter, hts, if_true]
      show (match InterviewType.ofString? s with
        | none => x.interviewType
        | some t => t) = ty
      rw [hty]
  obtain ⟨f, hf, hfu⟩ := hupd
  rw [hfu] at hrun
  simp only at hrun
  have hfound : Application.findById
      { db with applications := updateFirst (fun x => x.id == id) f db.applications } id =
      some (f a) := by
    have h := updateFirst_find_same (fun x : Application => x.id) id f (fun x => (hf x).1)
      db.applications
    unfold Application.findById at ha ⊢
    rw [ha] at h
    exact h
  refine ⟨?_, ?_, ?_, ?_⟩
  · rw [hrun]
  · refine ⟨f a, ?_, (hf a).2.1, (hf a).2.2.1, (hf a).2.2.2.1, (hf a).2.2.2.2.1,
      (hf a).2.2.2.2.2.1, (hf a).2.2.2.2.2.2, ?_⟩
    · rw [hrun]
      exact hfound
    · intro applicant u happ hu
      rw [hrun]
      refine getApplication_applicant _ applicant id (f a) u job hfound ?_ ?_ ?_
      · rw [(hf a).2.2.1]
        exact hu
      · rw [(hf a).2.2.2.1]
        exact hj
      · rw [(hf a).2.2.1]
        exact happ
  · rw [hrun]
  · intro body2 h2
    unfold updateApplicationStatus
    simp only [authorize_staff caller hrole, h2, Bool.not_true, Bool.false_eq_true, if_false]

/-- Instance of C13 (amended): the owner of job 1 first rejects application
2 of `dbApplied` and then accepts it, with an interview location. -/
theorem updateApplicationStatus_sets_status_witness :
    Application.findById
        (updateApplicationStatus dbApplied 8 sampleEmployer 2
          { status := some "rejected", notes := none, interviewDate := none,
            interviewLocation := none, interviewType := none }).2 2 =
      some { sampleApplication 2 101 1 with status := AppStatus.rejected, updatedAt := 8 } ∧
    (updateApplicationStatus
        (updateApplicationStatus dbApplied 8 sampleEmployer 2
          { status := some "rejected", notes := none, interviewDate := none,
            interviewLocation := none, interviewType := none }).2
        9 sampleEmployer 2
        { status := some "accepted", notes := none, interviewDate := some 20,
          interviewLocation := some "Room 4", interviewType := some "video" }).1.status = 200 ∧
    ∃ a2 : Application,
      Application.findById
        (updateApplicationStatus
          (updateApplicationStatus dbApplied 8 sampleEmployer 2
            { status := some "rejected", notes := none, interviewDate := none,
              interviewLocation := none, interviewType := none }).2
          9 sampleEmployer 2
          { status := some "accepted", notes := none, interviewDate := some 20,
            interviewLocation := some "Room 4", interviewType := some "video" }).2 2 = some a2 ∧
      a2.status = AppStatus.accepted ∧ a2.interviewDate = some 20 ∧
      a2.interviewType = InterviewType.video :=
  have h := updateApplicationStatus_sets_status
    (updateApplicationStatus dbApplied 8 sampleEmployer 2
      { status := some "rejected", notes := none, interviewDate := none,
        interviewLocation := none, interviewType := none }).2
    9 sampleEmployer 2
    { status := some "accepted", notes := none, interviewDate := some 20,
      interviewLocation := some "Room 4", interviewType := some "video" }
    AppStatus.accepted
    { sampleApplication 2 101 1 with status := AppStatus.rejected, updatedAt := 8 }
    (sampleJob 1 JobStatus.active 1) (by decide)
    ⟨by decide, fun _ hn => Option.noConfusion hn⟩ (fun _ hn => Option.noConfusion hn)
    (fun s hs _ => by
      cases hs
      decide)
    (by decide) (by decide) (Or.inl rfl)
  ⟨by decide, h.1, h.2.1.elim fun a2 ha =>
    ⟨a2, ha.1, ha.2.1, ha.2.2.2.2.1 20 rfl (by decide),
      ha.2.2.2.2.2.2.1 "video" InterviewType.video rfl
      (by decide)⟩⟩

/-! ## Pagination -/

/-- The page cut out by `skip` and `limit` is a sublist of the sequence. -/
theorem skipLimit_sublist {α : Type} (xs ys : List α) (skip limit : Int)
    (h : skipLimit xs skip limit = some ys) : ys.Sublist xs := by
  unfold skipLimit at h
  split_ifs at h
  rw [← Option.some.inj h]
  exact (List.take_sublist _ _).trans (List.drop_sublist _ _)

/-- For a page and a limit of at least 1 the cut is the segment from
`(page - 1) * limit` of length `limit`. -/
theorem skipLimit_nat {α : Type} (xs : List α) (p l : Nat) (hp : 1 ≤ p) :
    skipLimit xs (((p : Int) - 1) * (l : Int)) (l : Int) =
      some ((xs.drop ((p - 1) * l)).take l) := by
  have h1 : ((p : Int) - 1) * (l : Int) = (((p - 1) * l : Nat) : Int) := by
    rw [Nat.cast_mul, Nat.cast_sub hp, Nat.cast_one]
  unfold skipLimit
  rw [h1, if_neg (by omega), Int.toNat_ofNat, Int.natAbs_ofNat]

/-- For a limit of at least 1, `Math.ceil(total / limit)` is the ceiling of
the quotient. -/
theorem ceilDiv_nat (total l : Nat) (hl : 1 ≤ l) :
    ceilDiv total (l : Int) = (((total + l - 1) / l : Nat) : Int) := by
  unfold ceilDiv
  have hl0 : (0 : Int) ≤ (l : Int) := Int.ofNat_nonneg l
  rw [Int.fdiv_eq_ediv _ hl0]
  have hq := Nat.div_add_mod (total + l - 1) l
  have hr := Nat.mod_lt (total + l - 1) (show 0 < l by omega)
  generalize (total + l - 1) / l = qn at hq ⊢
  generalize (total + l - 1) % l = rn at hq hr
  have hkey : (-(total : Int)) / (l : Int) = -(qn : Int) := by
    have h3 : (0 : Int) < (l : Int) := by omega
    have hm : ((l * qn : Nat) : Int) = (l : Int) * (qn : Int) := Nat.cast_mul l qn
    generalize l * qn = m at hq hm
    have h4 : ((m : Int) - (total : Int)) + (l : Int) * (-(qn : Int)) = -(total : Int) := by
      rw [mul_neg, ← hm]
      omega
    exact ((Int.ediv_emod_unique (r := (m : Int) - (total : Int)) h3).mpr
      ⟨h4, by omega, by omega⟩).1
  rw [hkey, neg_neg]

/-- The ceiling is the least number of pages that hold `total` items. -/
theorem ceil_pages_bounds (total l : Nat) (hl : 1 ≤ l) :
    total ≤ ((total + l - 1) / l) * l ∧ ((total + l - 1) / l) * l < total + l := by
  have hq := Nat.div_add_mod (total + l - 1) l
  have hr := Nat.mod_lt (total + l - 1) (show 0 < l by omega)
  rw [Nat.mul_comm]
  generalize l * ((total + l - 1) / l) = m at hq ⊢
  omega

/-- The store's order with missing values first is total. -/
theorem nullLe_total (a b : Option Int) : nullLe a b = true ∨ nullLe b a = true := by
  cases a <;> cases b <;> simp [nullLe]
  exact le_total _ _

/-- The store's order with missing values first is transitive. -/
theorem nullLe_trans (a b c : Option Int) (h1 : nullLe a b = true) (h2 : nullLe b c = true) :
    nullLe a c = true := by
  cases a <;> cases b <;> cases c <;> simp_all [nullLe]
  exact le_trans h1 h2

/-- Every sort of `GET /api/jobs` compares any two jobs. -/
theorem before_total (s : JobSort) (a b : Job) :
    s.before a b = true ∨ s.before b a = true := by
  cases s
  · simp only [JobSort.before, decide_eq_true_eq]
    exact le_total _ _
  · simp only [JobSort.before, decide_eq_true_eq]
    exact le_total _ _
  · exact nullLe_total _ _
  · exact nullLe_total _ _
  · simp only [JobSort.before, decide_eq_true_eq]
    exact le_total _ _

/-- Every sort of `GET /api/jobs` is transitive. -/
theorem before_trans (s : JobSort) (a b c : Job) (h1 : s.before a b = true)
    (h2 : s.before b c = true) : s.before a c = true := by
  cases s
  · simp only [JobSort.before, decide_eq_true_eq] at *
    exact le_trans h2 h1
  · simp only [JobSort.before, decide_eq_true_eq] at *
    exact le_trans h1 h2
  · exact nullLe_trans _ _ _ h2 h1
  · exact nullLe_trans _ _ _ h1 h2
  · simp only [JobSort.before, decide_eq_true_eq] at *
    exact le_trans h2 h1

/-- The sorted sequence is in the order of the sort. -/
theorem sortJobs_sorted (s : JobSort) (jobs : List Job) :
    (sortJobs s jobs).Pairwise (fun a b => s.before a b = true) :=
  @List.sorted_insertionSort Job (fun a b => s.before a b = true) _
    ⟨before_total s⟩ ⟨before_trans s⟩ jobs

/-- Sorting keeps the same jobs. -/
theorem sortJobs_perm (s : JobSort) (jobs : List Job) : (sortJobs s jobs).Perm jobs :=
  List.perm_insertionSort _ jobs

/-- The two ways `getJobs` can end: a thrown error, or a page of the sorted
matching jobs. -/
theorem getJobs_cases (eng : Mongo) (db : Db) (caller : Option User) (q : JobsQuery) :
    getJobs eng db caller q = serverError ∨
    ∃ matching jobs : List Job,
      Job.find eng db (jobsFilter q) = some matching ∧
      skipLimit (sortJobs (jobSortOf q.sort) matching)
        ((parseIntOr q.page 1 - 1) * parseIntOr q.limit 10) (parseIntOr q.limit 10) =
        some jobs ∧
      getJobs eng db caller q =
        pageEnvelope
          (jobs.map (fun job =>
            { job := populateOwner db false job,
              annotation := jobAnnotation db caller jobs job }))
          matching.length (parseIntOr q.page 1) (parseIntOr q.limit 10) := by
  unfold getJobs
  dsimp only
  cases hf : Job.find eng db (jobsFilter q) with
  | none => exact Or.inl rfl
  | some matching =>
    dsimp only
    cases hs : skipLimit (sortJobs (jobSortOf q.sort) matching)
        ((parseIntOr q.page 1 - 1) * parseIntOr q.limit 10) (parseIntOr q.limit 10) with
    | none => exact Or.inl rfl
    | some jobs => exact Or.inr ⟨matching, jobs, rfl, hs, rfl⟩

/-- The documents of a page of `getJobs`, in order. -/
theorem getJobs_data (eng : Mongo) (db : Db) (caller : Option User) (q : JobsQuery)
    (pg : Page JobListItem) (h : (getJobs eng db caller q).data = some pg) :
    ∃ matching jobs : List Job,
      Job.find eng db (jobsFilter q) = some matching ∧
      skipLimit (sortJobs (jobSortOf q.sort) matching)
        ((parseIntOr q.page 1 - 1) * parseIntOr q.limit 10) (parseIntOr q.limit 10) =
        some jobs ∧
      pg.data = jobs.map (fun job =>
            { job := populateOwner db false job,
              annotation := jobAnnotation db caller jobs job }) ∧
      pg.data.map (fun item => item.job.doc) = jobs ∧
      pg.total = matching.length ∧ pg.count = pg.data.length ∧
      pg.page = parseIntOr q.page 1 ∧
      pg.pages = ceilDiv matching.length (parseIntOr q.limit 10) := by
  rcases getJobs_cases eng db caller q with h1 | ⟨matching, jobs, h1, h2, h3⟩
  · rw [h1] at h
    exact absurd h (by simp [serverError])
  · rw [h3] at h
    simp only [pageEnvelope, Option.some.injEq] at h
    refine ⟨matching, jobs, h1, h2, ?_, ?_, ?_, ?_, ?_, ?_⟩
    · rw [← h]
    · rw [← h]
      simp only [List.map_map]
      conv_rhs => rw [← List.map_id jobs]
      exact List.map_congr_left (fun _ _ => rfl)
    · rw [← h]
    · rw [← h]
    · rw [← h]
    · rw [← h]

/-- Job seekers pass `authorize('jobseeker')`. -/
theorem authorize_jobseeker (caller : User) (h : caller.role = Role.jobseeker) :
    authorize [Role.jobseeker] caller = true := by
  simp [authorize, h]

/-- The list envelope built from the cut of a sequence is the page of that
sequence. -/
theorem pageEnvelope_isPageOf {α β : Type} (xs : List α) (g : α → β) (view : β → α)
    (hview : ∀ x, view (g x) = x) (p l : Nat) (hl : 1 ≤ l) :
    IsPageOf (pageEnvelope (((xs.drop ((p - 1) * l)).take l).map g) xs.length (p : Int)
      (l : Int)) view xs p l := by
  refine ⟨rfl, _, rfl, ?_, rfl, ?_, rfl, rfl, ?_, ?_, ?_⟩
  · show (((xs.drop ((p - 1) * l)).take l).map g).map view = _
    rw [List.map_map]
    conv_rhs => rw [← List.map_id ((xs.drop ((p - 1) * l)).take l)]
    exact List.map_congr_left (fun x _ => hview x)
  · show (((xs.drop ((p - 1) * l)).take l).map g).length ≤ l
    rw [List.length_map, List.length_take]
    exact Nat.min_le_left _ _
  · exact ceilDiv_nat xs.length l hl
  · exact (ceil_pages_bounds xs.length l hl).1
  · exact (ceil_pages_bounds xs.length l hl).2

/-- Claim C19: with a page `p` and a limit `l` of at least 1, each of the
five list handlers answers with page `p` of size `l` of its filtered and
sorted sequence (see `IsPageOf`: the items at positions `(p - 1) * l` up to
`p * l`, `count` at most `l`, `total` the length of the whole sequence
whatever the page, `pages` the ceiling of `total / l`); an absent `page`
parameter is read as 1 and an absent `limit` as 10. -/
theorem list_pagination (p l : Nat) (hp : 1 ≤ p) (hl : 1 ≤ l) :
    parseIntOr none 1 = 1 ∧ parseIntOr none 10 = 10 ∧
    (∀ (eng : Mongo) (db : Db) (caller : Option User) (q : JobsQuery) (matching : List Job),
      parseIntOr q.page 1 = (p : Int) → parseIntOr q.limit 10 = (l : Int) →
      Job.find eng db (jobsFilter q) = some matching →
      IsPageOf (getJobs eng db caller q) (fun item => item.job.doc)
        (sortJobs (jobSortOf q.sort) matching) p l) ∧
    (∀ (db : Db) (caller : User) (q : ListQuery),
      parseIntOr q.page 1 = (p : Int) → parseIntOr q.limit 10 = (l : Int) →
      caller.role ≠ Role.jobseeker →
      IsPageOf (getMyJobs db caller q) (fun item => item.doc)
        (sortJobs JobSort.createdDesc (db.jobs.filter (fun j =>
          j.postedBy == caller.id &&
          (match present q.status with
            | none => true
            | some s => JobStatus.ofString? s == some j.status)))) p l) ∧
    (∀ (db : Db) (caller : User) (q : ListQuery),
      parseIntOr q.page 1 = (p : Int) → parseIntOr q.limit 10 = (l : Int) →
      caller.role = Role.jobseeker →
      IsPageOf (getMyApplications db caller q) (fun item => item.doc)
        (sortApplications (db.applications.filter (fun a =>
          a.userId == caller.id && statusAccepts q.status a))) p l) ∧
    (∀ (db : Db) (caller : User) (jobId : Nat) (q : ListQuery) (job : Job),
      parseIntOr q.page 1 = (p : Int) → parseIntOr q.limit 10 = (l : Int) →
      caller.role ≠ Role.jobseeker → Job.findById db jobId = some job →
      (caller.id = job.postedBy ∨ caller.role = Role.admin) →
      IsPageOf (getJobApplications db caller jobId q) (fun item => item.doc)
        (sortApplications (db.applications.filter (fun a =>
          a.jobId == jobId && statusAccepts q.status a))) p l) ∧
    (∀ (db : Db) (caller : User) (q : ListQuery),
      parseIntOr q.page 1 = (p : Int) → parseIntOr q.limit 10 = (l : Int) →
      caller.role = Role.admin →
      IsPageOf (getAllApplications db caller q) (fun item => item.doc)
        (sortApplications (db.applications.filter (fun a =>
          statusAccepts q.status a &&
          (match q.jobId with
            | none => true
            | some j => a.jobId == j) &&
          (match q.userId with
            | none => true
            | some u => a.userId == u)))) p l) := by
  refine ⟨rfl, rfl, ?_, ?_, ?_, ?_, ?_⟩
  · intro eng db caller q matching hpage hlimit hfind
    have hlen : (sortJobs (jobSortOf q.sort) matching).length = matching.length :=
      (sortJobs_perm _ _).length_eq
    unfold getJobs
    simp only [hpage, hlimit, hfind, skipLimit_nat _ p l hp]
    rw [← hlen]
    exact pageEnvelope_isPageOf _ _ _ (fun _ => rfl) p l hl
  · intro db caller q hpage hlimit hrole
    unfold getMyJobs
    simp only [authorize_staff caller hrole, hpage, hlimit, skipLimit_nat _ p l hp,
      Bool.not_true, Bool.false_eq_true, if_false]
    have hlen := (sortJobs_perm JobSort.createdDesc (db.jobs.filter (fun j =>
          j.postedBy == caller.id &&
          (match present q.status with
            | none => true
            | some s => JobStatus.ofString? s == some j.status)))).length_eq
    rw [← hlen]
    exact pageEnvelope_isPageOf _ _ _ (fun _ => rfl) p l hl
  · intro db caller q hpage hlimit hrole
    unfold getMyApplications
    simp only [authorize_jobseeker caller hrole, hpage, hlimit, skipLimit_nat _ p l hp,
      Bool.not_true, Bool.false_eq_true, if_false]
    have hlen := (List.perm_insertionSort (fun a b : Application => b.appliedDate ≤ a.appliedDate)
      (db.applications.filter (fun a =>
          a.userId == caller.id && statusAccepts q.status a))).length_eq
    unfold sortApplications
    rw [← hlen]
    exact pageEnvelope_isPageOf _ _ _ (fun _ => rfl) p l hl
  · intro db caller jobId q job hpage hlimit hrole hjob hauth
    have hc : (decide (job.postedBy ≠ caller.id) && decide (caller.role ≠ Role.admin))
        = false := by
      rw [Bool.eq_false_iff]
      intro h
      have h2 := (ownerTest_eq_true job caller).mp h
      rcases hauth with h3 | h3
      · exact h2.1 h3
      · exact h2.2 h3
    unfold getJobApplications
    simp only [authorize_staff caller hrole, hpage, hlimit, hjob, hc, skipLimit_nat _ p l hp,
      Bool.not_true, Bool.false_eq_true, if_false]
    have hlen := (List.perm_insertionSort (fun a b : Application => b.appliedDate ≤ a.appliedDate)
      (db.applications.filter (fun a =>
          a.jobId == jobId && statusAccepts q.status a))).length_eq
    unfold sortApplications
    rw [← hlen]
    exact pageEnvelope_isPageOf _ _ _ (fun _ => rfl) p l hl
  · intro db caller q hpage hlimit hrole
    have hadm : authorize [Role.admin] caller = true := by simp [authorize, hrole]
    unfold getAllApplications
    simp only [hadm, hpage, hlimit, skipLimit_nat _ p l hp,
      Bool.not_true, Bool.false_eq_true, if_false]
    have hlen := (List.perm_insertionSort (fun a b : Application => b.appliedDate ≤ a.appliedDate)
      (db.applications.filter (fun a =>
          statusAccepts q.status a &&
          (match q.jobId with
            | none => true
            | some j => a.jobId == j) &&
          (match q.userId with
            | none => true
            | some u => a.userId == u)))).length_eq
    unfold sortApplications
    rw [← hlen]
    exact pageEnvelope_isPageOf _ _ _ (fun _ => rfl) p l hl

/-- Instance of C19: page 2 of size 2 of the three active jobs of
`dbListing`, newest first. -/
theorem list_pagination_witness :
    IsPageOf
      (getJobs sampleMongo dbListing none
        { emptyJobsQuery with page := some "2", limit := some "2" })
      (fun item => item.job.doc)
      (sortJobs JobSort.createdDesc
        [listedJob 1 Category.internship Experience.entry 10 5 JobStatus.active,
         listedJob 2 Category.internship Experience.senior 20 2 JobStatus.active,
         listedJob 3 Category.contract Experience.entry 30 0 JobStatus.active]) 2 2 :=
  (list_pagination 2 2 (by decide) (by decide)).2.2.1 sampleMongo dbListing none
    { emptyJobsQuery with page := some "2", limit := some "2" }
    [listedJob 1 Category.internship Experience.entry 10 5 JobStatus.active,
     listedJob 2 Category.internship Experience.senior 20 2 JobStatus.active,
     listedJob 3 Category.contract Experience.entry 30 0 JobStatus.active]
    (by decide) (by decide) (by decide)

/-! ## Order and filters of the job list -/

/-- The sort object chosen for each value of the `sort` parameter. -/
theorem jobSortOf_cases (sort : Option String) :
    ((sort = none ∨ sort = some "" ∨ sort = some "newest") →
      jobSortOf sort = JobSort.createdDesc) ∧
    (sort = some "oldest" → jobSortOf sort = JobSort.createdAsc) ∧
    (sort = some "salary-high" → jobSortOf sort = JobSort.salaryMaxDesc) ∧
    (sort = some "salary-low" → jobSortOf sort = JobSort.salaryMinAsc) ∧
    (sort = some "applications" → jobSortOf sort = JobSort.applicationCountDesc) ∧
    (∀ k, sort = some k → k ≠ "oldest" → k ≠ "salary-high" → k ≠ "salary-low" →
      k ≠ "applications" → jobSortOf sort = JobSort.createdDesc) := by
  refine ⟨?_, ?_, ?_, ?_, ?_, ?_⟩
  · rintro (h | h | h) <;> subst h <;> rfl
  · intro h
    subst h
    rfl
  · intro h
    subst h
    rfl
  · intro h
    subst h
    rfl
  · intro h
    subst h
    rfl
  · intro k h h1 h2 h3 h4
    subst h
    unfold jobSortOf present
    by_cases hk : truthyStr k = true
    · simp only [Option.filter, hk, if_true]
      split <;> simp_all
    · simp only [Option.filter, hk]
      rfl

/-- Claim C18 as stated fails: the key `most-applications` is not among the
cases of the `switch` (the key for that order is `applications`), so the
three active jobs of `dbListing` come back newest first, the job with no
application ahead of the jobs with 2 and with 5. -/
theorem getJobs_most_applications_is_newest_first :
    jobSortOf (some "most-applications") = JobSort.createdDesc ∧
    (getJobs sampleMongo dbListing none
        { emptyJobsQuery with sort := some "most-applications" }).data.map
      (fun pg => pg.data.map
        (fun item => (item.job.doc.id, item.job.doc.createdAt, item.job.doc.applicationCount))) =
      some [(3, 30, 0), (2, 20, 2), (1, 10, 5)] ∧
    (getJobs sampleMongo dbListing none
        { emptyJobsQuery with sort := some "applications" }).data.map
      (fun pg => pg.data.map
        (fun item => (item.job.doc.id, item.job.doc.createdAt, item.job.doc.applicationCount))) =
      some [(1, 10, 5), (2, 20, 2), (3, 30, 0)] := by
  decide

/-- Claim C18 (amended): the jobs of every page `getJobs` returns stand in
the order of the requested key: `newest`, no key or an unknown key (such as
`most-applications`) gives `createdAt` descending, `oldest` `createdAt`
ascending, `salary-high` `salary.max` descending, `salary-low` `salary.min`
ascending and `applications` `applicationCount` descending; a missing salary
counts as below every number. -/
theorem getJobs_sorted (eng : Mongo) (db : Db) (caller : Option User) (q : JobsQuery)
    (pg : Page JobListItem) (h : (getJobs eng db caller q).data = some pg) :
    ((q.sort = none ∨ q.sort = some "" ∨ q.sort = some "newest") →
      (pg.data.map (fun item => item.job.doc)).Pairwise
        (fun a b => b.createdAt ≤ a.createdAt)) ∧
    (q.sort = some "oldest" →
      (pg.data.map (fun item => item.job.doc)).Pairwise
        (fun a b => a.createdAt ≤ b.createdAt)) ∧
    (q.sort = some "salary-high" →
      (pg.data.map (fun item => item.job.doc)).Pairwise
        (fun a b => nullLe b.salaryMax a.salaryMax = true)) ∧
    (q.sort = some "salary-low" →
      (pg.data.map (fun item => item.job.doc)).Pairwise
        (fun a b => nullLe a.salaryMin b.salaryMin = true)) ∧
    (q.sort = some "applications" →
      (pg.data.map (fun item => item.job.doc)).Pairwise
        (fun a b => b.applicationCount ≤ a.applicationCount)) ∧
    (∀ k, q.sort = some k → k ≠ "oldest" → k ≠ "salary-high" → k ≠ "salary-low" →
      k ≠ "applications" →
      (pg.data.map (fun item => item.job.doc)).Pairwise
        (fun a b => b.createdAt ≤ a.createdAt)) := by
  obtain ⟨matching, jobs, _, hcut, _, hdocs, _⟩ := getJobs_data eng db caller q pg h
  have hsorted : (pg.data.map (fun item => item.job.doc)).Pairwise
      (fun a b => (jobSortOf q.sort).before a b = true) := by
    rw [hdocs]
    exact (sortJobs_sorted _ matching).sublist (skipLimit_sublist _ _ _ _ hcut)
  obtain ⟨c1, c2, c3, c4, c5, c6⟩ := jobSortOf_cases q.sort
  refine ⟨?_, ?_, ?_, ?_, ?_, ?_⟩
  · intro hk
    rw [c1 hk] at hsorted
    exact hsorted.imp (fun hab => by simpa [JobSort.before] using hab)
  · intro hk
    rw [c2 hk] at hsorted
    exact hsorted.imp (fun hab => by simpa [JobSort.before] using hab)
  · intro hk
    rw [c3 hk] at hsorted
    exact hsorted.imp (fun hab => by simpa [JobSort.before] using hab)
  · intro hk
    rw [c4 hk] at hsorted
    exact hsorted.imp (fun hab => by simpa [JobSort.before] using hab)
  · intro hk
    rw [c5 hk] at hsorted
    exact hsorted.imp (fun hab => by simpa [JobSort.before] using hab)
  · intro k hk h1 h2 h3 h4
    rw [c6 k hk h1 h2 h3 h4] at hsorted
    exact hsorted.imp (fun hab => by simpa [JobSort.before] using hab)

/-- Instance of C18 (amended): with `sort=applications` the jobs of
`dbListing` come back with the most applications first. -/
theorem getJobs_sorted_witness :
    (getJobs sampleMongo dbListing none
        { emptyJobsQuery with sort := some "applications" }).data.map
      (fun pg => pg.data.map (fun item => item.job.doc.applicationCount)) = some [5, 2, 0] ∧
    ∀ pg, (getJobs sampleMongo dbListing none
        { emptyJobsQuery with sort := some "applications" }).data = some pg →
      (pg.data.map (fun item => item.job.doc)).Pairwise
        (fun a b => b.applicationCount ≤ a.applicationCount) :=
  ⟨by decide, fun pg h =>
    (getJobs_sorted sampleMongo dbListing none
      { emptyJobsQuery with sort := some "applications" } pg h).2.2.2.2.1 rfl⟩

/-- What it means for a job to satisfy the filter of `GET /api/jobs`. -/
theorem accepts_iff (eng : Mongo) (q : JobsQuery) (location : Option (String → Bool))
    (j : Job) :
    (jobsFilter q).accepts eng location j = true ↔ SatisfiesQuery eng q location j := by
  unfold SatisfiesQuery
  unfold JobFilter.accepts jobsFilter
  simp only [Bool.and_eq_true]
  have e0 : ((j.status == JobStatus.active) = true) ↔ j.status = JobStatus.active :=
    beq_iff_eq
  have e1 : ((match present q.search with
      | none => true
      | some s => eng.textSearch s j) = true) ↔
      (∀ s, present q.search = some s → eng.textSearch s j = true) := by
    cases present q.search <;> simp
  have e2 : ((match location with
      | none => true
      | some m => m j.location) = true) ↔ (∀ m, location = some m → m j.location = true) := by
    cases location <;> simp
  have e3 : ((match present q.category with
      | none => true
      | some c => Category.ofString? c == some j.category) = true) ↔
      (∀ c, present q.category = some c → Category.ofString? c = some j.category) := by
    cases present q.category <;> simp
  have e4 : ((match present q.experience with
      | none => true
      | some e => Experience.ofString? e == some j.experience) = true) ↔
      (∀ e, present q.experience = some e → Experience.ofString? e = some j.experience) := by
    cases present q.experience <;> simp
  have e5 : ((match (present q.remote).map (fun s => s == "true") with
      | none => true
      | some r => j.remote == r) = true) ↔
      (∀ r, present q.remote = some r → j.remote = (r == "true")) := by
    cases present q.remote <;> simp
  have e6 : ((match (present q.minSalary).map parseInt, j.salaryMin with
      | none, _ => true
      | some (some n), some v => decide (n ≤ v)
      | some _, _ => false) = true) ↔
      (∀ s, present q.minSalary = some s →
          ∃ n v, parseInt s = some n ∧ j.salaryMin = some v ∧ n ≤ v) := by
    cases present q.minSalary with
    | none => simp
    | some s =>
      cases hp : parseInt s <;> cases hs : j.salaryMin <;> simp [hp]
  have e7 : ((match (present q.maxSalary).map parseInt, j.salaryMax with
      | none, _ => true
      | some (some n), some v => decide (v ≤ n)
      | some _, _ => false) = true) ↔
      (∀ s, present q.maxSalary = some s →
          ∃ n v, parseInt s = some n ∧ j.salaryMax = some v ∧ v ≤ n) := by
    cases present q.maxSalary with
    | none => simp
    | some s =>
      cases hp : parseInt s <;> cases hs : j.salaryMax <;> simp [hp]
  have e8 : ((match (present q.featured).map (fun s => s == "true") with
      | none => true
      | some r => j.featured == r) = true) ↔
      (∀ r, present q.featured = some r → j.featured = (r == "true")) := by
    cases present q.featured <;> simp
  rw [e0, e1, e2, e3, e4, e5, e6, e7, e8]
  constructor
  · rintro ⟨⟨⟨⟨⟨⟨⟨⟨a, b⟩, c⟩, d⟩, e⟩, f⟩, g⟩, h⟩, i⟩
    exact ⟨a, b, c, d, e, f, g, h, i⟩
  · rintro ⟨a, b, c, d, e, f, g, h, i⟩
    exact ⟨⟨⟨⟨⟨⟨⟨⟨a, b⟩, c⟩, d⟩, e⟩, f⟩, g⟩, h⟩, i⟩

/-- When `Job.find` returns, it returns the jobs the filter accepts, with
the location pattern compiled if there is one. -/
theorem jobFind_some (eng : Mongo) (db : Db) (q : JobsQuery) (matching : List Job)
    (h : Job.find eng db (jobsFilter q) = some matching) :
    ∃ location : Option (String → Bool),
      (present q.location = none → location = none) ∧
      (∀ p, present q.location = some p → eng.regexI p = location ∧ location.isSome = true) ∧
      matching = db.jobs.filter ((jobsFilter q).accepts eng location) := by
  unfold Job.find at h
  split_ifs at h
  have hloc : (jobsFilter q).location = present q.location := rfl
  rw [hloc] at h
  cases hl : present q.location with
  | none =>
    rw [hl] at h
    exact ⟨none, fun _ => rfl, fun p hp => Option.noConfusion hp, (Option.some.inj h).symm⟩
  | some pattern =>
    rw [hl] at h
    simp only at h
    cases hm : eng.regexI pattern with
    | none =>
      rw [hm] at h
      exact Option.noConfusion h
    | some m =>
      rw [hm] at h
      refine ⟨some m, fun h0 => Option.noConfusion h0, ?_, (Option.some.inj h).symm⟩
      intro p hp
      rw [← Option.some.inj hp, hm]
      exact ⟨rfl, rfl⟩

/-- Claim C17: every job on a page `getJobs` returns is a stored job that
is active and satisfies every filter the query supplies (see
`SatisfiesQuery`: category and experience equal, remote and featured equal
to whether the parameter is `true`, `salary.min` at least `minSalary`,
`salary.max` at most `maxSalary`, and the search and location conditions
when those are supplied), and `total` is the number of stored jobs that
satisfy this conjunction. -/
theorem getJobs_filters (eng : Mongo) (db : Db) (caller : Option User) (q : JobsQuery)
    (pg : Page JobListItem) (h : (getJobs eng db caller q).data = some pg) :
    ∃ location : Option (String → Bool),
      (present q.location = none → location = none) ∧
      (∀ p, present q.location = some p → eng.regexI p = location ∧ location.isSome = true) ∧
      (∀ item, item ∈ pg.data →
        item.job.doc ∈ db.jobs ∧ SatisfiesQuery eng q location item.job.doc) ∧
      pg.total = (db.jobs.filter ((jobsFilter q).accepts eng location)).length ∧
      (∀ j, (jobsFilter q).accepts eng location j = true ↔ SatisfiesQuery eng q location j) := by
  obtain ⟨matching, jobs, hfind, hcut, _, hdocs, htotal, _⟩ := getJobs_data eng db caller q pg h
  obtain ⟨location, h1, h2, hm⟩ := jobFind_some eng db q matching hfind
  refine ⟨location, h1, h2, ?_, ?_, accepts_iff eng q location⟩
  · intro item hitem
    have hj : item.job.doc ∈ jobs := by
      rw [← hdocs]
      exact List.mem_map_of_mem (fun item : JobListItem => item.job.doc) hitem
    have hj2 : item.job.doc ∈ matching :=
      (sortJobs_perm _ matching).subset ((skipLimit_sublist _ _ _ _ hcut).subset hj)
    rw [hm] at hj2
    have hj3 := List.mem_filter.mp hj2
    exact ⟨hj3.1, (accepts_iff eng q location _).mp hj3.2⟩
  · rw [htotal, hm]

/-- Instance of C17: with `category=internship&experience=entry` the only
job returned from `dbListing` is job 1 (job 2 is senior, job 3 a contract,
job 4 closed), and `total` is 1. -/
theorem getJobs_filters_witness :
    (getJobs sampleMongo dbListing none
        { emptyJobsQuery with category := some "internship", experience := some "entry" }).data.map
      (fun pg => (pg.total, pg.data.map (fun item => item.job.doc.id))) = some (1, [1]) ∧
    ∀ pg, (getJobs sampleMongo dbListing none
        { emptyJobsQuery with category := some "internship",
                              experience := some "entry" }).data = some pg →
      ∀ item, item ∈ pg.data →
        item.job.doc.status = JobStatus.active ∧
        item.job.doc.category = Category.internship ∧
        item.job.doc.experience = Experience.entry :=
  ⟨by decide, fun pg h item hitem =>
    (getJobs_filters sampleMongo dbListing none
      { emptyJobsQuery with category := some "internship", experience := some "entry" }
      pg h).elim fun _ hx =>
        have hs := (hx.2.2.1 item hitem).2
        ⟨hs.1, (Option.some.inj (hs.2.2.2.1 "internship" (by decide))).symm,
          (Option.some.inj (hs.2.2.2.2.1 "entry" (by decide))).symm⟩⟩

/-! ## The `hasApplied` annotation -/

/-- The `forEach` assignment as a fold: a key is set exactly when an earlier
map had it or a listed application has that job id. -/
theorem applicationMap_fold_some (apps : List Application) (m : Nat → Option AppStatus)
    (k : Nat) (s : AppStatus)
    (h : apps.foldl (fun m a => fun k => if k == a.jobId then some a.status else m k) m k
      = some s) :
    (∃ a, a ∈ apps ∧ a.jobId = k ∧ a.status = s) ∨ m k = some s := by
  induction apps generalizing m with
  | nil => exact Or.inr h
  | cons a as ih =>
    rw [List.foldl_cons] at h
    rcases ih _ h with ⟨b, hb, hk, hs⟩ | h2
    · exact Or.inl ⟨b, List.mem_cons_of_mem _ hb, hk, hs⟩
    · by_cases hka : k = a.jobId
      · have hb : (k == a.jobId) = true := by simpa using hka
        simp only [hb, if_true, Option.some.injEq] at h2
        exact Or.inl ⟨a, List.mem_cons_self _ _, hka.symm, h2⟩
      · have hb : (k == a.jobId) = false := by simpa using hka
        simp only [hb, Bool.false_eq_true, if_false] at h2
        exact Or.inr h2

/-- A key stays set through the fold. -/
theorem applicationMap_fold_isSome (apps : List Application) (m : Nat → Option AppStatus)
    (k : Nat)
    (h : (∃ a, a ∈ apps ∧ a.jobId = k) ∨ (m k).isSome = true) :
    (apps.foldl (fun m a => fun k => if k == a.jobId then some a.status else m k) m k).isSome
      = true := by
  induction apps generalizing m with
  | nil =>
    rcases h with ⟨a, ha, _⟩ | h
    · exact absurd ha (List.not_mem_nil _)
    · exact h
  | cons a as ih =>
    rw [List.foldl_cons]
    apply ih
    rcases h with ⟨b, hb, hk⟩ | h
    · rcases List.mem_cons.mp hb with rfl | hb2
      · right
        simp [hk]
      · exact Or.inl ⟨b, hb2, hk⟩
    · right
      by_cases hka : k = a.jobId
      · simp [hka]
      · have hb : (k == a.jobId) = false := by simpa using hka
        simp only [hb, Bool.false_eq_true, if_false]
        exact h

/-- The entry of `applicationMap` for a job is the status of a listed
application of that job. -/
theorem applicationMap_some (apps : List Application) (k : Nat) (s : AppStatus)
    (h : applicationMap apps k = some s) : ∃ a, a ∈ apps ∧ a.jobId = k ∧ a.status = s := by
  rcases applicationMap_fold_some apps (fun _ => none) k s h with h1 | h1
  · exact h1
  · exact Option.noConfusion h1

/-- The map `applicationMap` has an entry for a job exactly when an
application of that job is listed. -/
theorem applicationMap_isSome (apps : List Application) (k : Nat) :
    (applicationMap apps k).isSome = true ↔ ∃ a, a ∈ apps ∧ a.jobId = k := by
  constructor
  · intro h
    obtain ⟨s, hs⟩ := Option.isSome_iff_exists.mp h
    obtain ⟨a, ha, hk, _⟩ := applicationMap_some apps k s hs
    exact ⟨a, ha, hk⟩
  · intro h
    exact applicationMap_fold_isSome apps (fun _ => none) k (Or.inl h)

/-- Claim C20: for an authenticated viewer, every job on the page `getJobs`
returns carries the annotation computed from the one lookup
`Application.findForJobs` over the ids of the returned jobs; `hasApplied` is
true exactly when an application of the viewer for that job is stored; and,
the store holding at most one application per user and job,
`applicationStatus` is that application's status when it exists and null
otherwise. -/
theorem getJobs_hasApplied (eng : Mongo) (db : Db) (viewer : User) (q : JobsQuery)
    (pg : Page JobListItem)
    (hunique : (db.applications.map (fun a => (a.userId, a.jobId))).Nodup)
    (h : (getJobs eng db (some viewer) q).data = some pg) :
    ∀ item, item ∈ pg.data →
      ∃ ann : JobAnnotation, item.annotation = some ann ∧
        ann.applicationStatus =
          applicationMap
            (Application.findForJobs db viewer.id (pg.data.map (fun i => i.job.doc.id)))
            item.job.doc.id ∧
        ann.hasApplied = ann.applicationStatus.isSome ∧
        (ann.hasApplied = true ↔
          ∃ a, a ∈ db.applications ∧ a.userId = viewer.id ∧ a.jobId = item.job.doc.id) ∧
        (∀ a, a ∈ db.applications → a.userId = viewer.id → a.jobId = item.job.doc.id →
          ann.applicationStatus = some a.status) ∧
        ((¬ ∃ a, a ∈ db.applications ∧ a.userId = viewer.id ∧ a.jobId = item.job.doc.id) →
          ann.applicationStatus = none) := by
  obtain ⟨matching, jobs, _, _, hdata, hdocs, _⟩ := getJobs_data eng db (some viewer) q pg h
  have hids : pg.data.map (fun i => i.job.doc.id) = jobs.map (fun job => job.id) := by
    rw [← hdocs, List.map_map]
    rfl
  intro item hitem
  rw [hdata] at hitem
  obtain ⟨job, hjob, hitem2⟩ := List.mem_map.mp hitem
  have hdoc : item.job.doc = job := by rw [← hitem2]; rfl
  have hann : item.annotation = some
      { hasApplied := (applicationMap
          (Application.findForJobs db viewer.id (jobs.map (fun job => job.id))) job.id).isSome,
        applicationStatus := applicationMap
          (Application.findForJobs db viewer.id (jobs.map (fun job => job.id))) job.id } := by
    rw [← hitem2]
    rfl
  have hmem : ∀ a, (a ∈ Application.findForJobs db viewer.id (jobs.map (fun job => job.id)) ∧
      a.jobId = job.id) ↔ (a ∈ db.applications ∧ a.userId = viewer.id ∧ a.jobId = job.id) := by
    intro a
    unfold Application.findForJobs
    simp only [List.mem_filter, Bool.and_eq_true, beq_iff_eq, List.contains_iff_exists_mem_beq]
    constructor
    · rintro ⟨⟨h1, h2, _⟩, h4⟩
      exact ⟨h1, h2, h4⟩
    · rintro ⟨h1, h2, h4⟩
      refine ⟨⟨h1, h2, ?_⟩, h4⟩
      exact ⟨job.id, List.mem_map_of_mem (fun job : Job => job.id) hjob, h4⟩
  have hsome : (applicationMap
      (Application.findForJobs db viewer.id (jobs.map (fun job => job.id))) job.id).isSome = true
      ↔ ∃ a, a ∈ db.applications ∧ a.userId = viewer.id ∧ a.jobId = job.id := by
    rw [applicationMap_isSome]
    constructor
    · rintro ⟨a, ha, hk⟩
      exact ⟨a, (hmem a).mp ⟨ha, hk⟩⟩
    · rintro ⟨a, ha⟩
      exact ⟨a, ((hmem a).mpr ha).1, ((hmem a).mpr ha).2⟩
  refine ⟨_, hann, ?_, rfl, ?_, ?_, ?_⟩
  · rw [hids, hdoc]
  · rw [hdoc]
    exact hsome
  · intro a ha hu hj
    rw [hdoc] at hj
    obtain ⟨s, hs⟩ := Option.isSome_iff_exists.mp (hsome.mpr ⟨a, ha, hu, hj⟩)
    obtain ⟨b, hb, hbk, hbs⟩ := applicationMap_some _ _ _ hs
    have hb2 := (hmem b).mp ⟨hb, hbk⟩
    have hab : b = a := List.inj_on_of_nodup_map hunique hb2.1 ha
      (by simp only [hb2.2.1, hb2.2.2, hu, hj])
    show applicationMap _ _ = some a.status
    rw [hs, ← hbs, hab]
  · intro hnone
    rw [hdoc] at hnone
    show applicationMap _ _ = none
    cases hm : applicationMap
        (Application.findForJobs db viewer.id (jobs.map (fun job => job.id))) job.id with
    | none => rfl
    | some s =>
      exact absurd (hsome.mp (by rw [hm]; rfl)) hnone

/-- Instance of C20: `sampleSeeker` lists the jobs of `dbListing`: job 1, to
which the seeker has applied, carries the status of that application, the
other two jobs carry none. -/
theorem getJobs_hasApplied_witness :
    (getJobs sampleMongo dbListing (some sampleSeeker) emptyJobsQuery).data.map
      (fun pg => pg.data.map (fun item => (item.job.doc.id, item.annotation))) =
      some [(3, some { hasApplied := false, applicationStatus := none }),
            (2, some { hasApplied := false, applicationStatus := none }),
            (1, some { hasApplied := true, applicationStatus := some AppStatus.shortlisted })] ∧
    ∀ pg, (getJobs sampleMongo dbListing (some sampleSeeker) emptyJobsQuery).data = some pg →
      ∀ item, item ∈ pg.data →
        ∃ ann : JobAnnotation, item.annotation = some ann ∧
          (ann.hasApplied = true ↔
            ∃ a, a ∈ dbListing.applications ∧ a.userId = sampleSeeker.id ∧
              a.jobId = item.job.doc.id) :=
  ⟨by decide, fun pg h item hitem =>
    (getJobs_hasApplied sampleMongo dbListing sampleSeeker emptyJobsQuery pg (by decide) h
      item hitem).elim fun ann hann => ⟨ann, hann.1, hann.2.2.2.1⟩⟩

/-! ## The caller's own applications -/

/-- Sorted applications run from the newest `appliedDate` to the oldest. -/
theorem sortApplications_sorted (xs : List Application) :
    (sortApplications xs).Pairwise (fun a b => b.appliedDate ≤ a.appliedDate) :=
  @List.sorted_insertionSort Application (fun a b => b.appliedDate ≤ a.appliedDate) _
    ⟨fun a b => Nat.le_total b.appliedDate a.appliedDate⟩
    ⟨fun _ _ _ hab hbc => Nat.le_trans hbc hab⟩ xs

/-- Sorting keeps the same applications. -/
theorem sortApplications_perm (xs : List Application) : (sortApplications xs).Perm xs :=
  List.perm_insertionSort _ xs

/-- The documents of a page of `getMyApplications`: a stretch of the caller's
matching applications in sorted order, each with its job card. -/
theorem getMyApplications_data (db : Db) (caller : User) (q : ListQuery)
    (pg : Page MyApplication) (h : (getMyApplications db caller q).data = some pg) :
    ∃ applications : List Application,
      applications.Sublist (sortApplications (db.applications.filter (fun a =>
        a.userId == caller.id && statusAccepts q.status a))) ∧
      pg.data = applications.map (populateJobCard db) := by
  unfold getMyApplications at h
  dsimp only at h
  split_ifs at h with hauth
  · simp [roleForbidden] at h
  · cases hs : skipLimit (sortApplications (db.applications.filter (fun a =>
        a.userId == caller.id && statusAccepts q.status a)))
        ((parseIntOr q.page 1 - 1) * parseIntOr q.limit 10) (parseIntOr q.limit 10) with
    | none =>
      rw [hs] at h
      simp [serverError] at h
    | some apps =>
      rw [hs] at h
      simp only [pageEnvelope, Option.some.injEq] at h
      exact ⟨apps, skipLimit_sublist _ _ _ _ hs, by rw [← h]⟩

/-- Claim C21: every application on a page returned by List my applications
is a stored application of the caller, has the status of the `status`
filter when the query carries one, and the page runs from the newest
`appliedDate` to the oldest. -/
theorem getMyApplications_own_newest_first (db : Db) (caller : User) (q : ListQuery)
    (pg : Page MyApplication) (h : (getMyApplications db caller q).data = some pg) :
    (∀ item, item ∈ pg.data →
      item.doc ∈ db.applications ∧ item.doc.userId = caller.id ∧
      ∀ s, present q.status = some s → AppStatus.ofString? s = some item.doc.status) ∧
    pg.data.Pairwise (fun a b => b.doc.appliedDate ≤ a.doc.appliedDate) := by
  obtain ⟨apps, hsub, hdata⟩ := getMyApplications_data db caller q pg h
  constructor
  · intro item hitem
    rw [hdata] at hitem
    obtain ⟨a, ha, rfl⟩ := List.mem_map.mp hitem
    have hmem := (sortApplications_perm _).mem_iff.mp (hsub.subset ha)
    obtain ⟨hstored, hp⟩ := List.mem_filter.mp hmem
    rw [Bool.and_eq_true] at hp
    refine ⟨hstored, by simpa using hp.1, fun s hs => ?_⟩
    have h2 := hp.2
    unfold statusAccepts at h2
    rw [hs] at h2
    simpa using h2
  · rw [hdata, List.pairwise_map]
    exact (sortApplications_sorted _).sublist hsub

/-- Instance of C21: `sampleSeeker` lists the applications of `dbHistory` and
gets the own two, the one of time 7 before the one of time 2, and not the
two of `sampleOther`; with `status=interview` only the first of them. -/
theorem getMyApplications_own_newest_first_witness :
    (getMyApplications dbHistory sampleSeeker emptyQuery).data.map
      (fun pg => pg.data.map (fun item => (item.doc.id, item.doc.userId, item.doc.appliedDate))) =
      some [(5, 101, 7), (2, 101, 2)] ∧
    (getMyApplications dbHistory sampleSeeker { emptyQuery with status := some "interview" }).data.map
      (fun pg => pg.data.map (fun item => (item.doc.id, item.doc.status))) =
      some [(5, AppStatus.interview)] ∧
    ∀ pg, (getMyApplications dbHistory sampleSeeker emptyQuery).data = some pg →
      (∀ item, item ∈ pg.data →
        item.doc ∈ dbHistory.applications ∧ item.doc.userId = sampleSeeker.id ∧
        ∀ s, present emptyQuery.status = some s → AppStatus.ofString? s = some item.doc.status) ∧
      pg.data.Pairwise (fun a b => b.doc.appliedDate ≤ a.doc.appliedDate) :=
  ⟨by decide, by decide, fun pg h =>
    getMyApplications_own_newest_first dbHistory sampleSeeker emptyQuery pg h⟩

/-! ## Statistics -/

/-- An accumulator `$sum` over `$cond` counts the documents that pass the test. -/
theorem sumCond_eq_length {α : Type} (test : α → Bool) (docs : List α) :
    sumCond test docs = (docs.filter test).length := by
  unfold sumCond
  induction docs with
  | nil => rfl
  | cons d ds ih =>
    rw [List.map_cons, List.sum_cons, ih, List.filter_cons]
    cases test d
    · simp
    · simp
      omega

/-- An accumulator `$sum: 1` counts the documents. -/
theorem sumOne_eq_length {α : Type} (docs : List α) :
    (docs.map (fun _ => 1)).sum = docs.length := by
  induction docs with
  | nil => rfl
  | cons d ds ih =>
    rw [List.map_cons, List.sum_cons, ih, List.length_cons]
    omega

/-- Where keys are unique, the documents with a given key are the one a
lookup by key finds, if any. -/
theorem filter_key_eq_find {α : Type} (key : α → Nat) (k : Nat) (xs : List α)
    (h : (xs.map key).Nodup) :
    xs.filter (fun x => key x == k) = (xs.find? (fun x => key x == k)).toList := by
  induction xs with
  | nil => rfl
  | cons x xs ih =>
    rw [List.map_cons, List.nodup_cons] at h
    rw [List.filter_cons, List.find?_cons]
    cases hx : key x == k
    · simpa using ih h.2
    · have hk : key x = k := by simpa using hx
      have hnone : xs.filter (fun y => key y == k) = [] := by
        rw [List.filter_eq_nil_iff]
        intro y hy hyk
        have : key y = k := by simpa using hyk
        exact h.1 (List.mem_map.mpr ⟨y, hy, by rw [this, hk]⟩)
      simp [hnone]

/-- The joined documents that pass `$match` are, application by
application, the applications whose job the lookup finds with the given
owner. -/
theorem joined_fst (find : Nat → Option Job) (e : Nat) (apps : List Application) :
    ((apps.flatMap (fun a => (find a.jobId).toList.map (fun j => (a, j)))).filter
        (fun d => d.2.postedBy == e)).map Prod.fst =
      apps.filter (fun a => (find a.jobId).any (fun j => j.postedBy == e)) := by
  induction apps with
  | nil => rfl
  | cons a as ih =>
    rw [List.flatMap_cons, List.filter_append, List.map_append, ih, List.filter_cons]
    cases hf : find a.jobId with
    | none => simp
    | some j =>
      cases hj : j.postedBy == e <;> simp [hj]

/-- The joined documents of the statistics pipelines, read off the
applications of the owner. -/
theorem lookupJob_fst (db : Db) (e : Nat) (hids : (db.jobs.map (fun j => j.id)).Nodup) :
    ((lookupJob db).filter (fun d => d.2.postedBy == e)).map Prod.fst =
      applicationsOfOwner db e := by
  unfold lookupJob applicationsOfOwner
  have h : (fun a : Application =>
      (db.jobs.filter (fun j => j.id == a.jobId)).map (fun j => (a, j))) =
      (fun a => ((Job.findById db a.jobId).toList).map (fun j => (a, j))) := by
    funext a
    rw [filter_key_eq_find (fun j : Job => j.id) a.jobId db.jobs hids]
    rfl
  rw [h]
  exact joined_fst (Job.findById db) e db.applications

/-- Every application has exactly one of the six statuses. -/
theorem countStatus_total (xs : List Application) :
    countStatus xs AppStatus.applied + countStatus xs AppStatus.underReview +
      countStatus xs AppStatus.shortlisted + countStatus xs AppStatus.interview +
      countStatus xs AppStatus.accepted + countStatus xs AppStatus.rejected = xs.length := by
  unfold countStatus
  induction xs with
  | nil => rfl
  | cons x xs ih =>
    simp only [List.filter_cons, List.length_cons]
    cases hx : x.status <;> simp <;> omega

/-- A status accumulator over the joined documents counts the owner's
applications with that status. -/
theorem sumCond_status (docs : List (Application × Job)) (s : AppStatus) :
    sumCond (fun d => d.1.status == s) docs = countStatus (docs.map Prod.fst) s := by
  rw [sumCond_eq_length]
  unfold countStatus
  rw [List.filter_map, List.length_map]
  rfl

/-- The counts of a `$group` by key add up to the number of documents, and
each is the number of documents with that key. -/
theorem groupCount_spec {κ : Type} [DecidableEq κ] (keys : List κ) :
    ((groupCount keys).map Prod.snd).sum = keys.length ∧
    ∀ k n, (k, n) ∈ groupCount keys → n = (keys.filter (fun x => x == k)).length ∧ 0 < n := by
  unfold groupCount
  constructor
  · rw [List.map_map]
    have h := List.sum_map_count_dedup_eq_length keys
    have h2 : (Prod.snd ∘ fun k => (k, (keys.filter (fun x => x == k)).length)) =
        fun k => keys.count k := by
      funext k
      simp [List.count_eq_countP, List.countP_eq_length_filter]
    rw [h2]
    exact h
  · intro k n hkn
    obtain ⟨k2, hk2, heq⟩ := List.mem_map.mp hkn
    simp only [Prod.mk.injEq] at heq
    obtain ⟨rfl, rfl⟩ := heq
    refine ⟨rfl, ?_⟩
    rw [List.length_pos]
    intro hnil
    rw [List.filter_eq_nil_iff] at hnil
    exact hnil k2 (List.mem_dedup.mp hk2) (by simp)

/-- Claim C22: for an employer (or admin) `e`, the application statistics
count exactly the applications whose job is posted by `e`: `totalApplications`
is their number and each of the six status fields the number with that
status, so the six add up to `totalApplications` and all are zero when there
are none; the job statistics count exactly the jobs of `e`: `totalJobs`,
`activeJobs` those with status active, `totalApplications` the sum of
`applicationCount`, `totalViews` the sum of `views`, and the per-category
counts, each the number of jobs of `e` in that category, add up to
`totalJobs`. -/
theorem stats_count_own (db : Db) (e : User) (hrole : e.role ≠ Role.jobseeker)
    (hids : (db.jobs.map (fun j => j.id)).Nodup) :
    (∃ st : ApplicationStats,
      getApplicationStats db e =
        { status := 200, success := true, message := none, data := some st } ∧
      st.overview.totalApplications = (applicationsOfOwner db e.id).length ∧
      st.overview.applied = countStatus (applicationsOfOwner db e.id) AppStatus.applied ∧
      st.overview.underReview = countStatus (applicationsOfOwner db e.id) AppStatus.underReview ∧
      st.overview.shortlisted = countStatus (applicationsOfOwner db e.id) AppStatus.shortlisted ∧
      st.overview.interview = countStatus (applicationsOfOwner db e.id) AppStatus.interview ∧
      st.overview.accepted = countStatus (applicationsOfOwner db e.id) AppStatus.accepted ∧
      st.overview.rejected = countStatus (applicationsOfOwner db e.id) AppStatus.rejected ∧
      st.overview.applied + st.overview.underReview + st.overview.shortlisted +
        st.overview.interview + st.overview.accepted + st.overview.rejected =
        st.overview.totalApplications ∧
      (applicationsOfOwner db e.id = [] →
        st.overview = { totalApplications := 0, applied := 0, underReview := 0,
                        shortlisted := 0, interview := 0, accepted := 0, rejected := 0 })) ∧
    (∃ st : JobStats,
      getJobStats db e =
        { status := 200, success := true, message := none, data := some st } ∧
      st.overview.totalJobs = (jobsOfOwner db e.id).length ∧
      st.overview.activeJobs =
        ((jobsOfOwner db e.id).filter (fun j => j.status == JobStatus.active)).length ∧
      st.overview.totalApplications = ((jobsOfOwner db e.id).map (fun j => j.applicationCount)).sum ∧
      st.overview.totalViews = ((jobsOfOwner db e.id).map (fun j => j.views)).sum ∧
      (∀ c n, (c, n) ∈ st.categories →
        n = ((jobsOfOwner db e.id).filter (fun j => j.category == c)).length) ∧
      (st.categories.map Prod.snd).sum = st.overview.totalJobs) := by
  have hauth := authorize_staff e hrole
  constructor
  · have hfst := lookupJob_fst db e.id hids
    have hov : ∀ docs : List (Application × Job),
        let ov := (groupApplications docs).head?.getD
          { totalApplications := 0, applied := 0, underReview := 0, shortlisted := 0,
            interview := 0, accepted := 0, rejected := 0 }
        ov.totalApplications = (docs.map Prod.fst).length ∧
        ov.applied = countStatus (docs.map Prod.fst) AppStatus.applied ∧
        ov.underReview = countStatus (docs.map Prod.fst) AppStatus.underReview ∧
        ov.shortlisted = countStatus (docs.map Prod.fst) AppStatus.shortlisted ∧
        ov.interview = countStatus (docs.map Prod.fst) AppStatus.interview ∧
        ov.accepted = countStatus (docs.map Prod.fst) AppStatus.accepted ∧
        ov.rejected = countStatus (docs.map Prod.fst) AppStatus.rejected := by
      intro docs
      cases docs with
      | nil => exact ⟨rfl, rfl, rfl, rfl, rfl, rfl, rfl⟩
      | cons d ds =>
        simp only [groupApplications, List.isEmpty_cons, Bool.false_eq_true, if_false,
          List.head?_cons, Option.getD_some]
        refine ⟨?_, sumCond_status _ _, sumCond_status _ _, sumCond_status _ _,
          sumCond_status _ _, sumCond_status _ _, sumCond_status _ _⟩
        rw [sumOne_eq_length, List.length_map]
    have h := hov ((lookupJob db).filter (fun d => d.2.postedBy == e.id))
    rw [hfst] at h
    obtain ⟨h0, h1, h2, h3, h4, h5, h6⟩ := h
    refine ⟨{ overview := (groupApplications
                ((lookupJob db).filter (fun d => d.2.postedBy == e.id))).head?.getD
                { totalApplications := 0, applied := 0, underReview := 0, shortlisted := 0,
                  interview := 0, accepted := 0, rejected := 0 }
              statusBreakdown := groupCount
                (((lookupJob db).filter (fun d => d.2.postedBy == e.id)).map
                  (fun d => d.1.status)) },
      ?_, h0, h1, h2, h3, h4, h5, h6, ?_, ?_⟩
    · unfold getApplicationStats
      rw [hauth]
      rfl
    · rw [h0, h1, h2, h3, h4, h5, h6]
      exact countStatus_total _
    · intro hnil
      have hlen : ((lookupJob db).filter (fun d => d.2.postedBy == e.id)) = [] := by
        have := congrArg List.length hfst
        rw [hnil, List.length_map] at this
        exact List.length_eq_zero.mp this
      rw [hlen]
      rfl
  · have hov : ∀ docs : List Job,
        let ov := (groupJobs docs).head?.getD
          { totalJobs := 0, activeJobs := 0, totalApplications := 0, totalViews := 0 }
        ov.totalJobs = docs.length ∧
        ov.activeJobs = (docs.filter (fun j => j.status == JobStatus.active)).length ∧
        ov.totalApplications = (docs.map (fun j => j.applicationCount)).sum ∧
        ov.totalViews = (docs.map (fun j => j.views)).sum := by
      intro docs
      cases docs with
      | nil => exact ⟨rfl, rfl, rfl, rfl⟩
      | cons d ds =>
        simp only [groupJobs, List.isEmpty_cons, Bool.false_eq_true, if_false,
          List.head?_cons, Option.getD_some]
        refine ⟨?_, ?_, ?_, ?_⟩
        all_goals first
          | trivial
          | exact sumOne_eq_length _
          | exact sumCond_eq_length _ _
    obtain ⟨h0, h1, h2, h3⟩ := hov (jobsOfOwner db e.id)
    have hg := groupCount_spec ((jobsOfOwner db e.id).map (fun j => j.category))
    refine ⟨{ overview := (groupJobs (jobsOfOwner db e.id)).head?.getD
                { totalJobs := 0, activeJobs := 0, totalApplications := 0, totalViews := 0 }
              categories := groupCount ((jobsOfOwner db e.id).map (fun j => j.category)) },
      ?_, h0, h1, h2, h3, ?_, ?_⟩
    · unfold getJobStats
      rw [hauth]
      rfl
    · intro c n hcn
      have := (hg.2 c n hcn).1
      rw [this, List.filter_map, List.length_map]
      rfl
    · rw [h0]
      have := hg.1
      rw [List.length_map] at this
      exact this

/-- Instance of C22: in `dbHistory` the jobs of `sampleEmployer` (1 and 3)
have three applications, two applied and one at the interview stage; the
accepted application on the job of `sampleRival` is not counted. -/
theorem stats_count_own_witness :
    (getApplicationStats dbHistory sampleEmployer).data.map (fun st => st.overview) =
      some { totalApplications := 3, applied := 2, underReview := 0, shortlisted := 0,
             interview := 1, accepted := 0, rejected := 0 } ∧
    (getJobStats dbHistory sampleEmployer).data =
      some { overview := { totalJobs := 2, activeJobs := 1, totalApplications := 3,
                           totalViews := 0 },
             categories := [(Category.fullTime, 2)] } ∧
    (∃ st : ApplicationStats,
      getApplicationStats dbHistory sampleEmployer =
        { status := 200, success := true, message := none, data := some st } ∧
      st.overview.totalApplications = (applicationsOfOwner dbHistory sampleEmployer.id).length) :=
  ⟨by decide, by decide,
    (stats_count_own dbHistory sampleEmployer (by decide) (by decide)).1.elim
      fun st h => ⟨st, h.1, h.2.1⟩⟩

/-! ## Dispatch -/

/-- Claim C23 fails on the route tables: `router.get('/:id', ...)` is
registered before `router.get('/my-jobs', ...)` and `router.get('/stats', ...)`
in `routes/jobs.js`, and before `router.get('/stats', ...)` in
`routes/applications.js`, so under first-match dispatch a GET request for
`/my-jobs` or `/stats` is answered by the job-by-id handler and a GET request
for `/stats` on the applications router by the application-by-id handler;
no GET request at all reaches the handlers those three paths were registered
with.  A path registered ahead of `/:id`, such as `/my-applications`, reaches
its handler. -/
theorem static_routes_shadowed_by_id :
    dispatch jobsRouter Method.get "/my-jobs" = some JobsHandler.getJob ∧
    dispatch jobsRouter Method.get "/stats" = some JobsHandler.getJob ∧
    dispatch applicationsRouter Method.get "/stats" = some ApplicationsHandler.getApplication ∧
    dispatch applicationsRouter Method.get "/my-applications" =
      some ApplicationsHandler.getMyApplications ∧
    (∀ url, dispatch jobsRouter Method.get url ≠ some JobsHandler.getMyJobs ∧
      dispatch jobsRouter Method.get url ≠ some JobsHandler.getJobStats ∧
      dispatch applicationsRouter Method.get url ≠
        some ApplicationsHandler.getApplicationStats) := by
  refine ⟨by decide, by decide, by decide, by decide, fun url => ?_⟩
  have p1 : pathPattern "/" = [] := by decide
  have p2 : pathPattern "/:id" = [Segment.param "id"] := by decide
  have p3 : pathPattern "/my-jobs" = [Segment.fixed "my-jobs"] := by decide
  have p4 : pathPattern "/stats" = [Segment.fixed "stats"] := by decide
  have p5 : pathPattern "/my-applications" = [Segment.fixed "my-applications"] := by decide
  have p6 : pathPattern "/job/:jobId" = [Segment.fixed "job", Segment.param "jobId"] := by decide
  have p7 : pathPattern "/:id/status" = [Segment.param "id", Segment.fixed "status"] := by decide
  unfold dispatch jobsRouter applicationsRouter
  simp only [List.find?_cons, Route.fits, p1, p2, p3, p4, p5, p6, p7]
  generalize splitPath [] url.data = segs
  rcases segs with _ | ⟨s, _ | ⟨t, _ | ⟨u, rest⟩⟩⟩
  · decide
  · cases hb : ("my-applications" == s) <;> simp [Segment.fits, hb]
  · have hm : (Method.put == Method.get) = false := by decide
    cases hb : ("job" == s) <;> simp [Segment.fits, hb, hm]
  · simp [Segment.fits]

/-! ## Apply, write by write -/

/-- With equal databases before and after the pre-check, the interleaved
handler is `applyForJob`. -/
theorem applyForJobInterleaved_same (db : Db) (now : Nat) (caller : User) (jobId : Nat)
    (coverLetter : Option String) :
    applyForJobInterleaved db db now caller jobId coverLetter =
      applyForJob db now caller jobId coverLetter := rfl

/-- Once the checks of the handler have passed on `db`, Apply is the call
`Application.create` on the database of that moment. -/
theorem applyForJobInterleaved_run (db db' : Db) (now : Nat) (caller : User) (jobId : Nat)
    (coverLetter : Option String) (job : Job) (resume : String)
    (hrole : caller.role = Role.jobseeker) (hvalid : coverLetterStorable coverLetter)
    (hjob : Job.findById db jobId = some job) (hactive : job.status = JobStatus.active)
    (hnew : Application.findOne db caller.id jobId = none)
    (hres : caller.profile.resume = some resume) (htruthy : resume ≠ "") :
    applyForJobInterleaved db db' now caller jobId coverLetter =
      match Application.create db' now caller.id jobId resume
              (storedCoverLetter coverLetter) with
      | (none, db1) => (serverError, db1)
      | (some application, db1) =>
        ({ status := 201, success := true,
           message := some "Application submitted successfully",
           data := (Application.findById db1 application.id).map
                     (populateApplication db1 false) }, db1) := by
  have ht : truthyStr resume = true := by simpa [truthyStr] using htruthy
  have hauth := authorize_jobseeker caller hrole
  have hv := coverLetterStorable_valid coverLetter hvalid
  unfold applyForJobInterleaved
  cases coverLetter with
  | none => simp [hauth, hjob, hactive, hnew, hres, ht, storedCoverLetter]
  | some s =>
    have h1 : isLengthValue (jsTrim s) ≤ 1000 := hv s rfl
    have h2 : (if truthyStr (jsTrim s) = true then jsTrim s else "") = jsTrim s := by
      by_cases h : truthyStr (jsTrim s) = true
      · rw [if_pos h]
      · rw [if_neg h]
        simp [truthyStr] at h
        exact h.symm
    simp [hauth, hjob, hactive, hnew, hres, ht, storedCoverLetter, h1, h2]

/-- The state `Application.create` is in between the write of the pre-save
hook and the insert: the job's counter is raised, the applications are as
before. -/
theorem afterHook_state (db : Db) (now jobId : Nat) :
    (Application.afterHook db now jobId).applications = db.applications ∧
    Job.findById (Application.afterHook db now jobId) jobId =
      (Job.findById db jobId).map
        (fun j => { j with applicationCount := j.applicationCount + 1, updatedAt := now }) := by
  constructor
  · rfl
  · have h := findById_incApplicationCount_same { db with nextId := db.nextId + 1 } now jobId 1
    simpa [Application.afterHook, Application.preSave] using h

/-- The two ways `Application.create` ends for a valid document: the unique
index refuses the insert and the database stays as the hook left it, or the
document is added to that database. -/
theorem applicationCreate_after_hook (db : Db) (now userId jobId : Nat) (resume text : String)
    (hv : Application.validate resume text = true) :
    (db.applications.any (fun a => a.userId == userId && a.jobId == jobId) = true →
      Application.create db now userId jobId resume text =
        (none, Application.afterHook db now jobId)) ∧
    (db.applications.any (fun a => a.userId == userId && a.jobId == jobId) = false →
      ∃ doc : Application, doc.jobId = jobId ∧ doc.userId = userId ∧
        Application.create db now userId jobId resume text =
          (some doc,
           { Application.afterHook db now jobId with
             applications := db.applications ++ [doc] })) := by
  constructor
  · intro hdup
    unfold Application.create
    simp [hv, Application.afterHook, Application.preSave, Job.incApplicationCount, hdup]
  · intro hnew
    unfold Application.create
    simp only [hv, Application.afterHook, Application.preSave, Job.incApplicationCount, hnew,
      if_true,
      Bool.not_true, Bool.false_eq_true, if_false]
    exact ⟨_, rfl, rfl, rfl⟩

/-- Claim C24 as stated fails: the counter is raised first.  A successful
Apply on `dbOpenJob` passes through a state in which job 1 has
`applicationCount` 1 and no application is stored, and the jobs it ends with
are the jobs of that state; and when the insert is refused (the same seeker
applied in the meantime), Apply ends with `applicationCount` 2 and one
stored application. -/
theorem apply_counter_raised_before_insert :
    (applyForJob dbOpenJob 1 sampleSeeker 1 none).1.status = 201 ∧
    (applyForJob dbOpenJob 1 sampleSeeker 1 none).2.jobs =
      (Application.afterHook dbOpenJob 1 1).jobs ∧
    (Job.findById (Application.afterHook dbOpenJob 1 1) 1).map (fun j => j.applicationCount) =
      some 1 ∧
    applicationsFor (Application.afterHook dbOpenJob 1 1) 1 = 0 ∧
    (applyForJobInterleaved dbOpenJob dbRaced 2 sampleSeeker 1 none).1.status = 500 ∧
    (Job.findById (applyForJobInterleaved dbOpenJob dbRaced 2 sampleSeeker 1 none).2 1).map
      (fun j => j.applicationCount) = some 2 ∧
    applicationsFor (applyForJobInterleaved dbOpenJob dbRaced 2 sampleSeeker 1 none).2 1 = 1 := by
  decide

/-- Claim C24, amended: during Apply the pre-save hook raises the job's
`applicationCount` before the record is inserted.  With the handler's checks
passed and a counter that equals the number of stored applications of the
job, the state between the two writes has the same applications and a
counter one above their number; when the insert is refused that state is the
final one; when the insert goes through, the answer is 201, the record is
added to that state, and the counter equals the number of stored
applications again. -/
theorem apply_counter_runs_ahead (db db' : Db) (now : Nat) (caller : User) (jobId : Nat)
    (coverLetter : Option String) (job job' : Job) (resume : String)
    (hrole : caller.role = Role.jobseeker) (hvalid : coverLetterStorable coverLetter)
    (hjob : Job.findById db jobId = some job) (hactive : job.status = JobStatus.active)
    (hnew : Application.findOne db caller.id jobId = none)
    (hres : caller.profile.resume = some resume) (htruthy : resume ≠ "")
    (hjob' : Job.findById db' jobId = some job')
    (hcount : job'.applicationCount = applicationsFor db' jobId) :
    (applicationsFor (Application.afterHook db' now jobId) jobId = applicationsFor db' jobId ∧
      (Job.findById (Application.afterHook db' now jobId) jobId).map
        (fun j => j.applicationCount) =
        some (applicationsFor (Application.afterHook db' now jobId) jobId + 1)) ∧
    (db'.applications.any (fun a => a.userId == caller.id && a.jobId == jobId) = true →
      (applyForJobInterleaved db db' now caller jobId coverLetter).2 =
        Application.afterHook db' now jobId) ∧
    (db'.applications.any (fun a => a.userId == caller.id && a.jobId == jobId) = false →
      (applyForJobInterleaved db db' now caller jobId coverLetter).1.status = 201 ∧
      (∃ doc : Application,
        (applyForJobInterleaved db db' now caller jobId coverLetter).2 =
          { Application.afterHook db' now jobId with
            applications := db'.applications ++ [doc] }) ∧
      (Job.findById (applyForJobInterleaved db db' now caller jobId coverLetter).2 jobId).map
        (fun j => j.applicationCount) =
        some (applicationsFor (applyForJobInterleaved db db' now caller jobId coverLetter).2
          jobId)) := by
  have ht : truthyStr resume = true := by simpa [truthyStr] using htruthy
  have hv : Application.validate resume (storedCoverLetter coverLetter) = true := by
    have := storedCoverLetter_length coverLetter hvalid
    simp [Application.validate, ht, this]
  have hrun := applyForJobInterleaved_run db db' now caller jobId coverLetter job resume
    hrole hvalid hjob hactive hnew hres htruthy
  obtain ⟨happs, hfind⟩ := afterHook_state db' now jobId
  obtain ⟨hrefused, haccepted⟩ :=
    applicationCreate_after_hook db' now caller.id jobId resume (storedCoverLetter coverLetter) hv
  have hmid : applicationsFor (Application.afterHook db' now jobId) jobId =
      applicationsFor db' jobId := by
    unfold applicationsFor
    rw [happs]
  refine ⟨⟨hmid, ?_⟩, ?_, ?_⟩
  · rw [hfind, hjob', hmid, ← hcount]
    rfl
  · intro hdup
    rw [hrun, hrefused hdup]
  · intro hfree
    obtain ⟨doc, hdj, _, hcreate⟩ := haccepted hfree
    rw [hrun, hcreate]
    refine ⟨rfl, ⟨doc, rfl⟩, ?_⟩
    show (Job.findById (Application.afterHook db' now jobId) jobId).map
        (fun j => j.applicationCount) =
      some (((db'.applications ++ [doc]).map (fun a => a.jobId)).count jobId : Int)
    rw [hfind, hjob']
    simp only [Option.map_some', List.map_append, List.map_cons, List.map_nil,
      List.count_append, hdj, List.count_singleton_self, Nat.cast_add, Nat.cast_one]
    rw [hcount]
    rfl

/-- Instance of C24: the second request of `sampleSeeker`, past its
pre-check on `dbOpenJob`, inserts into `dbRaced` (counter 1, one
application): the insert is refused and the final state is the one the hook
left, with counter 2. -/
theorem apply_counter_runs_ahead_witness :
    (applyForJobInterleaved dbOpenJob dbRaced 2 sampleSeeker 1 none).2 =
      Application.afterHook dbRaced 2 1 ∧
    (Job.findById (Application.afterHook dbRaced 2 1) 1).map (fun j => j.applicationCount) =
      some (applicationsFor (Application.afterHook dbRaced 2 1) 1 + 1) ∧
    applicationsFor (Application.afterHook dbRaced 2 1) 1 = 1 :=
  have h := apply_counter_runs_ahead dbOpenJob dbRaced 2 sampleSeeker 1 none
    (sampleJob 1 JobStatus.active 0)
    { sampleJob 1 JobStatus.active 1 with updatedAt := 1 } "/uploads/sam.pdf"
    (by decide) (fun _ h => Option.noConfusion h) (by decide) (by decide) (by decide)
    (by decide) (by decide) (by decide) (by decide)
  ⟨h.2.1 (by decide), h.1.2, by decide⟩

/-! ## A duplicate caught by the unique index -/

/-- Claim C25 as stated fails: `sampleSeeker` sends Apply for job 1 twice at
once.  The pre-check of the second request reads `dbOpenJob` and finds
nothing; by the time it inserts, the first request has stored its
application (`dbRaced`), the unique index refuses the insert, and the answer
is the 500 of the `catch` block, not the 400 the pre-check gives for a
duplicate. -/
theorem apply_duplicate_key_is_server_error :
    Application.findOne dbOpenJob sampleSeeker.id 1 = none ∧
    dbRaced.applications.any (fun a => a.userId == sampleSeeker.id && a.jobId == 1) = true ∧
    (applyForJobInterleaved dbOpenJob dbRaced 2 sampleSeeker 1 none).1 = serverError ∧
    (applyForJob dbRaced 2 sampleSeeker 1 none).1 =
      failure 400 "You have already applied for this job" ∧
    (serverError : Response PopulatedApplication) ≠
      failure 400 "You have already applied for this job" := by
  decide

/-- Claim C25, amended: when the pre-check finds no application of the
caller for the job but the unique `(userId, jobId)` index refuses the
insert, Apply answers 500 with the message of the `catch` block and no
application is stored. -/
theorem apply_refused_insert_answers_500 (db db' : Db) (now : Nat) (caller : User)
    (jobId : Nat) (coverLetter : Option String) (job : Job) (resume : String)
    (hrole : caller.role = Role.jobseeker) (hvalid : coverLetterStorable coverLetter)
    (hjob : Job.findById db jobId = some job) (hactive : job.status = JobStatus.active)
    (hnew : Application.findOne db caller.id jobId = none)
    (hres : caller.profile.resume = some resume) (htruthy : resume ≠ "")
    (hdup : db'.applications.any (fun a => a.userId == caller.id && a.jobId == jobId) = true) :
    (applyForJobInterleaved db db' now caller jobId coverLetter).1 =
      { status := 500, success := false, message := some "Server error", data := none } ∧
    (applyForJobInterleaved db db' now caller jobId coverLetter).2.applications =
      db'.applications := by
  have ht : truthyStr resume = true := by simpa [truthyStr] using htruthy
  have hv : Application.validate resume (storedCoverLetter coverLetter) = true := by
    have := storedCoverLetter_length coverLetter hvalid
    simp [Application.validate, ht, this]
  rw [applyForJobInterleaved_run db db' now caller jobId coverLetter job resume
      hrole hvalid hjob hactive hnew hres htruthy,
    (applicationCreate_after_hook db' now caller.id jobId resume
      (storedCoverLetter coverLetter) hv).1 hdup]
  exact ⟨rfl, rfl⟩

/-- Instance of C25: the two simultaneous requests of `sampleSeeker`. -/
theorem apply_refused_insert_answers_500_witness :
    (applyForJobInterleaved dbOpenJob dbRaced 2 sampleSeeker 1 none).1 =
      { status := 500, success := false, message := some "Server error", data := none } ∧
    (applyForJobInterleaved dbOpenJob dbRaced 2 sampleSeeker 1 none).2.applications =
      dbRaced.applications :=
  apply_refused_insert_answers_500 dbOpenJob dbRaced 2 sampleSeeker 1 none
    (sampleJob 1 JobStatus.active 0) "/uploads/sam.pdf"
    (by decide) (fun _ h => Option.noConfusion h) (by decide) (by decide) (by decide)
    (by decide) (by decide) (by decide)

/-! ## The user document -/

/-- Claim C26: the object `toJSON` produces for a user document has no
`password` key (its keys are `_id`, `name`, `email`, `role` and `profile`),
and it is the same object for two users that differ only in their
password. -/
theorem toJSON_hides_password (u : User) (p : String) :
    "password" ∉ u.toJSON.map Prod.fst ∧
    u.toJSON.map Prod.fst = ["_id", "name", "email", "role", "profile"] ∧
    User.toJSON { u with password := p } = u.toJSON := by
  have h1 : (("_id" : String) != "password") = true := by decide
  have h2 : (("name" : String) != "password") = true := by decide
  have h3 : (("email" : String) != "password") = true := by decide
  have h4 : (("password" : String) != "password") = false := by decide
  have h5 : (("role" : String) != "password") = true := by decide
  have h6 : (("profile" : String) != "password") = true := by decide
  have hjson : ∀ v : User, v.toJSON =
      [("_id", FieldValue.objectId v.id), ("name", FieldValue.text v.name),
       ("email", FieldValue.text v.email), ("role", FieldValue.role v.role),
       ("profile", FieldValue.profile v.profile)] := by
    intro v
    simp only [User.toJSON, User.toObject, List.filter_cons, List.filter_nil, h1, h2, h3, h4,
      h5, h6, if_true, Bool.false_eq_true, if_false]
  refine ⟨?_, ?_, ?_⟩
  · rw [hjson]
    simp
  · rw [hjson]
    rfl
  · rw [hjson, hjson]

/-- Claim C28 fails on the hook: for a document whose password was not
modified, `userSchema.pre('save')` calls `next()` with the document as it
is and then, for want of a `return`, goes on as it does for a modified
password: it replaces `password` by the hash of the stored hash and calls
`next()` again. -/
theorem preSave_rehashes_unmodified_password (hash : String → String → String)
    (salt : String) (doc : User) :
    (User.preSave hash salt false doc).nextCalls =
      [doc, { doc with password := hash doc.password salt }] ∧
    (User.preSave hash salt false doc).final.password = hash doc.password salt ∧
    (User.preSave hash salt false doc).final = (User.preSave hash salt true doc).final ∧
    (User.preSave hash salt true doc).nextCalls =
      [{ doc with password := hash doc.password salt }] :=
  ⟨rfl, rfl, rfl, rfl⟩

/-! ## The owner of a job -/

/-- Claim C29 as stated fails: the owner of the job of `dbPosted` sends an
update whose body carries `postedBy: 202`; the answer is 200 and the job now
belongs to user 202. -/
theorem updateJob_transfers_ownership :
    (Job.findById dbPosted 0).map (fun j => j.postedBy) = some 201 ∧
    (updateJob dbPosted 5 sampleEmployer 0 { emptyBody with postedBy := some 202 }).1.status =
      200 ∧
    (Job.findById
        (updateJob dbPosted 5 sampleEmployer 0 { emptyBody with postedBy := some 202 }).2 0).map
      (fun j => j.postedBy) = some 202 := by
  decide

/-- A single-document update that keeps the key and a field keeps what a
lookup by key reads of that field. -/
theorem updateFirst_find_map {α β : Type} (key : α → Nat) (k k2 : Nat) (f : α → α)
    (g : α → β) (hkey : ∀ x, key (f x) = key x) (hg : ∀ x, g (f x) = g x) (l : List α) :
    ((updateFirst (fun x => key x == k) f l).find? (fun x => key x == k2)).map g =
      (l.find? (fun x => key x == k2)).map g := by
  by_cases hk : k2 = k
  · subst hk
    rw [updateFirst_find_same key k2 f hkey l]
    cases l.find? (fun x => key x == k2) with
    | none => rfl
    | some x => exact congrArg some (hg x)
  · rw [updateFirst_find_other key k k2 f hkey hk l]

/-- Claim C29, amended: for every caller and every request body without a
`postedBy` field, Update job leaves the `postedBy` of every job as it was,
whatever the answer. -/
theorem updateJob_keeps_owner (db : Db) (now : Nat) (caller : User) (id : Nat) (body : JobBody)
    (h : body.postedBy = none) :
    (∀ k, (Job.findById (updateJob db now caller id body).2 k).map (fun j => j.postedBy) =
      (Job.findById db k).map (fun j => j.postedBy)) ∧
    (updateJob db now caller id body).2.jobs.map (fun j => (j.id, j.postedBy)) =
      db.jobs.map (fun j => (j.id, j.postedBy)) := by
  rcases updateJob_jobs db now caller id body with hsame | hupd
  · rw [hsame]
    exact ⟨fun _ => rfl, rfl⟩
  · rw [hupd]
    constructor
    · intro k
      unfold Job.findById
      refine updateFirst_find_map (fun j : Job => j.id) id k _ (fun j : Job => j.postedBy)
        ?_ ?_ db.jobs
      · intro j
        rfl
      · intro j
        show (body.postedBy).getD j.postedBy = j.postedBy
        rw [h]
        rfl
    · refine updateFirst_map_eq _ _ (fun j : Job => (j.id, j.postedBy)) (fun j _ => ?_) db.jobs
      show (j.id, (body.postedBy).getD j.postedBy) = (j.id, j.postedBy)
      rw [h]
      rfl

/-- Instance of C29: the owner retitles the job of `dbPosted`; it stays
with user 201. -/
theorem updateJob_keeps_owner_witness :
    (updateJob dbPosted 5 sampleEmployer 0
        { emptyBody with title := some "Senior backend developer" }).1.status = 200 ∧
    (Job.findById (updateJob dbPosted 5 sampleEmployer 0
        { emptyBody with title := some "Senior backend developer" }).2 0).map
      (fun j => j.postedBy) = (Job.findById dbPosted 0).map (fun j => j.postedBy) :=
  ⟨by decide,
    (updateJob_keeps_owner dbPosted 5 sampleEmployer 0
      { emptyBody with title := some "Senior backend developer" } rfl).1 0⟩

/-! ## Page and limit as the handlers read them -/

/-- Claim C30 as stated fails: `page=-2` is read as -2, so `skip` is -30 and
the store refuses the query (500); `limit=-1` is read as -1 and the answer
reports `pages` = -3 for the three active jobs of `dbListing`. -/
theorem negative_page_and_limit_pass_through :
    parseIntOr (some "-2") 1 = -2 ∧
    (parseIntOr (some "-2") 1 - 1) * parseIntOr none 10 = -30 ∧
    (getJobs sampleMongo dbListing none { emptyJobsQuery with page := some "-2" }).status = 500 ∧
    parseIntOr (some "-1") 10 = -1 ∧
    (getJobs sampleMongo dbListing none { emptyJobsQuery with limit := some "-1" }).data.map
      (fun pg => (pg.total, pg.pages)) = some (3, -3) := by
  decide

/-- Claim C30, amended: for page and limit parameters that `parseInt` reads
as `NaN` or as a safe integer, the page and the limit the list handlers
compute are safe integers and never 0.  A parameter that is absent, not
numeric or zero gives the default (1 and 10); any other gives the integer
`parseInt` reads, a negative one included.  When both are at least 1, `skip`
is at least 0 and the reported `pages` is a non-negative integer. -/
theorem page_and_limit_read (page limit : Option String)
    (hpage : ∀ n, page.bind parseInt = some n → IsSafeInteger n)
    (hlimit : ∀ n, limit.bind parseInt = some n → IsSafeInteger n) :
    parseIntOr page 1 ≠ 0 ∧ parseIntOr limit 10 ≠ 0 ∧
    IsSafeInteger (parseIntOr page 1) ∧ IsSafeInteger (parseIntOr limit 10) ∧
    ((page.bind parseInt = none ∨ page.bind parseInt = some 0) → parseIntOr page 1 = 1) ∧
    ((limit.bind parseInt = none ∨ limit.bind parseInt = some 0) → parseIntOr limit 10 = 10) ∧
    (∀ n, page.bind parseInt = some n → n ≠ 0 → parseIntOr page 1 = n) ∧
    (∀ n, limit.bind parseInt = some n → n ≠ 0 → parseIntOr limit 10 = n) ∧
    (1 ≤ parseIntOr page 1 → 1 ≤ parseIntOr limit 10 →
      0 ≤ (parseIntOr page 1 - 1) * parseIntOr limit 10 ∧
      ∀ total : Nat, 0 ≤ ceilDiv total (parseIntOr limit 10)) := by
  have key : ∀ (q : Option String) (d : Int), d ≠ 0 → IsSafeInteger d →
      (∀ n, q.bind parseInt = some n → IsSafeInteger n) →
      parseIntOr q d ≠ 0 ∧ IsSafeInteger (parseIntOr q d) ∧
      ((q.bind parseInt = none ∨ q.bind parseInt = some 0) → parseIntOr q d = d) ∧
      (∀ n, q.bind parseInt = some n → n ≠ 0 → parseIntOr q d = n) := by
    intro q d hd hsd hq2
    unfold parseIntOr
    cases hq : q.bind parseInt with
    | none => exact ⟨hd, hsd, fun _ => rfl, fun n hn => Option.noConfusion hn⟩
    | some m =>
      by_cases hm : m = 0
      · subst hm
        refine ⟨by simpa using hd, by simpa using hsd, fun _ => by simp, fun n hn hn0 => ?_⟩
        exact absurd (Option.some.inj hn).symm hn0
      · refine ⟨by simp [hm], by simpa [hm] using hq2 m hq, fun h => ?_, fun n hn _ => ?_⟩
        · rcases h with h | h
          · exact Option.noConfusion h
          · exact absurd (Option.some.inj h) hm
        · simp only [hm, if_false]
          exact Option.some.inj hn
  obtain ⟨p1, ps, p2, p3⟩ := key page 1 (by decide) (by unfold IsSafeInteger; decide) hpage
  obtain ⟨l1, ls, l2, l3⟩ := key limit 10 (by decide) (by unfold IsSafeInteger; decide) hlimit
  refine ⟨p1, l1, ps, ls, p2, l2, p3, l3, fun hp hl => ⟨?_, fun total => ?_⟩⟩
  · exact Int.mul_nonneg (by omega) (by omega)
  · have hcast : parseIntOr limit 10 = (((parseIntOr limit 10).toNat : Nat) : Int) :=
      (Int.toNat_of_nonneg (by omega)).symm
    rw [hcast, ceilDiv_nat total _ (by omega)]
    exact Int.ofNat_nonneg _

/-- Instance of C30: `page=2` with no `limit` is read as page 2 and limit 10,
so `skip` is 10. -/
theorem page_and_limit_read_witness :
    parseIntOr (some "2") 1 = 2 ∧ parseIntOr none 10 = 10 ∧
    0 ≤ (parseIntOr (some "2") 1 - 1) * parseIntOr none 10 ∧
    0 ≤ ceilDiv 25 (parseIntOr none 10) :=
  have h := page_and_limit_read (some "2") none
    (fun n hn => by
      have h2 : (some "2" : Option String).bind parseInt = some 2 := by decide
      rw [h2] at hn
      rw [← Option.some.inj hn]
      unfold IsSafeInteger
      decide)
    (fun _ hn => Option.noConfusion hn)
  ⟨h.2.2.2.2.2.2.1 2 (by decide) (by decide), h.2.2.2.2.2.1 (Or.inl rfl),
    (h.2.2.2.2.2.2.2.2 (by decide) (by decide)).1,
    (h.2.2.2.2.2.2.2.2 (by decide) (by decide)).2 25⟩

/-! ## The location filter -/

/-- An alternation matches a prefix when one of its sides does. -/
theorem matchesPrefix_alt (a b : Regex) (t : List Char) :
    (Regex.alt a b).matchesPrefix t = (a.matchesPrefix t || b.matchesPrefix t) := by
  induction t generalizing a b with
  | nil => rfl
  | cons c cs ih =>
    show ((a.nullable || b.nullable) || (Regex.alt (a.deriv c) (b.deriv c)).matchesPrefix cs) = _
    rw [ih]
    show _ = ((a.nullable || (a.deriv c).matchesPrefix cs) ||
      (b.nullable || (b.deriv c).matchesPrefix cs))
    cases a.nullable <;> cases b.nullable <;> cases (a.deriv c).matchesPrefix cs <;>
      cases (b.deriv c).matchesPrefix cs <;> rfl

/-- Nothing matches after a failure. -/
theorem matchesPrefix_fail_seq (r : Regex) (t : List Char) :
    (Regex.seq Regex.fail r).matchesPrefix t = false := by
  induction t with
  | nil => rfl
  | cons c cs ih => exact ih

/-- An empty item in front changes nothing. -/
theorem matchesPrefix_eps_seq (r : Regex) (t : List Char) :
    (Regex.seq Regex.eps r).matchesPrefix t = r.matchesPrefix t := by
  cases t with
  | nil => rfl
  | cons c cs =>
    show ((true && r.nullable) ||
      (Regex.alt (Regex.seq Regex.fail r) (r.deriv c)).matchesPrefix cs) = _
    rw [matchesPrefix_alt, matchesPrefix_fail_seq]
    rfl

/-- A run of literals matches a prefix of the text exactly when, case
folded, it is a prefix of the text. -/
theorem matchesPrefix_literals (q t : List Char) :
    (seqOf (q.map Regex.lit)).matchesPrefix t = true ↔ foldCase q <+: foldCase t := by
  induction q generalizing t with
  | nil =>
    constructor
    · intro _
      exact List.nil_prefix
    · intro _
      cases t <;> rfl
  | cons c q ih =>
    cases t with
    | nil =>
      constructor
      · intro h
        have hfalse : (seqOf ((c :: q).map Regex.lit)).matchesPrefix [] = false := rfl
        rw [hfalse] at h
        exact absurd h (by decide)
      · intro h
        have := List.IsPrefix.length_le h
        simp [foldCase] at this
    | cons d ds =>
      show (false || (Regex.seq (if c.toLower == d.toLower then Regex.eps else Regex.fail)
        (seqOf (q.map Regex.lit))).matchesPrefix ds) = true ↔ _
      rw [Bool.false_or]
      have hcons : foldCase (c :: q) <+: foldCase (d :: ds) ↔
          c.toLower = d.toLower ∧ foldCase q <+: foldCase ds := by
        unfold foldCase
        rw [List.map_cons, List.map_cons, List.cons_prefix_cons]
      rw [hcons]
      by_cases hcd : c.toLower = d.toLower
      · rw [if_pos (by simpa using hcd), matchesPrefix_eps_seq, ih]
        exact ⟨fun h => ⟨hcd, h⟩, fun h => h.2⟩
      · rw [if_neg (by simpa using hcd), matchesPrefix_fail_seq]
        exact ⟨fun h => absurd h (by decide), fun h => absurd h.1 hcd⟩

/-- A run of literals is found in a text exactly when, case folded, it
occurs in the text. -/
theorem search_literals (q t : List Char) :
    (seqOf (q.map Regex.lit)).search t = true ↔ foldCase q <:+: foldCase t := by
  unfold Regex.search
  rw [List.any_eq_true]
  constructor
  · rintro ⟨s, hs, hmatch⟩
    rw [List.mem_tails] at hs
    obtain ⟨pre, rfl⟩ := hs
    obtain ⟨post, hpost⟩ := (matchesPrefix_literals q s).mp hmatch
    refine ⟨foldCase pre, post, ?_⟩
    unfold foldCase at hpost ⊢
    rw [List.map_append, ← hpost, List.append_assoc]
  · rintro ⟨a, b, hab⟩
    unfold foldCase at hab
    rw [List.append_assoc] at hab
    obtain ⟨l1, l2, rfl, _, h2⟩ := List.map_eq_append_iff.mp hab.symm
    refine ⟨l2, (List.mem_tails _ _).mpr (List.suffix_append l1 l2), ?_⟩
    rw [matchesPrefix_literals]
    exact ⟨b, h2.symm⟩

/-- Reading characters without a meaning of their own appends them as
literals to the alternative in progress. -/
theorem readAll_plain (cs : List Char) (hplain : ∀ c, c ∈ cs → isMeta c = false) (st : Reader)
    (hesc : st.escape = false) :
    ∃ st2 : Reader, readAll (Reading.going st) cs = Reading.going st2 ∧
      st2.top.cur = (cs.map Regex.lit).reverse ++ st.top.cur ∧ st2.top.done = st.top.done ∧
      st2.stack = st.stack ∧ st2.escape = false := by
  induction cs generalizing st with
  | nil => exact ⟨st, rfl, rfl, rfl, rfl, hesc⟩
  | cons c cs ih =>
    have hc := hplain c (List.mem_cons_self c cs)
    simp only [isMeta, Bool.or_eq_false_iff, beq_eq_false_iff_ne, ne_eq] at hc
    obtain ⟨⟨⟨⟨⟨⟨⟨⟨⟨⟨⟨⟨⟨h1, h2⟩, h3⟩, h4⟩, h5⟩, h6⟩, h7⟩, h8⟩, h9⟩, h10⟩, h11⟩, _⟩, h13⟩, _⟩ := hc
    have hstep : st.step c = Reading.going (st.push (Regex.lit c)) := by
      unfold Reader.step
      simp [hesc, h1, h2, h3, h4, h5, h6, h7, h8, h9, h10, h11, h13]
    obtain ⟨st2, hrun, hcur, hdone, hstack, hesc2⟩ :=
      ih (fun d hd => hplain d (List.mem_cons_of_mem c hd)) (st.push (Regex.lit c)) rfl
    refine ⟨st2, ?_, ?_, hdone, hstack, hesc2⟩
    · show readAll (st.step c) cs = _
      rw [hstep, hrun]
    · rw [hcur]
      simp [Reader.push]

/-- A pattern without characters with a meaning of their own compiles to
the run of its characters as literals. -/
theorem compile_plain (s : String) (hplain : ∀ c, c ∈ s.data → isMeta c = false) :
    compile s = Compiled.ok (seqOf (s.data.map Regex.lit)) := by
  obtain ⟨st2, hrun, hcur, hdone, hstack, hesc⟩ := readAll_plain s.data hplain
    { top := { done := [], cur := [] }, stack := [], escape := false, prev := Prev.start } rfl
  unfold compile
  simp only [hrun, hesc, hstack, List.isEmpty_nil, Bool.not_true, Bool.or_self,
    Bool.false_eq_true, if_false]
  unfold Frame.close
  rw [hdone, hcur]
  simp

/-- The sample server follows the fragment. -/
theorem fragmentMongo_follows : fragmentMongo.FollowsFragment := by
  intro pattern
  constructor
  · intro r h
    simp [fragmentMongo, h]
  · intro h
    simp [fragmentMongo, h]

/-- Claim C27 as stated fails: the location parameter is handed to `$regex`
as a pattern.  With `location=.` List jobs returns all three active jobs of
`dbListing`, whose location `Pune` contains no full stop; with `location=(`
the pattern is rejected and the answer is 500, also for a job located in
`Pune (East)`, which contains the parenthesis. -/
theorem location_is_read_as_pattern :
    ¬ containsIgnoringCase "." "Pune" ∧
    (getJobs fragmentMongo dbListing none { emptyJobsQuery with location := some "." }).data.map
      (fun pg => pg.data.map (fun item => (item.job.doc.id, item.job.doc.location))) =
      some [(3, "Pune"), (2, "Pune"), (1, "Pune")] ∧
    containsIgnoringCase "(" "Pune (East)" ∧
    Job.find fragmentMongo
      { dbOpenJob with jobs := [{ sampleJob 1 JobStatus.active 0 with location := "Pune (East)" }] }
      (jobsFilter { emptyJobsQuery with location := some "(" }) = none ∧
    (getJobs fragmentMongo
      { dbOpenJob with jobs := [{ sampleJob 1 JobStatus.active 0 with location := "Pune (East)" }] }
      none { emptyJobsQuery with location := some "(" }).status = 500 := by
  refine ⟨?_, by decide, ?_, by decide, by decide⟩
  · unfold containsIgnoringCase foldCase
    decide
  · unfold containsIgnoringCase foldCase
    decide

/-- Claim C27, amended: for a server that follows the fragment and a
location string without any of the characters
`\ ^ $ . | ? * + ( ) [ ] { }`, the compiled pattern accepts a text exactly when the
string, compared case-insensitively, occurs in it as a literal substring;
so the jobs that pass List jobs with this location parameter alone are the
stored active jobs whose location contains the string in that sense. -/
theorem location_filter_plain (eng : Mongo) (heng : eng.FollowsFragment) (s : String)
    (hplain : ∀ c, c ∈ s.data → isMeta c = false) (db : Db) :
    (∃ m, eng.regexI s = some m ∧ ∀ text, m text = true ↔ containsIgnoringCase s text) ∧
    ∃ matching,
      Job.find eng db (jobsFilter { emptyJobsQuery with location := some s }) = some matching ∧
      ∀ j, j ∈ matching ↔
        j ∈ db.jobs ∧ j.status = JobStatus.active ∧ containsIgnoringCase s j.location := by
  have hre : eng.regexI s = some (fun text => (seqOf (s.data.map Regex.lit)).search text.data) :=
    (heng s).1 _ (compile_plain s hplain)
  have hm : ∀ text : String,
      (seqOf (s.data.map Regex.lit)).search text.data = true ↔ containsIgnoringCase s text :=
    fun text => search_literals s.data text.data
  refine ⟨⟨_, hre, hm⟩, ?_⟩
  by_cases hs : s = ""
  · subst hs
    refine ⟨db.jobs.filter (fun j => j.status == JobStatus.active), ?_, fun j => ?_⟩
    · have hf : Option.filter truthyStr (some "") = none := by decide
      simp [Job.find, jobsFilter, emptyJobsQuery, present, hf]
      congr 1
      funext j
      simp [JobFilter.accepts]
    · rw [List.mem_filter]
      have hin : containsIgnoringCase "" j.location := List.nil_infix
      simp [hin]
  · refine ⟨db.jobs.filter (fun j => j.status == JobStatus.active &&
        (seqOf (s.data.map Regex.lit)).search j.location.data), ?_, fun j => ?_⟩
    · have hf : Option.filter truthyStr (some s) = some s := by
        simp [Option.filter, truthyStr, hs]
      simp [Job.find, jobsFilter, emptyJobsQuery, present, hf, hre]
      congr 1
      funext j
      simp [JobFilter.accepts]
    · rw [List.mem_filter, Bool.and_eq_true, hm]
      simp

/-- Instance of C27: with `location=pune` the sample server returns the
active jobs of `dbListing`, all located in `Pune`. -/
theorem location_filter_plain_witness :
    (∀ c, c ∈ ("pune" : String).data → isMeta c = false) ∧
    containsIgnoringCase "pune" "Pune" ∧
    ∃ matching,
      Job.find fragmentMongo dbListing
        (jobsFilter { emptyJobsQuery with location := some "pune" }) = some matching ∧
      ∀ j, j ∈ matching ↔
        j ∈ dbListing.jobs ∧ j.status = JobStatus.active ∧
          containsIgnoringCase "pune" j.location :=
  ⟨by decide, by unfold containsIgnoringCase foldCase; decide,
    (location_filter_plain fragmentMongo fragmentMongo_follows "pune" (by decide) dbListing).2⟩

end Jobify
